import Mathlib

/-
  A shallow embedding of the structural storage engine of `bevy_ecs`
  (file `crates/bevy_ecs/src/world/entity_ref.rs`), together with proofs
  about its bundle-removal, despawn and lookup operations.

  Component values are modelled as `Nat`; machine indices are `Nat`.
  Code that lives in `entity_ref.rs` is translated statement by statement.
  Collaborating structures that the file only calls into (entity index,
  archetype bookkeeping, tables, sparse sets, the bundle inserter) are
  modelled from the specification and marked as such in doc comments.
  Rust panics / `unwrap`s on violated safety preconditions are modelled
  by `Option` results or by explicitly documented junk defaults.
-/

namespace BevyEcs

/- Basic identifiers -/
abbrev ComponentId := Nat
abbrev Val := Nat
abbrev ArchetypeId := Nat
abbrev TableId := Nat
abbrev BundleId := Nat

inductive StorageType where
  | table
  | sparseSet
deriving DecidableEq

structure Entity where
  index : Nat
  generation : Nat
deriving DecidableEq

structure EntityLocation where
  archetype_id : ArchetypeId
  archetype_row : Nat
  table_id : TableId
  table_row : Nat
deriving DecidableEq

instance : Inhabited EntityLocation := ⟨⟨0, 0, 0, 0⟩⟩

/- Association-list helpers with first-occurrence semantics; these model
   the map containers (`SparseSet<K, V>`, edge caches) used by the engine. -/

def alookup {α : Type} : List (Nat × α) → Nat → Option α
  | [], _ => none
  | p :: rest, k => if p.1 = k then some p.2 else alookup rest k

def ainsert {α : Type} : List (Nat × α) → Nat → α → List (Nat × α)
  | [], k, v => [(k, v)]
  | p :: rest, k, v => if p.1 = k then (k, v) :: rest else p :: ainsert rest k v

def aremove {α : Type} : List (Nat × α) → Nat → List (Nat × α)
  | [], _ => []
  | p :: rest, k => if p.1 = k then rest else p :: aremove rest k

/-- Models `map.get_or_insert_with(k, Vec::new).push(x)`. -/
def apush {α : Type} : List (Nat × List α) → Nat → α → List (Nat × List α)
  | [], k, x => [(k, [x])]
  | p :: rest, k, x => if p.1 = k then (k, p.2 ++ [x]) :: rest else p :: apush rest k x

/-- In-place update of index `i` of a list (no-op out of bounds),
    modelling `&mut l[i]` updates. -/
def listModify {α : Type} (l : List α) (i : Nat) (f : α → α) : List α :=
  match l.get? i with
  | some x => l.set i (f x)
  | none => l

/-- `Vec::swap_remove(i)`: the last element is moved into slot `i`
    and the vector shrinks by one. -/
def listSwapRemove {α : Type} (l : List α) (i : Nat) : List α :=
  match l.getLast? with
  | none => []
  | some last => (l.set i last).dropLast

/- ----------------------------------------------------------------
   `sorted_remove` (entity_ref.rs, translated verbatim: `Vec::retain`
   with a captured `remove_index` counter that only moves forward)
   ---------------------------------------------------------------- -/

/-- The `while remove_index < remove.len() && *value > remove[remove_index]`
    loop of `sorted_remove`, written with explicit fuel (the fuel
    `remove.length - ri` below always suffices, so the semantics is exactly
    the Rust loop's). -/
def sortedRemoveAdvanceFuel (remove : List Nat) (v : Nat) : Nat → Nat → Nat
  | 0, ri => ri
  | fuel + 1, ri =>
    if h : ri < remove.length then
      if v > remove.get ⟨ri, h⟩ then sortedRemoveAdvanceFuel remove v fuel (ri + 1)
      else ri
    else ri

/-- The final `remove_index` after the advancing while-loop. -/
def sortedRemoveAdvance (remove : List Nat) (v : Nat) (ri : Nat) : Nat :=
  sortedRemoveAdvanceFuel remove v (remove.length - ri) ri

/-- The `retain` traversal of `sorted_remove`, carrying `remove_index`. -/
def sortedRemoveGo (remove : List Nat) : Nat → List Nat → List Nat
  | _, [] => []
  | ri, v :: rest =>
    let ri' := sortedRemoveAdvance remove v ri
    if h : ri' < remove.length then
      if v ≠ remove.get ⟨ri', h⟩ then v :: sortedRemoveGo remove ri' rest
      else sortedRemoveGo remove ri' rest
    else v :: sortedRemoveGo remove ri' rest

/-- `fn sorted_remove<T: Eq + Ord + Copy>(source: &mut Vec<T>, remove: &[T])`,
    instantiated at `T = Nat` (the engine uses it at `T = ComponentId`). -/
def sorted_remove (source : List Nat) (remove : List Nat) : List Nat :=
  sortedRemoveGo remove 0 source

/- ----------------------------------------------------------------
   Data model
   ---------------------------------------------------------------- -/

/-- One row of a columnar table: the resident entity id plus one cell
    per column (parallel to the table's `columns` list). -/
structure Row where
  entity : Entity
  cells : List Val
deriving DecidableEq

/-- Modelled from the spec: a `Table` is a dense columnar store, one column
    per table-backed component id, all columns sharing row indices
    (`bevy_ecs::storage::Table` is not part of the sources). -/
structure Table where
  columns : List ComponentId
  rows : List Row
deriving DecidableEq

/-- Cell of row `r` for component `c`, given the owning table's columns. -/
def Row.cell (r : Row) (cols : List ComponentId) (c : ComponentId) : Val :=
  match cols.findIdx? (fun x => x = c) with
  | some i => r.cells.getD i 0
  | none => 0

/-- Modelled from the spec: `Table::swap_remove_unchecked` removes a row by
    swap-remove and returns the entity previously held in the last row when
    that row was relocated into the vacated slot. -/
def Table.swap_remove_unchecked (t : Table) (row : Nat) : Table × Option Entity :=
  let swapped :=
    if row + 1 < t.rows.length then (t.rows.getLast?).map (fun r => r.entity) else none
  ({ t with rows := listSwapRemove t.rows row }, swapped)

/-- Result of moving a row between tables. -/
structure TableMoveResult where
  new_row : Nat
  swapped_entity : Option Entity
deriving DecidableEq

/-- Modelled from the spec: `Table::move_to_and_drop_missing_unchecked` /
    `move_to_and_forget_missing_unchecked`. The row is appended to the
    destination table (cells of columns shared with the source keep their
    values; destination-only columns are left to be written by the caller,
    modelled as 0), and the source row is swap-removed. Dropping versus
    forgetting the source-only cells is invisible at the value level. -/
def Table.move_to (src : Table) (row : Nat) (dst : Table) :
    Table × Table × TableMoveResult :=
  match src.rows.get? row with
  | none => (src, dst, ⟨dst.rows.length, none⟩)
  | some r =>
    let newCells := dst.columns.map (fun c =>
      if src.columns.contains c then r.cell src.columns c else 0)
    let dst' := { dst with rows := dst.rows ++ [{ entity := r.entity, cells := newCells }] }
    let (src', swapped) := src.swap_remove_unchecked row
    (src', dst', ⟨dst.rows.length, swapped⟩)

/-- One resident entity of an archetype together with its table row. -/
structure ArchetypeEntity where
  entity : Entity
  table_row : Nat
deriving DecidableEq

/-- The memoized transition caches of one archetype. Strict removal and
    intersection removal key on distinct slots of the same edge storage. -/
structure Edges where
  add_bundle : List (BundleId × ArchetypeId)
  remove_bundle : List (BundleId × Option ArchetypeId)
  remove_bundle_intersection : List (BundleId × Option ArchetypeId)
deriving DecidableEq

def Edges.empty : Edges := ⟨[], [], []⟩

def Edges.get_remove_bundle (e : Edges) (b : BundleId) : Option (Option ArchetypeId) :=
  alookup e.remove_bundle b

def Edges.get_remove_bundle_intersection (e : Edges) (b : BundleId) :
    Option (Option ArchetypeId) :=
  alookup e.remove_bundle_intersection b

/-- The strict or intersection removal cache slot of an edge storage. -/
def Edges.removeSlot (e : Edges) (intersection : Bool) :
    List (BundleId × Option ArchetypeId) :=
  if intersection then e.remove_bundle_intersection else e.remove_bundle

def Edges.insert_remove_bundle (e : Edges) (b : BundleId) (r : Option ArchetypeId) : Edges :=
  { e with remove_bundle := ainsert e.remove_bundle b r }

def Edges.insert_remove_bundle_intersection (e : Edges) (b : BundleId)
    (r : Option ArchetypeId) : Edges :=
  { e with remove_bundle_intersection := ainsert e.remove_bundle_intersection b r }

/-- Modelled from the spec: an `Archetype` names a unique combination of
    component ids, split into table-backed and sparse-backed, references
    its table and keeps the ordered list of resident entities with their
    table rows, plus the edge caches (`bevy_ecs::archetype` is not part of
    the sources). -/
structure Archetype where
  id : ArchetypeId
  table_id : TableId
  table_components : List ComponentId
  sparse_set_components : List ComponentId
  entities : List ArchetypeEntity
  edges : Edges
deriving DecidableEq

def Archetype.contains (a : Archetype) (c : ComponentId) : Bool :=
  a.table_components.contains c || a.sparse_set_components.contains c

/-- `archetype.components()`: all component ids of the archetype. -/
def Archetype.components (a : Archetype) : List ComponentId :=
  a.table_components ++ a.sparse_set_components

def Archetype.get_storage_type (a : Archetype) (c : ComponentId) : Option StorageType :=
  if a.table_components.contains c then some .table
  else if a.sparse_set_components.contains c then some .sparseSet
  else none

structure ArchetypeSwapRemoveResult where
  swapped_entity : Option Entity
  table_row : Nat
deriving DecidableEq

/-- Modelled from the spec: `Archetype::swap_remove(row)` swap-removes the
    resident-entity entry at `row`, reporting the entity moved into the
    vacated slot (if any) and the removed entry's table row. -/
def Archetype.swap_remove (a : Archetype) (row : Nat) : Archetype × ArchetypeSwapRemoveResult :=
  let tr := match a.entities.get? row with
            | some ae => ae.table_row
            | none => 0
  let swapped :=
    if row + 1 < a.entities.length then (a.entities.getLast?).map (fun ae => ae.entity)
    else none
  ({ a with entities := listSwapRemove a.entities row }, ⟨swapped, tr⟩)

/-- Modelled from the spec: `Archetype::allocate(entity, table_row)` appends
    a resident entry and returns the entity's new location. -/
def Archetype.allocate (a : Archetype) (e : Entity) (table_row : Nat) :
    Archetype × EntityLocation :=
  ({ a with entities := a.entities ++ [⟨e, table_row⟩] },
   ⟨a.id, a.entities.length, a.table_id, table_row⟩)

/-- Proof-side abbreviation (not an engine operation): the identity of an
    archetype minus its resident list and caches — id, table and the two
    component sets. Structural operations preserve it pointwise. -/
def Archetype.shape (a : Archetype) :
    ArchetypeId × TableId × List ComponentId × List ComponentId :=
  (a.id, a.table_id, a.table_components, a.sparse_set_components)

/-- `Archetype::set_entity_table_row(row, tr)`. -/
def Archetype.set_entity_table_row (a : Archetype) (row : Nat) (tr : Nat) : Archetype :=
  { a with entities := listModify a.entities row (fun ae => { ae with table_row := tr }) }

/-- Per-index record of the entity directory. -/
structure EntityMeta where
  generation : Nat
  location : Option EntityLocation
deriving DecidableEq

/-- Modelled from the spec: the `Entities` directory maps each index to a
    generation counter and the live entity's current location
    (`bevy_ecs::entity` is not part of the sources). -/
structure Entities where
  meta : List EntityMeta
deriving DecidableEq

/-- `Entities::get`: the stored location, provided index and generation match. -/
def Entities.get (es : Entities) (e : Entity) : Option EntityLocation :=
  match es.meta.get? e.index with
  | some m => if m.generation = e.generation then m.location else none
  | none => none

/-- `Entities::set(index, location)`: raw write of the location record. -/
def Entities.set (es : Entities) (index : Nat) (loc : EntityLocation) : Entities :=
  { es with meta := listModify es.meta index (fun m => { m with location := some loc }) }

/-- Modelled from the spec: `Entities::free` hands back the stored location
    and frees the identifier with its generation incremented, so any retained
    copy of the identifier becomes stale. `none` models the despawn-time
    `expect` on a dead identifier. -/
def Entities.free (es : Entities) (e : Entity) : Option (EntityLocation × Entities) :=
  match es.meta.get? e.index with
  | some m =>
    if m.generation = e.generation then
      match m.location with
      | some loc =>
        some (loc, { es with meta := es.meta.set e.index ⟨m.generation + 1, none⟩ })
      | none => none
    else none
  | none => none

/-- Modelled from the spec: the dual backing stores (dense tables plus
    per-component sparse maps keyed by entity index). -/
structure Storages where
  tables : List Table
  sparse_sets : List (ComponentId × List (Nat × Val))
deriving DecidableEq

/-- `ComponentSparseSet::remove(entity)`: drop the entity's cell in place. -/
def sparseRemove (ss : List (ComponentId × List (Nat × Val))) (c : ComponentId)
    (idx : Nat) : List (ComponentId × List (Nat × Val)) :=
  match alookup ss c with
  | none => ss
  | some m => ainsert ss c (aremove m idx)

/-- `ComponentSparseSet::remove_and_forget(entity)`: take the entity's cell,
    handing ownership of the value to the caller. -/
def sparseRemoveAndForget (ss : List (ComponentId × List (Nat × Val))) (c : ComponentId)
    (idx : Nat) : Option Val × List (ComponentId × List (Nat × Val)) :=
  match alookup ss c with
  | none => (none, ss)
  | some m => (alookup m idx, ainsert ss c (aremove m idx))

/-- The component registry: component id `c` is registered with storage
    classification `reg.get? c` (size/layout/drop data is irrelevant here). -/
def componentsGetInfo (components : List StorageType) (c : ComponentId) :
    Option StorageType :=
  components.get? c

/-- `Components::get_info_unchecked`: registry lookup under the safety
    precondition that `c` is registered (junk default otherwise). -/
def componentsGetInfoUnchecked (components : List StorageType) (c : ComponentId) :
    StorageType :=
  (components.get? c).getD .table

/-- A bundle's identity: bundle id plus its canonically sorted component ids.
    Per the spec, bundle identity is owned by an external registry and is
    consumed as an input. -/
structure BundleInfo where
  id : BundleId
  component_ids : List ComponentId
deriving DecidableEq

/-- The world: entity directory, archetypes, backing stores, component
    registry and the pending-removal ledger. -/
structure World where
  entities : Entities
  archetypes : List Archetype
  storages : Storages
  components : List StorageType
  removed_components : List (ComponentId × List Entity)
deriving DecidableEq

/-- The `EntityMut` view state: the entity plus its cached location. -/
structure EntityMutState where
  entity : Entity
  location : EntityLocation
deriving DecidableEq

/- ----------------------------------------------------------------
   Transition resolution (entity_ref.rs: remove_bundle_from_archetype)
   ---------------------------------------------------------------- -/

/-- Modelled from the spec: `Tables::get_id_or_insert` reuses the existing
    table whose columns match, otherwise allocates a new empty table shape. -/
def tablesGetIdOrInsert (tables : List Table) (columns : List ComponentId) :
    TableId × List Table :=
  match tables.findIdx? (fun t => t.columns == columns) with
  | some i => (i, tables)
  | none => (tables.length, tables ++ [{ columns := columns, rows := [] }])

/-- Modelled from the spec: `Archetypes::get_id_or_insert` registers the
    component-set combination as a new archetype if not already known
    (archetype identity is the pair of sorted component-id sets). -/
def archetypesGetIdOrInsert (archetypes : List Archetype) (table_id : TableId)
    (tcs scs : List ComponentId) : ArchetypeId × List Archetype :=
  match archetypes.findIdx? (fun a =>
      a.table_components == tcs && a.sparse_set_components == scs) with
  | some i => (i, archetypes)
  | none =>
    (archetypes.length,
     archetypes ++ [{ id := archetypes.length, table_id := table_id,
                      table_components := tcs, sparse_set_components := scs,
                      entities := [], edges := Edges.empty }])

/-- Insertion sort used to model `Vec::sort` on component-id lists. -/
def sortedInsertNat (x : Nat) : List Nat → List Nat
  | [] => [x]
  | y :: ys => if x ≤ y then x :: y :: ys else y :: sortedInsertNat x ys

def sortNat (l : List Nat) : List Nat := l.foldr sortedInsertNat []

/-- The classification loop of `remove_bundle_from_archetype`: walk the
    bundle's component ids; a contained component is recorded under its
    storage classification; a missing component is skipped under
    intersection policy and aborts the resolution (`none`) under strict
    policy. -/
def classifyRemoved (arch : Archetype) (components : List StorageType)
    (intersection : Bool) : List ComponentId → Option (List ComponentId × List ComponentId)
  | [] => some ([], [])
  | c :: rest =>
    if arch.contains c then
      match classifyRemoved arch components intersection rest with
      | some (ts, ss) =>
        match componentsGetInfoUnchecked components c with
        | .table => some (c :: ts, ss)
        | .sparseSet => some (ts, c :: ss)
      | none => none
    else if intersection then classifyRemoved arch components intersection rest
    else none

/-- Write the transition result into the archetype's strict or intersection
    remove-bundle cache slot. -/
def setRemoveEdge (archetypes : List Archetype) (aid : ArchetypeId) (bid : BundleId)
    (intersection : Bool) (result : Option ArchetypeId) : List Archetype :=
  listModify archetypes aid (fun a =>
    if intersection then
      { a with edges := a.edges.insert_remove_bundle_intersection bid result }
    else
      { a with edges := a.edges.insert_remove_bundle bid result })

/-- `unsafe fn remove_bundle_from_archetype`, translated from entity_ref.rs.
    Returns the destination archetype (or `none` for an invalid strict
    removal) together with the updated archetype and table collections.
    The out-of-bounds `archetype_id` case (a violated safety precondition)
    is modelled as a no-op returning `none`. -/
def remove_bundle_from_archetype (archetypes : List Archetype) (tables : List Table)
    (components : List StorageType) (archetype_id : ArchetypeId)
    (bundle_info : BundleInfo) (intersection : Bool) :
    Option ArchetypeId × List Archetype × List Table :=
  match archetypes.get? archetype_id with
  | none => (none, archetypes, tables)
  | some current =>
    let cached :=
      if intersection then current.edges.get_remove_bundle_intersection bundle_info.id
      else current.edges.get_remove_bundle bundle_info.id
    match cached with
    | some result =>
      -- this Bundle removal result is cached; returned and re-cached as in
      -- the source, which stores `result` into the edge after the if/else
      (result, setRemoveEdge archetypes archetype_id bundle_info.id intersection result,
       tables)
    | none =>
      match classifyRemoved current components intersection bundle_info.component_ids with
      | none =>
        -- a bundle component was not present: the strict removal is invalid;
        -- the source caches `None` into the strict slot and returns early
        (none, setRemoveEdge archetypes archetype_id bundle_info.id false none, tables)
      | some (removed_table_components, removed_sparse_set_components) =>
        let removed_table_components := sortNat removed_table_components
        let removed_sparse_set_components := sortNat removed_sparse_set_components
        let next_table_components :=
          sorted_remove current.table_components removed_table_components
        let next_sparse_set_components :=
          sorted_remove current.sparse_set_components removed_sparse_set_components
        let (next_table_id, tables') :=
          if removed_table_components.isEmpty then (current.table_id, tables)
          else tablesGetIdOrInsert tables next_table_components
        let (new_archetype_id, archetypes') :=
          archetypesGetIdOrInsert archetypes next_table_id
            next_table_components next_sparse_set_components
        (some new_archetype_id,
         setRemoveEdge archetypes' archetype_id bundle_info.id intersection
           (some new_archetype_id),
         tables')

/- ----------------------------------------------------------------
   take_component and the removal data movement (entity_ref.rs)
   ---------------------------------------------------------------- -/

/-- `pub(crate) unsafe fn take_component`: records the removal in the
    pending-removal ledger and takes ownership of the component value:
    a table-backed value is read out while the table memory is left for the
    caller's later row removal; a sparse-backed value is removed from its
    sparse set. `unwrap`s on violated preconditions yield junk defaults. -/
def take_component (storages : Storages) (components : List StorageType)
    (removed_components : List (ComponentId × List Entity))
    (component_id : ComponentId) (entity : Entity) (location : EntityLocation) :
    Val × Storages × List (ComponentId × List Entity) :=
  let removed' := apush removed_components component_id entity
  match componentsGetInfoUnchecked components component_id with
  | .table =>
    let v := match storages.tables.get? location.table_id with
             | some t =>
               match t.rows.get? location.table_row with
               | some r => r.cell t.columns component_id
               | none => 0
             | none => 0
    (v, storages, removed')
  | .sparseSet =>
    let (v, ss') := sparseRemoveAndForget storages.sparse_sets component_id entity.index
    (v.getD 0, { storages with sparse_sets := ss' }, removed')

/-- The `T::from_components` loop of `EntityMut::remove`: take every bundle
    component in bundle order, threading storages and the ledger. -/
def takeAll (components : List StorageType) (entity : Entity)
    (location : EntityLocation) :
    List ComponentId → Storages → List (ComponentId × List Entity) →
    List Val × Storages × List (ComponentId × List Entity)
  | [], storages, removed => ([], storages, removed)
  | c :: rest, storages, removed =>
    let (v, st', rm') := take_component storages components removed c entity location
    let (vs, st'', rm'') := takeAll components entity location rest st' rm'
    (v :: vs, st'', rm'')

/-- `unsafe fn move_entity_from_remove::<DROP>`, translated from
    entity_ref.rs. Swap-removes the entity's archetype row (setting the
    swapped entity's stored location to `old_location`, as the source
    does), moves its table row when the destination archetype uses a
    different table, allocates it in the new archetype, and writes the new
    location. `DROP` only selects dropping versus forgetting the removed
    cells, which is invisible at the value level. -/
def move_entity_from_remove (_drop : Bool) (entity : Entity)
    (old_archetype_id : ArchetypeId) (old_location : EntityLocation)
    (entities : Entities) (archetypes : List Archetype) (storages : Storages)
    (new_archetype_id : ArchetypeId) :
    EntityLocation × Entities × List Archetype × Storages :=
  match archetypes.get? old_archetype_id with
  | none => (old_location, entities, archetypes, storages)
  | some old_archetype =>
    let (old_archetype', remove_result) :=
      old_archetype.swap_remove old_location.archetype_row
    let archetypes := archetypes.set old_archetype_id old_archetype'
    let entities :=
      match remove_result.swapped_entity with
      | some swapped_entity => entities.set swapped_entity.index old_location
      | none => entities
    let old_table_row := remove_result.table_row
    let old_table_id := old_archetype.table_id
    match archetypes.get? new_archetype_id with
    | none => (old_location, entities, archetypes, storages)
    | some new_archetype =>
      if old_table_id = new_archetype.table_id then
        let (new_archetype', new_location) := new_archetype.allocate entity old_table_row
        let archetypes := archetypes.set new_archetype_id new_archetype'
        let entities := entities.set entity.index new_location
        (new_location, entities, archetypes, storages)
      else
        let old_table := (storages.tables.get? old_table_id).getD ⟨[], []⟩
        let new_table := (storages.tables.get? new_archetype.table_id).getD ⟨[], []⟩
        let (old_table', new_table', move_result) := old_table.move_to old_table_row new_table
        let storages :=
          { storages with
            tables := (storages.tables.set old_table_id old_table').set
              new_archetype.table_id new_table' }
        let (new_archetype', new_location) :=
          new_archetype.allocate entity move_result.new_row
        let archetypes := archetypes.set new_archetype_id new_archetype'
        let archetypes :=
          match move_result.swapped_entity with
          | some swapped_entity =>
            -- if an entity was moved into this entity's table spot, update
            -- its table row (only the archetype record is updated here)
            let swapped_location := (entities.get swapped_entity).getD default
            listModify archetypes swapped_location.archetype_id
              (fun a => a.set_entity_table_row swapped_location.archetype_row old_table_row)
          | none => archetypes
        let entities := entities.set entity.index new_location
        (new_location, entities, archetypes, storages)

/- ----------------------------------------------------------------
   EntityMut::remove / remove_intersection / despawn (entity_ref.rs)
   ---------------------------------------------------------------- -/

/-- `EntityMut::remove::<T>`, translated from entity_ref.rs. The bundle's
    `BundleInfo` is an input, matching the spec's treatment of bundle
    identity as externally owned. Returns the taken component values in
    bundle order (or `none` for an invalid strict removal) together with
    the updated world and view state. -/
def EntityMut.remove (w : World) (s : EntityMutState) (bundle_info : BundleInfo) :
    Option (List Val) × World × EntityMutState :=
  let old_location := s.location
  match remove_bundle_from_archetype w.archetypes w.storages.tables w.components
      old_location.archetype_id bundle_info false with
  | (none, archetypes', tables') =>
    (none,
     { w with archetypes := archetypes',
              storages := { w.storages with tables := tables' } }, s)
  | (some new_archetype_id, archetypes', tables') =>
    let w :=
      { w with archetypes := archetypes',
               storages := { w.storages with tables := tables' } }
    if new_archetype_id = old_location.archetype_id then
      (none, w, s)
    else
      let (vals, storages', removed') :=
        takeAll w.components s.entity old_location bundle_info.component_ids
          w.storages w.removed_components
      let (new_location, entities', archetypes'', storages'') :=
        move_entity_from_remove false s.entity old_location.archetype_id old_location
          w.entities w.archetypes storages' new_archetype_id
      (some vals,
       { w with entities := entities', archetypes := archetypes'',
                storages := storages'', removed_components := removed' },
       { s with location := new_location })

/-- The ledger-and-sparse-drop loop of `EntityMut::remove_intersection`:
    every bundle component contained in the old archetype is appended to the
    pending-removal ledger, and sparse-backed ones are dropped from their
    sparse sets (dense ones are dropped later by the table move). -/
def intersectionLedger (old_archetype : Archetype) (entity : Entity) :
    List ComponentId → List (ComponentId × List Entity) →
    List (ComponentId × List (Nat × Val)) →
    List (ComponentId × List Entity) × List (ComponentId × List (Nat × Val))
  | [], removed, sparse => (removed, sparse)
  | c :: rest, removed, sparse =>
    if old_archetype.contains c then
      let removed' := apush removed c entity
      let sparse' :=
        match old_archetype.get_storage_type c with
        | some .sparseSet => sparseRemove sparse c entity.index
        | _ => sparse
      intersectionLedger old_archetype entity rest removed' sparse'
    else intersectionLedger old_archetype entity rest removed sparse

/-- `EntityMut::remove_intersection::<T>`, translated from entity_ref.rs.
    `none` models the `expect("intersections should always return a
    result")` panic and the violated-location safety precondition. -/
def EntityMut.remove_intersection (w : World) (s : EntityMutState)
    (bundle_info : BundleInfo) : Option (World × EntityMutState) :=
  let old_location := s.location
  match remove_bundle_from_archetype w.archetypes w.storages.tables w.components
      old_location.archetype_id bundle_info true with
  | (none, _, _) => none
  | (some new_archetype_id, archetypes', tables') =>
    let w :=
      { w with archetypes := archetypes',
               storages := { w.storages with tables := tables' } }
    if new_archetype_id = old_location.archetype_id then
      some (w, s)
    else
      match w.archetypes.get? old_location.archetype_id with
      | none => none
      | some old_archetype =>
        let (removed', sparse') :=
          intersectionLedger old_archetype s.entity bundle_info.component_ids
            w.removed_components w.storages.sparse_sets
        let storages := { w.storages with sparse_sets := sparse' }
        let (new_location, entities', archetypes'', storages') :=
          move_entity_from_remove true s.entity old_location.archetype_id old_location
            w.entities w.archetypes storages new_archetype_id
        some
          ({ w with entities := entities', archetypes := archetypes'',
                    storages := storages', removed_components := removed' },
           { s with location := new_location })

/-- `EntityMut::despawn`, translated from entity_ref.rs. `none` models the
    `expect("entity should exist at this point.")` panic on a stale
    identifier and the violated-location safety preconditions. -/
def EntityMut.despawn (w : World) (s : EntityMutState) : Option World :=
  match w.entities.free s.entity with
  | none => none
  | some (location, entities') =>
    match w.archetypes.get? location.archetype_id with
    | none => none
    | some archetype =>
      let removed' :=
        archetype.components.foldl (fun acc c => apush acc c s.entity)
          w.removed_components
      let (archetype', remove_result) := archetype.swap_remove location.archetype_row
      let archetypes := w.archetypes.set location.archetype_id archetype'
      let entities' :=
        match remove_result.swapped_entity with
        | some swapped_entity => entities'.set swapped_entity.index location
        | none => entities'
      let table_row := remove_result.table_row
      let sparse' :=
        archetype.sparse_set_components.foldl
          (fun ss c => sparseRemove ss c s.entity.index) w.storages.sparse_sets
      let (tables', moved_entity) :=
        match w.storages.tables.get? archetype.table_id with
        | some t =>
          let (t', me) := t.swap_remove_unchecked table_row
          (w.storages.tables.set archetype.table_id t', me)
        | none => (w.storages.tables, none)
      let archetypes :=
        match moved_entity with
        | some moved =>
          let moved_location := (entities'.get moved).getD default
          listModify archetypes moved_location.archetype_id
            (fun a => a.set_entity_table_row moved_location.archetype_row table_row)
        | none => archetypes
      let storages' : Storages := { tables := tables', sparse_sets := sparse' }
      some { w with entities := entities', archetypes := archetypes,
                    storages := storages', removed_components := removed' }

/- ----------------------------------------------------------------
   Lookup operations (entity_ref.rs) and their World backends
   ---------------------------------------------------------------- -/

/-- `fn contains_component_with_id`, translated from entity_ref.rs
    (archetype indexing out of bounds is a violated precondition,
    modelled as `false`). -/
def contains_component_with_id (w : World) (component_id : ComponentId)
    (location : EntityLocation) : Bool :=
  match w.archetypes.get? location.archetype_id with
  | some a => a.contains component_id
  | none => false

/-- Modelled from the spec: `World::get_component` (world/mod.rs is not part
    of the sources) reads a table-backed component from the located table
    row's column and a sparse-backed one from the component's sparse set,
    returning absent when the column or cell does not exist. -/
def World.get_component (w : World) (component_id : ComponentId)
    (storage : StorageType) (entity : Entity) (location : EntityLocation) : Option Val :=
  match storage with
  | .table =>
    match w.storages.tables.get? location.table_id with
    | none => none
    | some t =>
      match t.columns.findIdx? (fun x => x = component_id) with
      | none => none
      | some i =>
        match t.rows.get? location.table_row with
        | none => none
        | some r => some (r.cells.getD i 0)
  | .sparseSet =>
    match alookup w.storages.sparse_sets component_id with
    | none => none
    | some m => alookup m entity.index

/-- `EntityRef::get_by_id` / `EntityMut::get_by_id`, translated from
    entity_ref.rs: resolve the storage classification from the registry
    (`None` when the id is unknown) and delegate to `World::get_component`. -/
def EntityRef.get_by_id (w : World) (entity : Entity) (location : EntityLocation)
    (component_id : ComponentId) : Option Val :=
  match componentsGetInfo w.components component_id with
  | none => none
  | some info => w.get_component component_id info entity location

/-- `EntityMut::get_mut_by_id`, translated from entity_ref.rs: check the id
    against the registry, then fetch the component pointer and ticks
    (`get_component_and_ticks` succeeds exactly when `get_component` does;
    the returned `MutUntyped` is modelled by the value). -/
def EntityMut.get_mut_by_id (w : World) (entity : Entity) (location : EntityLocation)
    (component_id : ComponentId) : Option Val :=
  match componentsGetInfo w.components component_id with
  | none => none
  | some info => w.get_component component_id info entity location

/-- `World::get_entity`-style lookup of a live entity's view state. -/
def World.get_entity (w : World) (e : Entity) : Option EntityMutState :=
  (w.entities.get e).map (fun loc => ⟨e, loc⟩)

/- ----------------------------------------------------------------
   Bundle insertion (modelled from the spec; the BundleInserter lives in
   bundle.rs, which is not part of the sources)
   ---------------------------------------------------------------- -/

/-- Merge of two sorted component-id lists without duplicates, written with
    explicit fuel (the fuel `xs.length + ys.length` used below always
    suffices). -/
def sortedMergeFuel : Nat → List Nat → List Nat → List Nat
  | 0, xs, ys => xs ++ ys
  | _ + 1, [], ys => ys
  | _ + 1, x :: xs', [] => x :: xs'
  | fuel + 1, x :: xs', y :: ys' =>
    if x < y then x :: sortedMergeFuel fuel xs' (y :: ys')
    else if y < x then y :: sortedMergeFuel fuel (x :: xs') ys'
    else x :: sortedMergeFuel fuel xs' ys'

/-- Modelled from the spec: the union of two canonically sorted
    component-id sets, computed for an add transition. -/
def sortedMerge (xs : List Nat) (ys : List Nat) : List Nat :=
  sortedMergeFuel (xs.length + ys.length) xs ys

/-- Modelled from the spec: `resolve_add(archetype, bundle)` looks up the
    memoized add edge; on a miss it computes the component-id union,
    partitioned by storage classification, reuses or allocates the table,
    registers the resulting archetype if new, and caches the forward edge
    on the source archetype. -/
def add_bundle_to_archetype (archetypes : List Archetype) (tables : List Table)
    (components : List StorageType) (archetype_id : ArchetypeId)
    (bundle_info : BundleInfo) : ArchetypeId × List Archetype × List Table :=
  match archetypes.get? archetype_id with
  | none => (archetype_id, archetypes, tables)
  | some current =>
    match alookup current.edges.add_bundle bundle_info.id with
    | some result => (result, archetypes, tables)
    | none =>
      let bundle_table_components := bundle_info.component_ids.filter
        (fun c => componentsGetInfoUnchecked components c == StorageType.table)
      let bundle_sparse_set_components := bundle_info.component_ids.filter
        (fun c => componentsGetInfoUnchecked components c == StorageType.sparseSet)
      let next_table_components :=
        sortedMerge current.table_components bundle_table_components
      let next_sparse_set_components :=
        sortedMerge current.sparse_set_components bundle_sparse_set_components
      let (next_table_id, tables') :=
        if next_table_components == current.table_components then
          (current.table_id, tables)
        else tablesGetIdOrInsert tables next_table_components
      let (new_archetype_id, archetypes') :=
        archetypesGetIdOrInsert archetypes next_table_id
          next_table_components next_sparse_set_components
      (new_archetype_id,
       listModify archetypes' archetype_id (fun a =>
         let edges' := { a.edges with
           add_bundle := ainsert a.edges.add_bundle bundle_info.id new_archetype_id }
         { a with edges := edges' }),
       tables')

/-- Modelled from the spec: write one bundle component's value into its
    target slot — a table column cell at the entity's located row, or the
    component's sparse map keyed by entity. -/
def writeComponent (storages : Storages) (components : List StorageType)
    (entity : Entity) (loc : EntityLocation) (c : ComponentId) (v : Val) : Storages :=
  match componentsGetInfoUnchecked components c with
  | .table =>
    { storages with tables := listModify storages.tables loc.table_id (fun t =>
        match t.columns.findIdx? (fun x => x = c) with
        | some i =>
          { t with rows := listModify t.rows loc.table_row (fun r =>
              { r with cells := r.cells.set i v }) }
        | none => t) }
  | .sparseSet =>
    let m := (alookup storages.sparse_sets c).getD []
    let ss' := ainsert storages.sparse_sets c (ainsert m entity.index v)
    { storages with sparse_sets := ss' }

/-- Write all bundle component values (paired with their sorted ids). -/
def writeBundleValues (storages : Storages) (components : List StorageType)
    (entity : Entity) (loc : EntityLocation) :
    List (ComponentId × Val) → Storages
  | [] => storages
  | (c, v) :: rest =>
    writeBundleValues (writeComponent storages components entity loc c v)
      components entity loc rest

/-- Modelled from the spec: the bundle inserter's data movement when the
    destination archetype differs from the source — swap-remove the old
    archetype row, move the table row when the destination table differs
    (position-preserving swap compaction), allocate in the destination, and
    update every affected location record, including that of whichever
    entity was swapped into a vacated slot. -/
def move_entity_from_insert (entity : Entity) (old_location : EntityLocation)
    (entities : Entities) (archetypes : List Archetype) (storages : Storages)
    (new_archetype_id : ArchetypeId) :
    EntityLocation × Entities × List Archetype × Storages :=
  match archetypes.get? old_location.archetype_id with
  | none => (old_location, entities, archetypes, storages)
  | some old_archetype =>
    let (old_archetype', remove_result) :=
      old_archetype.swap_remove old_location.archetype_row
    let archetypes := archetypes.set old_location.archetype_id old_archetype'
    let entities :=
      match remove_result.swapped_entity with
      | some swapped_entity =>
        let swapped_location := (entities.get swapped_entity).getD default
        entities.set swapped_entity.index
          { swapped_location with archetype_row := old_location.archetype_row }
      | none => entities
    let old_table_row := remove_result.table_row
    let old_table_id := old_archetype.table_id
    match archetypes.get? new_archetype_id with
    | none => (old_location, entities, archetypes, storages)
    | some new_archetype =>
      if old_table_id = new_archetype.table_id then
        let (new_archetype', new_location) := new_archetype.allocate entity old_table_row
        let archetypes := archetypes.set new_archetype_id new_archetype'
        let entities := entities.set entity.index new_location
        (new_location, entities, archetypes, storages)
      else
        let old_table := (storages.tables.get? old_table_id).getD ⟨[], []⟩
        let new_table := (storages.tables.get? new_archetype.table_id).getD ⟨[], []⟩
        let (old_table', new_table', move_result) := old_table.move_to old_table_row new_table
        let storages :=
          { storages with
            tables := (storages.tables.set old_table_id old_table').set
              new_archetype.table_id new_table' }
        let (new_archetype', new_location) :=
          new_archetype.allocate entity move_result.new_row
        let archetypes := archetypes.set new_archetype_id new_archetype'
        let entities_archetypes :=
          match move_result.swapped_entity with
          | some swapped_entity =>
            let swapped_location := (entities.get swapped_entity).getD default
            (entities.set swapped_entity.index
               { swapped_location with table_row := old_table_row },
             listModify archetypes swapped_location.archetype_id (fun a =>
               a.set_entity_table_row swapped_location.archetype_row old_table_row))
          | none => (entities, archetypes)
        let entities := entities_archetypes.1.set entity.index new_location
        (new_location, entities, entities_archetypes.2, storages)

/-- Modelled from the spec: `EntityMut::insert` (via the external
    `BundleInserter`) resolves the destination archetype through the add
    edge, relocates the entity's existing component data, writes the
    bundle's values — overwriting any component the entity already has of
    the same id — and returns the new location. `vals` is parallel to the
    bundle's sorted component ids. -/
def EntityMut.insert (w : World) (s : EntityMutState) (bundle_info : BundleInfo)
    (vals : List Val) : World × EntityMutState :=
  let (new_archetype_id, archetypes', tables') :=
    add_bundle_to_archetype w.archetypes w.storages.tables w.components
      s.location.archetype_id bundle_info
  let w :=
    { w with archetypes := archetypes',
             storages := { w.storages with tables := tables' } }
  if new_archetype_id = s.location.archetype_id then
    let storages' := writeBundleValues w.storages w.components s.entity s.location
      (bundle_info.component_ids.zip vals)
    ({ w with storages := storages' }, s)
  else
    let (new_location, entities', archetypes'', storages') :=
      move_entity_from_insert s.entity s.location w.entities w.archetypes
        w.storages new_archetype_id
    let storages'' := writeBundleValues storages' w.components s.entity new_location
      (bundle_info.component_ids.zip vals)
    ({ w with entities := entities', archetypes := archetypes'',
              storages := storages'' },
     { s with location := new_location })

/-- `EntityMut::update_location`, translated from entity_ref.rs: re-read the
    location from the entity directory (the source `unwrap`s; a dead entity
    is a violated precondition, modelled by a junk default). -/
def EntityMut.update_location (w : World) (s : EntityMutState) : EntityMutState :=
  { s with location := (w.entities.get s.entity).getD default }

/-- `EntityMut::world_scope`, translated from entity_ref.rs: run the
    callback on the world, then revalidate the cached location. -/
def EntityMut.world_scope (w : World) (s : EntityMutState) (f : World → World) :
    World × EntityMutState :=
  let w' := f w
  (w', EntityMut.update_location w' s)

/- ----------------------------------------------------------------
   Concrete fixture worlds used to instantiate the theorems
   ---------------------------------------------------------------- -/

/-- Fixture entity with index 0. -/
def entA : Entity := ⟨0, 0⟩

/-- Fixture entity with index 1. -/
def entB : Entity := ⟨1, 0⟩

/-- Fixture: two live entities in one archetype (component 0 table-backed,
    component 1 sparse-backed), packed in table rows 0 and 1. -/
def worldTwoRows : World :=
  { entities := ⟨[⟨0, some ⟨0, 0, 0, 0⟩⟩, ⟨0, some ⟨0, 1, 0, 1⟩⟩]⟩,
    archetypes := [{ id := 0, table_id := 0, table_components := [0],
                     sparse_set_components := [1],
                     entities := [⟨entA, 0⟩, ⟨entB, 1⟩], edges := Edges.empty }],
    storages := { tables := [⟨[0], [⟨entA, [10]⟩, ⟨entB, [11]⟩]⟩],
                  sparse_sets := [(1, [(0, 20), (1, 21)])] },
    components := [.table, .sparseSet],
    removed_components := [] }

/-- Fixture bundle containing only the sparse-backed component 1. -/
def bundleSparse : BundleInfo := ⟨0, [1]⟩

/-- Fixture: one live entity owning only the table-backed component 0
    (component 1 is registered but absent from the entity). -/
def worldOneComp : World :=
  { entities := ⟨[⟨0, some ⟨0, 0, 0, 0⟩⟩]⟩,
    archetypes := [{ id := 0, table_id := 0, table_components := [0],
                     sparse_set_components := [],
                     entities := [⟨entA, 0⟩], edges := Edges.empty }],
    storages := { tables := [⟨[0], [⟨entA, [5]⟩]⟩], sparse_sets := [] },
    components := [.table, .table],
    removed_components := [] }

/-- Fixture bundle {0, 1}. -/
def bundleAB : BundleInfo := ⟨0, [0, 1]⟩

/-- Fixture bundle {0}. -/
def bundleA : BundleInfo := ⟨1, [0]⟩

/-- Fixture empty bundle. -/
def bundleEmpty : BundleInfo := ⟨2, []⟩

/-- Fixture view state: entity `entA` at archetype 0, row 0, table 0, row 0. -/
def stateA0 : EntityMutState := ⟨entA, ⟨0, 0, 0, 0⟩⟩

/- ================================================================
   Lemmas and claim theorems
   ================================================================ -/

theorem sortedRemoveAdvanceFuel_le (remove : List Nat) (v : Nat) :
    ∀ (fuel ri : Nat), ri ≤ sortedRemoveAdvanceFuel remove v fuel ri := by
  intro fuel
  induction fuel with
  | zero => intro ri; exact Nat.le_refl ri
  | succ fuel ih =>
    intro ri
    rw [sortedRemoveAdvanceFuel]
    by_cases hlt : ri < remove.length
    · rw [dif_pos hlt]
      by_cases hv : v > remove.get ⟨ri, hlt⟩
      · rw [if_pos hv]
        exact Nat.le_trans (Nat.le_succ ri) (ih (ri + 1))
      · rw [if_neg hv]
    · rw [dif_neg hlt]

theorem sortedRemoveAdvance_le (remove : List Nat) (v ri : Nat) :
    ri ≤ sortedRemoveAdvance remove v ri :=
  sortedRemoveAdvanceFuel_le remove v (remove.length - ri) ri

theorem sortedRemoveAdvanceFuel_le_length (remove : List Nat) (v : Nat) :
    ∀ (fuel ri : Nat), ri ≤ remove.length →
      sortedRemoveAdvanceFuel remove v fuel ri ≤ remove.length := by
  intro fuel
  induction fuel with
  | zero => intro ri h; exact h
  | succ fuel ih =>
    intro ri h
    rw [sortedRemoveAdvanceFuel]
    by_cases hlt : ri < remove.length
    · rw [dif_pos hlt]
      by_cases hv : v > remove.get ⟨ri, hlt⟩
      · rw [if_pos hv]
        exact ih (ri + 1) hlt
      · rw [if_neg hv]
        exact h
    · rw [dif_neg hlt]
      exact h

theorem sortedRemoveAdvance_le_length (remove : List Nat) (v ri : Nat)
    (h : ri ≤ remove.length) : sortedRemoveAdvance remove v ri ≤ remove.length :=
  sortedRemoveAdvanceFuel_le_length remove v (remove.length - ri) ri h

theorem sortedRemoveAdvance_getD (remove : List Nat) (j : Nat) (hj : j < remove.length) :
    remove.getD j 0 = remove.get ⟨j, hj⟩ := by
  rw [List.getD_eq_get?, List.get?_eq_get hj, Option.getD_some]

theorem sortedRemoveAdvanceFuel_skipped (remove : List Nat) (v : Nat) :
    ∀ (fuel ri j : Nat), ri ≤ j → j < sortedRemoveAdvanceFuel remove v fuel ri →
      remove.getD j 0 < v := by
  intro fuel
  induction fuel with
  | zero =>
    intro ri j hj1 hj2
    simp only [sortedRemoveAdvanceFuel] at hj2
    omega
  | succ fuel ih =>
    intro ri j hj1 hj2
    rw [sortedRemoveAdvanceFuel] at hj2
    by_cases hlt : ri < remove.length
    · rw [dif_pos hlt] at hj2
      by_cases hv : v > remove.get ⟨ri, hlt⟩
      · rw [if_pos hv] at hj2
        rcases Nat.eq_or_lt_of_le hj1 with heq | hgt
        · subst heq
          rw [sortedRemoveAdvance_getD remove ri hlt]
          exact hv
        · exact ih (ri + 1) j hgt hj2
      · rw [if_neg hv] at hj2
        omega
    · rw [dif_neg hlt] at hj2
      omega

theorem sortedRemoveAdvance_skipped (remove : List Nat) (v ri : Nat) :
    ∀ j, ri ≤ j → j < sortedRemoveAdvance remove v ri → remove.getD j 0 < v :=
  fun j hj1 hj2 =>
    sortedRemoveAdvanceFuel_skipped remove v (remove.length - ri) ri j hj1 hj2

theorem sortedRemoveAdvanceFuel_stop (remove : List Nat) (v : Nat) :
    ∀ (fuel ri : Nat), remove.length ≤ ri + fuel →
      sortedRemoveAdvanceFuel remove v fuel ri < remove.length →
      v ≤ remove.getD (sortedRemoveAdvanceFuel remove v fuel ri) 0 := by
  intro fuel
  induction fuel with
  | zero =>
    intro ri hfuel h
    simp only [sortedRemoveAdvanceFuel] at h
    omega
  | succ fuel ih =>
    intro ri hfuel h
    rw [sortedRemoveAdvanceFuel] at h ⊢
    by_cases hlt : ri < remove.length
    · rw [dif_pos hlt] at h ⊢
      by_cases hv : v > remove.get ⟨ri, hlt⟩
      · rw [if_pos hv] at h ⊢
        exact ih (ri + 1) (by omega) h
      · rw [if_neg hv] at h ⊢
        rw [sortedRemoveAdvance_getD remove ri hlt]
        omega
    · rw [dif_neg hlt] at h
      omega

theorem sortedRemoveAdvance_stop (remove : List Nat) (v ri : Nat)
    (h : sortedRemoveAdvance remove v ri < remove.length) :
    v ≤ remove.getD (sortedRemoveAdvance remove v ri) 0 :=
  sortedRemoveAdvanceFuel_stop remove v (remove.length - ri) ri (by omega) h

theorem sortedRemoveGo_eq_filter (remove : List Nat) (hr : remove.Sorted (· ≤ ·)) :
    ∀ (source : List Nat) (ri : Nat), source.Sorted (· ≤ ·) → ri ≤ remove.length →
      (∀ j, j < ri → ∀ x ∈ source, remove.getD j 0 < x) →
      sortedRemoveGo remove ri source =
        source.filter (fun v => !(remove.contains v)) := by
  intro source
  induction source with
  | nil => intro ri _ _ _; simp [sortedRemoveGo]
  | cons v rest ih =>
    intro ri hs hle hinv
    have hs' : rest.Sorted (· ≤ ·) := (List.sorted_cons.mp hs).2
    have hhead : ∀ x ∈ rest, v ≤ x := (List.sorted_cons.mp hs).1
    have hri : ri ≤ sortedRemoveAdvance remove v ri := sortedRemoveAdvance_le remove v ri
    have hle' : sortedRemoveAdvance remove v ri ≤ remove.length :=
      sortedRemoveAdvance_le_length remove v ri hle
    have hpre : ∀ j, j < sortedRemoveAdvance remove v ri → remove.getD j 0 < v := by
      intro j hj
      by_cases hcase : j < ri
      · exact hinv j hcase v (List.mem_cons_self v rest)
      · exact sortedRemoveAdvance_skipped remove v ri j (Nat.le_of_not_lt hcase) hj
    have hinv' : ∀ j, j < sortedRemoveAdvance remove v ri → ∀ x ∈ rest,
        remove.getD j 0 < x := by
      intro j hj x hx
      exact Nat.lt_of_lt_of_le (hpre j hj) (hhead x hx)
    have hgo : sortedRemoveGo remove ri (v :: rest) =
        (if h : sortedRemoveAdvance remove v ri < remove.length then
          if v ≠ remove.get ⟨sortedRemoveAdvance remove v ri, h⟩ then
            v :: sortedRemoveGo remove (sortedRemoveAdvance remove v ri) rest
          else sortedRemoveGo remove (sortedRemoveAdvance remove v ri) rest
        else v :: sortedRemoveGo remove (sortedRemoveAdvance remove v ri) rest) := rfl
    rw [hgo]
    by_cases hlt : sortedRemoveAdvance remove v ri < remove.length
    · rw [dif_pos hlt]
      have hstop : v ≤ remove.getD (sortedRemoveAdvance remove v ri) 0 :=
        sortedRemoveAdvance_stop remove v ri hlt
      by_cases heq : v = remove.get ⟨sortedRemoveAdvance remove v ri, hlt⟩
      · have hv_mem : v ∈ remove := by
          rw [heq]; exact List.get_mem remove _ hlt
        rw [if_neg (by simpa using heq),
          List.filter_cons_of_neg (by simp [hv_mem]),
          ih (sortedRemoveAdvance remove v ri) hs' hle' hinv']
      · have hv_not : v ∉ remove := by
          intro hmem
          obtain ⟨⟨j, hj⟩, hget⟩ := List.mem_iff_get.mp hmem
          by_cases hcase : j < sortedRemoveAdvance remove v ri
          · have := hpre j hcase
            rw [sortedRemoveAdvance_getD remove j hj, hget] at this
            omega
          · have hle2 : sortedRemoveAdvance remove v ri ≤ j := Nat.le_of_not_lt hcase
            have hmono : remove.get ⟨sortedRemoveAdvance remove v ri, hlt⟩ ≤
                remove.get ⟨j, hj⟩ := by
              rcases Nat.eq_or_lt_of_le hle2 with heq2 | hlt2
              · simp [heq2]
              · exact List.pairwise_iff_get.mp hr _ _ hlt2
            rw [hget] at hmono
            rw [sortedRemoveAdvance_getD remove _ hlt] at hstop
            exact heq (by omega)
        rw [if_pos heq, List.filter_cons_of_pos (by simp [hv_not]),
          ih (sortedRemoveAdvance remove v ri) hs' hle' hinv']
    · rw [dif_neg hlt]
      have hv_not : v ∉ remove := by
        intro hmem
        obtain ⟨⟨j, hj⟩, hget⟩ := List.mem_iff_get.mp hmem
        have := hpre j (by omega)
        rw [sortedRemoveAdvance_getD remove j hj, hget] at this
        omega
      rw [List.filter_cons_of_pos (by simp [hv_not]),
        ih (sortedRemoveAdvance remove v ri) hs' hle' hinv']

/-- On ascending inputs, `sorted_remove` computes the order-preserving
    set-difference. -/
theorem sorted_remove_eq_filter (source remove : List Nat)
    (hs : source.Sorted (· ≤ ·)) (hr : remove.Sorted (· ≤ ·)) :
    sorted_remove source remove = source.filter (fun v => !(remove.contains v)) :=
  sortedRemoveGo_eq_filter remove hr source 0 hs (Nat.zero_le _) (by omega)

/-- C9: for every ascending `source` and ascending `remove`,
    `sorted_remove(source, remove)` leaves `source` equal to the subsequence
    of its original elements that do not occur in `remove`, preserving their
    relative order — the sorted set-difference. -/
theorem C9_sorted_remove_is_sorted_set_difference (source remove : List Nat)
    (hs : source.Sorted (· ≤ ·)) (hr : remove.Sorted (· ≤ ·)) :
    sorted_remove source remove = source.filter (fun v => !(remove.contains v)) :=
  sorted_remove_eq_filter source remove hs hr

/- ----------------------------------------------------------------
   Association-list and list-update lemmas
   ---------------------------------------------------------------- -/

theorem alookup_ainsert_self {α : Type} :
    ∀ (l : List (Nat × α)) (k : Nat) (v : α), alookup (ainsert l k v) k = some v
  | [], k, v => by simp [ainsert, alookup]
  | p :: rest, k, v => by
    by_cases h : p.1 = k
    · simp [ainsert, alookup, h]
    · simp [ainsert, alookup, h, alookup_ainsert_self rest k v]

theorem alookup_ainsert_ne {α : Type} :
    ∀ (l : List (Nat × α)) (k k' : Nat) (v : α), k ≠ k' →
      alookup (ainsert l k v) k' = alookup l k'
  | [], k, k', v, h => by simp [ainsert, alookup, h]
  | p :: rest, k, k', v, h => by
    by_cases hp : p.1 = k
    · simp [ainsert, alookup, hp, h]
    · simp [ainsert, alookup, hp, alookup_ainsert_ne rest k k' v h]

theorem ainsert_of_alookup {α : Type} :
    ∀ (l : List (Nat × α)) (k : Nat) (v : α), alookup l k = some v → ainsert l k v = l
  | [], k, v, h => by simp [alookup] at h
  | (p1, p2) :: rest, k, v, h => by
    by_cases hp : p1 = k
    · simp only [alookup, hp, if_pos] at h
      cases h
      simp [ainsert, hp]
    · simp only [alookup, hp, if_neg, if_false] at h
      simp [ainsert, hp, ainsert_of_alookup rest k v h]

theorem list_get?_some_lt {α : Type} {l : List α} {i : Nat} {x : α}
    (h : l.get? i = some x) : i < l.length := by
  by_contra hc
  rw [List.get?_eq_none.mpr (Nat.le_of_not_lt hc)] at h
  cases h

theorem list_get?_set_self {α : Type} :
    ∀ (l : List α) (i : Nat) (x : α), i < l.length → (l.set i x).get? i = some x
  | [], i, x, h => absurd h (by simp)
  | a :: l, 0, x, _ => rfl
  | a :: l, i + 1, x, h => list_get?_set_self l i x (by simpa using h)

theorem list_get?_set_ne {α : Type} :
    ∀ (l : List α) (i j : Nat) (x : α), i ≠ j → (l.set i x).get? j = l.get? j
  | [], _, _, _, _ => rfl
  | a :: l, 0, 0, x, h => absurd rfl h
  | a :: l, 0, j + 1, x, h => rfl
  | a :: l, i + 1, 0, x, h => rfl
  | a :: l, i + 1, j + 1, x, h =>
    list_get?_set_ne l i j x (fun hc => h (by rw [hc]))

theorem list_set_get?_self {α : Type} :
    ∀ (l : List α) (i : Nat) (x : α), l.get? i = some x → l.set i x = l
  | [], i, x, h => by cases h
  | a :: l, 0, x, h => by
    simp only [List.get?] at h
    cases h
    rfl
  | a :: l, i + 1, x, h => by
    simp only [List.get?] at h
    simpa [List.set] using list_set_get?_self l i x h

theorem listModify_get?_self {α : Type} (l : List α) (i : Nat) (f : α → α) :
    (listModify l i f).get? i = (l.get? i).map f := by
  unfold listModify
  split
  next x h =>
    rw [list_get?_set_self l i (f x) (list_get?_some_lt h), h, Option.map_some']
  next h => rw [h, Option.map_none']

theorem listModify_get?_ne {α : Type} (l : List α) (i j : Nat) (f : α → α)
    (h : i ≠ j) : (listModify l i f).get? j = l.get? j := by
  unfold listModify
  cases hg : l.get? i with
  | none => rfl
  | some x => exact list_get?_set_ne l i j (f x) h

theorem listModify_of_get? {α : Type} (l : List α) (i : Nat) (f : α → α) (x : α)
    (hget : l.get? i = some x) (hfix : f x = x) : listModify l i f = l := by
  unfold listModify
  rw [hget]
  show l.set i (f x) = l
  rw [hfix]
  exact list_set_get?_self l i x hget

/- ----------------------------------------------------------------
   Transition-cache lemmas (C4)
   ---------------------------------------------------------------- -/

theorem classifyRemoved_intersection_isSome (arch : Archetype)
    (components : List StorageType) :
    ∀ l : List ComponentId, classifyRemoved arch components true l ≠ none := by
  intro l
  induction l with
  | nil => simp [classifyRemoved]
  | cons c rest ih =>
    simp only [classifyRemoved]
    by_cases hc : arch.contains c
    · simp only [hc, if_pos]
      cases hrec : classifyRemoved arch components true rest with
      | none => exact absurd hrec ih
      | some p =>
        cases p with
        | mk ts ss => cases componentsGetInfoUnchecked components c <;> simp
    · simp [hc, ih]

theorem setRemoveEdge_of_cached (archetypes : List Archetype) (aid : ArchetypeId)
    (bid : BundleId) (pol : Bool) (r : Option ArchetypeId) (a : Archetype)
    (hget : archetypes.get? aid = some a)
    (hc : alookup (a.edges.removeSlot pol) bid = some r) :
    setRemoveEdge archetypes aid bid pol r = archetypes := by
  cases pol with
  | false =>
    unfold setRemoveEdge
    refine listModify_of_get? archetypes aid _ a hget ?_
    have hc' : alookup a.edges.remove_bundle bid = some r := hc
    have he : a.edges.insert_remove_bundle bid r = a.edges := by
      unfold Edges.insert_remove_bundle
      rw [ainsert_of_alookup _ _ _ hc']
    simp only [Bool.false_eq_true, if_false, he]
  | true =>
    unfold setRemoveEdge
    refine listModify_of_get? archetypes aid _ a hget ?_
    have hc' : alookup a.edges.remove_bundle_intersection bid = some r := hc
    have he : a.edges.insert_remove_bundle_intersection bid r = a.edges := by
      unfold Edges.insert_remove_bundle_intersection
      rw [ainsert_of_alookup _ _ _ hc']
    simp only [if_true, he]

theorem setRemoveEdge_get?_self (archetypes : List Archetype) (aid : ArchetypeId)
    (bid : BundleId) (pol : Bool) (r : Option ArchetypeId) (a : Archetype)
    (hget : archetypes.get? aid = some a) :
    ∃ a1, (setRemoveEdge archetypes aid bid pol r).get? aid = some a1 ∧
      alookup (a1.edges.removeSlot pol) bid = some r ∧
      a1.edges.removeSlot (!pol) = a.edges.removeSlot (!pol) ∧
      (a1.id = a.id ∧ a1.table_id = a.table_id ∧
       a1.table_components = a.table_components ∧
       a1.sparse_set_components = a.sparse_set_components ∧
       a1.entities = a.entities) := by
  cases pol with
  | false =>
    refine ⟨{ a with edges := a.edges.insert_remove_bundle bid r }, ?_, ?_, ?_,
      rfl, rfl, rfl, rfl, rfl⟩
    · unfold setRemoveEdge
      rw [listModify_get?_self, hget]
      simp
    · simp [Edges.removeSlot, Edges.insert_remove_bundle, alookup_ainsert_self]
    · simp [Edges.removeSlot, Edges.insert_remove_bundle]
  | true =>
    refine ⟨{ a with edges := a.edges.insert_remove_bundle_intersection bid r },
      ?_, ?_, ?_, rfl, rfl, rfl, rfl, rfl⟩
    · unfold setRemoveEdge
      rw [listModify_get?_self, hget]
      simp
    · simp [Edges.removeSlot, Edges.insert_remove_bundle_intersection,
        alookup_ainsert_self]
    · simp [Edges.removeSlot, Edges.insert_remove_bundle_intersection]

theorem archetypesGetIdOrInsert_get?_lt (archetypes : List Archetype)
    (table_id : TableId) (tcs scs : List ComponentId) (i : Nat)
    (h : i < archetypes.length) :
    (archetypesGetIdOrInsert archetypes table_id tcs scs).2.get? i =
      archetypes.get? i := by
  unfold archetypesGetIdOrInsert
  cases hf : archetypes.findIdx? (fun a =>
      a.table_components == tcs && a.sparse_set_components == scs) with
  | some j => rfl
  | none => exact List.get?_append h

theorem rbfa_of_get?_none (archetypes : List Archetype) (tables : List Table)
    (components : List StorageType) (aid : ArchetypeId) (b : BundleInfo) (pol : Bool)
    (h : archetypes.get? aid = none) :
    remove_bundle_from_archetype archetypes tables components aid b pol =
      (none, archetypes, tables) := by
  unfold remove_bundle_from_archetype
  rw [h]

theorem rbfa_hit (archetypes : List Archetype) (tables : List Table)
    (components : List StorageType) (aid : ArchetypeId) (b : BundleInfo) (pol : Bool)
    (a : Archetype) (r : Option ArchetypeId)
    (hget : archetypes.get? aid = some a)
    (hc : (if pol then a.edges.get_remove_bundle_intersection b.id
           else a.edges.get_remove_bundle b.id) = some r) :
    remove_bundle_from_archetype archetypes tables components aid b pol =
      (r, setRemoveEdge archetypes aid b.id pol r, tables) := by
  cases pol with
  | false =>
    rw [if_neg (by simp)] at hc
    simp only [remove_bundle_from_archetype, hget, Bool.false_eq_true, if_false, hc]
  | true =>
    rw [if_pos rfl] at hc
    simp only [remove_bundle_from_archetype, hget, if_true, hc]

theorem rbfa_of_cached (archetypes : List Archetype) (tables : List Table)
    (components : List StorageType) (aid : ArchetypeId) (b : BundleInfo) (pol : Bool)
    (a : Archetype) (r : Option ArchetypeId)
    (hget : archetypes.get? aid = some a)
    (hc : alookup (a.edges.removeSlot pol) b.id = some r) :
    remove_bundle_from_archetype archetypes tables components aid b pol =
      (r, archetypes, tables) := by
  have hc' : (if pol then a.edges.get_remove_bundle_intersection b.id
      else a.edges.get_remove_bundle b.id) = some r := by
    cases pol
    · exact hc
    · exact hc
  rw [rbfa_hit archetypes tables components aid b pol a r hget hc',
    setRemoveEdge_of_cached archetypes aid b.id pol r a hget hc]

theorem rbfa_miss_strictfail (archetypes : List Archetype) (tables : List Table)
    (components : List StorageType) (aid : ArchetypeId) (b : BundleInfo) (pol : Bool)
    (a : Archetype)
    (hget : archetypes.get? aid = some a)
    (hc : (if pol then a.edges.get_remove_bundle_intersection b.id
           else a.edges.get_remove_bundle b.id) = none)
    (hclass : classifyRemoved a components pol b.component_ids = none) :
    remove_bundle_from_archetype archetypes tables components aid b pol =
      (none, setRemoveEdge archetypes aid b.id false none, tables) := by
  cases pol with
  | false =>
    rw [if_neg (by simp)] at hc
    simp only [remove_bundle_from_archetype, hget, Bool.false_eq_true, if_false, hc,
      hclass]
  | true =>
    exact absurd hclass (classifyRemoved_intersection_isSome a components b.component_ids)

theorem rbfa_miss_success (archetypes : List Archetype) (tables : List Table)
    (components : List StorageType) (aid : ArchetypeId) (b : BundleInfo) (pol : Bool)
    (a : Archetype) (rts rss : List ComponentId) (tid : TableId) (ts' : List Table)
    (naid : ArchetypeId) (as' : List Archetype)
    (hget : archetypes.get? aid = some a)
    (hc : (if pol then a.edges.get_remove_bundle_intersection b.id
           else a.edges.get_remove_bundle b.id) = none)
    (hclass : classifyRemoved a components pol b.component_ids = some (rts, rss))
    (htid : (if (sortNat rts).isEmpty then (a.table_id, tables)
             else tablesGetIdOrInsert tables
               (sorted_remove a.table_components (sortNat rts))) = (tid, ts'))
    (hna : archetypesGetIdOrInsert archetypes tid
        (sorted_remove a.table_components (sortNat rts))
        (sorted_remove a.sparse_set_components (sortNat rss)) = (naid, as')) :
    remove_bundle_from_archetype archetypes tables components aid b pol =
      (some naid, setRemoveEdge as' aid b.id pol (some naid), ts') := by
  cases pol with
  | false =>
    rw [if_neg (by simp)] at hc
    simp only [remove_bundle_from_archetype, hget, Bool.false_eq_true, if_false, hc,
      hclass, htid, hna]
  | true =>
    rw [if_pos rfl] at hc
    simp only [remove_bundle_from_archetype, hget, if_true, hc, hclass, htid, hna]

theorem rbfa_after (archetypes : List Archetype) (tables : List Table)
    (components : List StorageType) (aid : ArchetypeId) (b : BundleInfo) (pol : Bool)
    (a : Archetype) (hget : archetypes.get? aid = some a) :
    ∃ a1, (remove_bundle_from_archetype archetypes tables components
        aid b pol).2.1.get? aid = some a1 ∧
      alookup (a1.edges.removeSlot pol) b.id =
        some (remove_bundle_from_archetype archetypes tables components aid b pol).1 ∧
      a1.edges.removeSlot (!pol) = a.edges.removeSlot (!pol) ∧
      (a1.id = a.id ∧ a1.table_id = a.table_id ∧
       a1.table_components = a.table_components ∧
       a1.sparse_set_components = a.sparse_set_components ∧
       a1.entities = a.entities) := by
  cases hc : (if pol then a.edges.get_remove_bundle_intersection b.id
      else a.edges.get_remove_bundle b.id) with
  | some r0 =>
    rw [rbfa_hit archetypes tables components aid b pol a r0 hget hc]
    exact setRemoveEdge_get?_self archetypes aid b.id pol r0 a hget
  | none =>
    cases hclass : classifyRemoved a components pol b.component_ids with
    | none =>
      have hpol : pol = false := by
        cases pol
        · rfl
        · exact absurd hclass
            (classifyRemoved_intersection_isSome a components b.component_ids)
      subst hpol
      rw [rbfa_miss_strictfail archetypes tables components aid b false a hget hc hclass]
      exact setRemoveEdge_get?_self archetypes aid b.id false none a hget
    | some p =>
      obtain ⟨rts, rss⟩ := p
      cases htid : (if (sortNat rts).isEmpty then (a.table_id, tables)
          else tablesGetIdOrInsert tables
            (sorted_remove a.table_components (sortNat rts))) with
      | mk tid ts' =>
        cases hna : archetypesGetIdOrInsert archetypes tid
            (sorted_remove a.table_components (sortNat rts))
            (sorted_remove a.sparse_set_components (sortNat rss)) with
        | mk naid as' =>
          rw [rbfa_miss_success archetypes tables components aid b pol a rts rss tid ts'
            naid as' hget hc hclass htid hna]
          have h2 := archetypesGetIdOrInsert_get?_lt archetypes tid
            (sorted_remove a.table_components (sortNat rts))
            (sorted_remove a.sparse_set_components (sortNat rss)) aid
            (list_get?_some_lt hget)
          rw [hna] at h2
          have hget' : as'.get? aid = some a := by
            rw [← hget]
            exact h2
          exact setRemoveEdge_get?_self as' aid b.id pol (some naid) a hget'

/-- C4: resolving the removal transition for the same (archetype, bundle)
    pair under the same policy twice returns the identical destination
    archetype id, and the second resolution is a pure cache hit: it leaves
    the archetype and table collections exactly as the first call left them
    (nothing is recomputed or allocated). Moreover the strict and
    intersection policies cache into distinct slots of the same edge
    storage: a resolution under one policy leaves the source archetype's
    cache slot of the other policy untouched. -/
theorem C4_remove_transition_cached (archetypes : List Archetype) (tables : List Table)
    (components : List StorageType) (aid : ArchetypeId) (b : BundleInfo) (pol : Bool) :
    remove_bundle_from_archetype
        (remove_bundle_from_archetype archetypes tables components aid b pol).2.1
        (remove_bundle_from_archetype archetypes tables components aid b pol).2.2
        components aid b pol =
      remove_bundle_from_archetype archetypes tables components aid b pol ∧
    ((remove_bundle_from_archetype archetypes tables components
        aid b pol).2.1.get? aid).map (fun a => a.edges.removeSlot (!pol)) =
      (archetypes.get? aid).map (fun a => a.edges.removeSlot (!pol)) := by
  cases hget : archetypes.get? aid with
  | none =>
    rw [rbfa_of_get?_none archetypes tables components aid b pol hget]
    refine ⟨rbfa_of_get?_none archetypes tables components aid b pol hget, ?_⟩
    show (archetypes.get? aid).map _ = _
    rw [hget]
  | some a =>
    obtain ⟨a1, hga1, hslot, hother, _hshape⟩ :=
      rbfa_after archetypes tables components aid b pol a hget
    constructor
    · exact rbfa_of_cached _ _ components aid b pol a1 _ hga1 hslot
    · rw [hga1, Option.map_some', Option.map_some', hother]

/-- Witness for C9, at the inputs of the source's own unit test. -/
theorem C9_witness :
    sorted_remove [1, 2, 3, 4, 5, 6, 7] [1, 2, 3, 5, 7] =
      List.filter (fun v => !(List.contains [1, 2, 3, 5, 7] v)) [1, 2, 3, 4, 5, 6, 7] :=
  C9_sorted_remove_is_sorted_set_difference [1, 2, 3, 4, 5, 6, 7] [1, 2, 3, 5, 7]
    (by decide) (by decide)

/- ----------------------------------------------------------------
   C8: world_scope revalidates the cached location
   ---------------------------------------------------------------- -/

/-- C8: after `world_scope(f)` returns — for any callback `f` mutating the
    world, provided the entity still exists afterwards — the `EntityMut`'s
    cached location equals the location currently recorded for that entity
    in the entity index, and the resulting world is exactly the callback's
    output, so the handle can be safely reused after nested structural
    mutation. -/
theorem C8_world_scope_revalidates_location (w : World) (s : EntityMutState)
    (f : World → World) (loc : EntityLocation)
    (h : (f w).entities.get s.entity = some loc) :
    (EntityMut.world_scope w s f).2.location = loc ∧
    (EntityMut.world_scope w s f).1.entities.get (EntityMut.world_scope w s f).2.entity =
      some (EntityMut.world_scope w s f).2.location ∧
    (EntityMut.world_scope w s f).1 = f w := by
  have hloc : (EntityMut.world_scope w s f).2.location = loc := by
    show ((f w).entities.get s.entity).getD default = loc
    rw [h]
    rfl
  refine ⟨hloc, ?_, rfl⟩
  show (f w).entities.get s.entity = some ((EntityMut.world_scope w s f).2.location)
  rw [h, hloc]

/-- Witness for C8: the callback structurally mutates the world by
    intersection-removing the sparse component from `entA`, relocating it
    to a newly created archetype; the revalidated handle sees exactly the
    relocated position. -/
theorem C8_witness :
    (EntityMut.world_scope worldTwoRows stateA0
      (fun w => ((EntityMut.remove_intersection w stateA0 bundleSparse).map
        Prod.fst).getD w)).2.location = ⟨1, 0, 0, 0⟩ :=
  (C8_world_scope_revalidates_location worldTwoRows stateA0
    (fun w => ((EntityMut.remove_intersection w stateA0 bundleSparse).map
      Prod.fst).getD w) ⟨1, 0, 0, 0⟩ (by decide)).1

/- ----------------------------------------------------------------
   C2: strict versus intersection removal
   ---------------------------------------------------------------- -/

theorem classifyRemoved_strict_none (a : Archetype) (components : List StorageType) :
    ∀ (l : List ComponentId) (c : ComponentId), c ∈ l → a.contains c = false →
      classifyRemoved a components false l = none := by
  intro l
  induction l with
  | nil => intro c hc; cases hc
  | cons c' rest ih =>
    intro c hc hnc
    rcases List.mem_cons.mp hc with heq | hmem
    · subst heq
      simp [classifyRemoved, hnc]
    · by_cases hc' : a.contains c'
      · simp [classifyRemoved, hc', ih c hmem hnc]
      · simp [classifyRemoved, hc']

theorem remove_strict_missing (w : World) (s : EntityMutState) (b : BundleInfo)
    (c : ComponentId) (a : Archetype)
    (hget : w.archetypes.get? s.location.archetype_id = some a)
    (hc : c ∈ b.component_ids) (hnc : a.contains c = false)
    (hfresh : alookup a.edges.remove_bundle b.id = none) :
    EntityMut.remove w s b =
      (none,
       { w with archetypes :=
           setRemoveEdge w.archetypes s.location.archetype_id b.id false none }, s) := by
  have hclass := classifyRemoved_strict_none a w.components b.component_ids c hc hnc
  have hr := rbfa_miss_strictfail w.archetypes w.storages.tables w.components
    s.location.archetype_id b false a hget hfresh hclass
  unfold EntityMut.remove
  simp only [hr]

theorem remove_intersection_completes (w : World) (s : EntityMutState) (b : BundleInfo)
    (a : Archetype)
    (hget : w.archetypes.get? s.location.archetype_id = some a)
    (hpoison : alookup a.edges.remove_bundle_intersection b.id ≠ some none) :
    (EntityMut.remove_intersection w s b).isSome := by
  obtain ⟨a1, hga1, _hslot, _hother, _hshape⟩ := rbfa_after w.archetypes w.storages.tables
    w.components s.location.archetype_id b true a hget
  cases hr : remove_bundle_from_archetype w.archetypes w.storages.tables w.components
      s.location.archetype_id b true with
  | mk r1 p =>
    cases p with
    | mk as' ts' =>
      have hr1 : r1 ≠ none := by
        intro hnone
        subst hnone
        cases hcache : a.edges.get_remove_bundle_intersection b.id with
        | some r0 =>
          have hhit := rbfa_hit w.archetypes w.storages.tables w.components
            s.location.archetype_id b true a r0 hget hcache
          rw [hr] at hhit
          injection hhit with h1 h2
          exact hpoison (by rw [← h1] at hcache; exact hcache)
        | none =>
          cases hclass : classifyRemoved a w.components true b.component_ids with
          | none =>
            exact absurd hclass
              (classifyRemoved_intersection_isSome a w.components b.component_ids)
          | some pq =>
            obtain ⟨rts, rss⟩ := pq
            cases htid : (if (sortNat rts).isEmpty then (a.table_id, w.storages.tables)
                else tablesGetIdOrInsert w.storages.tables
                  (sorted_remove a.table_components (sortNat rts))) with
            | mk tid ts2 =>
              cases hna : archetypesGetIdOrInsert w.archetypes tid
                  (sorted_remove a.table_components (sortNat rts))
                  (sorted_remove a.sparse_set_components (sortNat rss)) with
              | mk naid as2 =>
                have hms := rbfa_miss_success w.archetypes w.storages.tables w.components
                  s.location.archetype_id b true a rts rss tid ts2 naid as2
                  hget hcache hclass htid hna
                rw [hr] at hms
                injection hms with h1 h2
                cases h1
      cases r1 with
      | none => exact absurd rfl hr1
      | some naid =>
        unfold EntityMut.remove_intersection
        simp only [hr]
        by_cases heq : naid = s.location.archetype_id
        · simp [heq]
        · have hga1' : as'.get? s.location.archetype_id = some a1 := by
            rw [hr] at hga1
            exact hga1
          have hga1'' : as'[s.location.archetype_id]? = some a1 := by
            rw [← List.get?_eq_getElem?]
            exact hga1'
          simp [heq, hga1'']

/-- C2: strict removal (`remove`) returns an absent result when any
    component of the requested bundle is missing from the entity's current
    archetype, leaving the entity index, backing stores, ledger and cached
    location unchanged, while intersection removal always completes.
    Concretely, on the fixture where the entity owns only component 0,
    strict-removing bundle {0, 1} returns absent, while
    intersection-removing it removes exactly component 0: the entity no
    longer contains it and it is the only pending-removal ledger entry. -/
theorem C2_strict_vs_intersection_removal (w : World) (s : EntityMutState)
    (b : BundleInfo) (c : ComponentId) (a : Archetype)
    (hget : w.archetypes.get? s.location.archetype_id = some a)
    (hc : c ∈ b.component_ids) (hnc : a.contains c = false)
    (hfresh : alookup a.edges.remove_bundle b.id = none)
    (hpoison : alookup a.edges.remove_bundle_intersection b.id ≠ some none) :
    (EntityMut.remove w s b).1 = none ∧
    (EntityMut.remove w s b).2.1.storages = w.storages ∧
    (EntityMut.remove w s b).2.1.entities = w.entities ∧
    (EntityMut.remove w s b).2.1.removed_components = w.removed_components ∧
    (EntityMut.remove w s b).2.2 = s ∧
    (EntityMut.remove_intersection w s b).isSome ∧
    (EntityMut.remove worldOneComp stateA0 bundleAB).1 = none ∧
    ((EntityMut.remove_intersection worldOneComp stateA0 bundleAB).map
        (fun p => (contains_component_with_id p.1 0 p.2.location,
                   p.1.removed_components))) = some (false, [(0, [entA])]) := by
  rw [remove_strict_missing w s b c a hget hc hnc hfresh]
  exact ⟨rfl, rfl, rfl, rfl, rfl,
    remove_intersection_completes w s b a hget hpoison, by decide, by decide⟩

/-- Witness for C2 at the fixture inputs. -/
theorem C2_witness :
    (EntityMut.remove worldOneComp stateA0 bundleAB).1 = none ∧
    (EntityMut.remove_intersection worldOneComp stateA0 bundleAB).isSome := by
  have h := C2_strict_vs_intersection_removal worldOneComp stateA0 bundleAB 1
    { id := 0, table_id := 0, table_components := [0], sparse_set_components := [],
      entities := [⟨entA, 0⟩], edges := Edges.empty }
    (by decide) (by decide) (by decide) (by decide) (by decide)
  exact ⟨h.1, h.2.2.2.2.2.1⟩

/- ----------------------------------------------------------------
   C10: a strict removal that resolves to the current archetype
   ---------------------------------------------------------------- -/

theorem tablesGetIdOrInsert_snd (tables : List Table) (cols : List ComponentId) :
    (tablesGetIdOrInsert tables cols).2 = tables ∨
      (tablesGetIdOrInsert tables cols).2 = tables ++ [⟨cols, []⟩] := by
  unfold tablesGetIdOrInsert
  cases tables.findIdx? (fun t => t.columns == cols) with
  | some i => exact Or.inl rfl
  | none => exact Or.inr rfl

theorem rbfa_tables (archetypes : List Archetype) (tables : List Table)
    (components : List StorageType) (aid : ArchetypeId) (b : BundleInfo) (pol : Bool) :
    (remove_bundle_from_archetype archetypes tables components aid b pol).2.2 = tables ∨
      ∃ cols, (remove_bundle_from_archetype archetypes tables components
        aid b pol).2.2 = tables ++ [⟨cols, []⟩] := by
  cases hget : archetypes.get? aid with
  | none =>
    rw [rbfa_of_get?_none archetypes tables components aid b pol hget]
    exact Or.inl rfl
  | some a =>
    cases hc : (if pol then a.edges.get_remove_bundle_intersection b.id
        else a.edges.get_remove_bundle b.id) with
    | some r0 =>
      rw [rbfa_hit archetypes tables components aid b pol a r0 hget hc]
      exact Or.inl rfl
    | none =>
      cases hclass : classifyRemoved a components pol b.component_ids with
      | none =>
        rw [rbfa_miss_strictfail archetypes tables components aid b pol a hget hc hclass]
        exact Or.inl rfl
      | some pq =>
        obtain ⟨rts, rss⟩ := pq
        cases htid : (if (sortNat rts).isEmpty then (a.table_id, tables)
            else tablesGetIdOrInsert tables
              (sorted_remove a.table_components (sortNat rts))) with
        | mk tid ts' =>
          cases hna : archetypesGetIdOrInsert archetypes tid
              (sorted_remove a.table_components (sortNat rts))
              (sorted_remove a.sparse_set_components (sortNat rss)) with
          | mk naid as' =>
            rw [rbfa_miss_success archetypes tables components aid b pol a rts rss tid
              ts' naid as' hget hc hclass htid hna]
            by_cases hemp : (sortNat rts).isEmpty
            · rw [if_pos hemp] at htid
              injection htid with h1 h2
              exact Or.inl h2.symm
            · rw [if_neg hemp] at htid
              rcases tablesGetIdOrInsert_snd tables
                  (sorted_remove a.table_components (sortNat rts)) with h | h
              · rw [htid] at h
                exact Or.inl h
              · rw [htid] at h
                exact Or.inr ⟨_, h⟩

theorem rows_preserved_of_append_empty (tables : List Table) (cols : List ComponentId)
    (i : Nat) :
    (((tables ++ [(⟨cols, []⟩ : Table)]).get? i).map Table.rows).getD [] =
      ((tables.get? i).map Table.rows).getD [] := by
  by_cases h : i < tables.length
  · rw [List.get?_append h]
  · rcases Nat.eq_or_lt_of_le (Nat.le_of_not_lt h) with heq | hgt
    · subst heq
      rw [List.get?_concat_length, List.get?_eq_none.mpr (Nat.le_refl _)]
      rfl
    · rw [List.get?_eq_none.mpr (by simp; omega),
        List.get?_eq_none.mpr (by omega)]

/-- C10: if resolving a strict removal yields a destination archetype
    identical to the entity's current archetype (as an empty bundle does),
    `remove` returns `None` and performs no data movement and no ledger
    append: the entity index, the sparse sets, the pending-removal ledger,
    the cached view state, and the rows of every table are unchanged. -/
theorem C10_strict_remove_to_same_archetype_is_noop (w : World) (s : EntityMutState)
    (b : BundleInfo)
    (h : (remove_bundle_from_archetype w.archetypes w.storages.tables w.components
        s.location.archetype_id b false).1 = some s.location.archetype_id) :
    (EntityMut.remove w s b).1 = none ∧
    (EntityMut.remove w s b).2.1.entities = w.entities ∧
    (EntityMut.remove w s b).2.1.storages.sparse_sets = w.storages.sparse_sets ∧
    (EntityMut.remove w s b).2.1.removed_components = w.removed_components ∧
    (EntityMut.remove w s b).2.2 = s ∧
    ∀ i, (((EntityMut.remove w s b).2.1.storages.tables.get? i).map Table.rows).getD []
      = ((w.storages.tables.get? i).map Table.rows).getD [] := by
  have ht := rbfa_tables w.archetypes w.storages.tables w.components
    s.location.archetype_id b false
  cases hr : remove_bundle_from_archetype w.archetypes w.storages.tables w.components
      s.location.archetype_id b false with
  | mk r1 p =>
    cases p with
    | mk as' ts' =>
      rw [hr] at h ht
      have h' : r1 = some s.location.archetype_id := h
      subst h'
      have hts : ts' = w.storages.tables ∨
          ∃ cols, ts' = w.storages.tables ++ [⟨cols, []⟩] := ht
      unfold EntityMut.remove
      simp only [hr, if_pos rfl]
      refine ⟨rfl, rfl, rfl, rfl, rfl, ?_⟩
      intro i
      show ((ts'.get? i).map Table.rows).getD [] = _
      rcases hts with hts | ⟨cols, hts⟩
      · rw [hts]
      · rw [hts]
        exact rows_preserved_of_append_empty w.storages.tables cols i

/-- Witness for C10: strict removal of the empty bundle resolves back to
    the entity's own archetype. -/
theorem C10_witness :
    (EntityMut.remove worldOneComp stateA0 bundleEmpty).1 = none ∧
    (EntityMut.remove worldOneComp stateA0 bundleEmpty).2.1.entities =
      worldOneComp.entities := by
  have h := C10_strict_remove_to_same_archetype_is_noop worldOneComp stateA0
    bundleEmpty (by decide)
  exact ⟨h.1, h.2.1⟩

/- ----------------------------------------------------------------
   C5: pending-removal ledger lemmas
   ---------------------------------------------------------------- -/

theorem apush_mem_self {α : Type} (e : α) :
    ∀ (m : List (Nat × List α)) (c : Nat), e ∈ (alookup (apush m c e) c).getD []
  | [], c => by simp [apush, alookup]
  | (k0, l0) :: rest, c => by
    by_cases h : k0 = c
    · simp [apush, alookup, h]
    · simp only [apush, h, if_neg, if_false, alookup]
      simp [h, apush_mem_self e rest c]

theorem apush_mem_preserve {α : Type} (e e' : α) :
    ∀ (m : List (Nat × List α)) (c c' : Nat), e ∈ (alookup m c).getD [] →
      e ∈ (alookup (apush m c' e') c).getD []
  | [], c, c', h => by simp [alookup] at h
  | (k0, l0) :: rest, c, c', h => by
    simp only [apush]
    by_cases hk : k0 = c'
    · rw [if_pos hk]
      by_cases hc : c' = c
      · simp only [alookup, if_pos hc, Option.getD_some]
        have hk0c : k0 = c := hk.trans hc
        simp only [alookup, if_pos hk0c, Option.getD_some] at h
        exact List.mem_append_left _ h
      · simp only [alookup, if_neg hc]
        have hk0c : ¬ k0 = c := fun hh => hc (hk.symm.trans hh)
        simp only [alookup, if_neg hk0c] at h
        exact h
    · rw [if_neg hk]
      by_cases hk0c : k0 = c
      · simp only [alookup, if_pos hk0c, Option.getD_some] at h ⊢
        exact h
      · simp only [alookup, if_neg hk0c] at h ⊢
        exact apush_mem_preserve e e' rest c c' h

theorem foldl_apush_preserve {α : Type} (e e' : α) :
    ∀ (l : List Nat) (m : List (Nat × List α)) (c : Nat),
      e ∈ (alookup m c).getD [] →
      e ∈ (alookup (l.foldl (fun acc c' => apush acc c' e') m) c).getD []
  | [], m, c, h => h
  | c0 :: rest, m, c, h =>
    foldl_apush_preserve e e' rest (apush m c0 e') c (apush_mem_preserve e e' m c c0 h)

theorem foldl_apush_mem {α : Type} (e : α) :
    ∀ (l : List Nat) (m : List (Nat × List α)) (c : Nat), c ∈ l →
      e ∈ (alookup (l.foldl (fun acc c' => apush acc c' e) m) c).getD []
  | [], m, c, h => absurd h (List.not_mem_nil c)
  | c0 :: rest, m, c, h => by
    rcases List.mem_cons.mp h with heq | hmem
    · subst heq
      exact foldl_apush_preserve e e rest (apush m c e) c (apush_mem_self e m c)
    · exact foldl_apush_mem e rest (apush m c0 e) c hmem

theorem take_component_removed (storages : Storages) (components : List StorageType)
    (rm : List (ComponentId × List Entity)) (c : ComponentId) (e : Entity)
    (loc : EntityLocation) :
    (take_component storages components rm c e loc).2.2 = apush rm c e := by
  cases h : componentsGetInfoUnchecked components c with
  | table => simp [take_component, h]
  | sparseSet => simp [take_component, h]

theorem takeAll_removed (components : List StorageType) (e : Entity)
    (loc : EntityLocation) :
    ∀ (l : List ComponentId) (st : Storages) (rm : List (ComponentId × List Entity)),
      (takeAll components e loc l st rm).2.2 =
        l.foldl (fun acc c => apush acc c e) rm := by
  intro l
  induction l with
  | nil => intro st rm; rfl
  | cons c rest ih =>
    intro st rm
    cases h1 : take_component st components rm c e loc with
    | mk v q =>
      cases q with
      | mk st' rm' =>
        have hrm' : rm' = apush rm c e := by
          have h := take_component_removed st components rm c e loc
          rw [h1] at h
          exact h
        simp only [takeAll, h1]
        show (takeAll components e loc rest st' rm').2.2 = _
        rw [ih st' rm', List.foldl_cons, ← hrm']

theorem intersectionLedger_fst_preserve (arch : Archetype) (e : Entity) (e' : Entity) :
    ∀ (l : List ComponentId) (removed : List (ComponentId × List Entity))
      (sparse : List (ComponentId × List (Nat × Val))) (c : ComponentId),
      e' ∈ (alookup removed c).getD [] →
      e' ∈ (alookup (intersectionLedger arch e l removed sparse).1 c).getD []
  | [], removed, sparse, c, h => h
  | c0 :: rest, removed, sparse, c, h => by
    by_cases hc0 : arch.contains c0
    · simp only [intersectionLedger, hc0, if_pos]
      exact intersectionLedger_fst_preserve arch e e' rest _ _ c
        (apush_mem_preserve e' e removed c c0 h)
    · simp only [intersectionLedger, hc0, if_neg, if_false]
      exact intersectionLedger_fst_preserve arch e e' rest _ _ c h

theorem intersectionLedger_mem (arch : Archetype) (e : Entity) :
    ∀ (l : List ComponentId) (removed : List (ComponentId × List Entity))
      (sparse : List (ComponentId × List (Nat × Val))) (c : ComponentId),
      c ∈ l → arch.contains c = true →
      e ∈ (alookup (intersectionLedger arch e l removed sparse).1 c).getD []
  | [], removed, sparse, c, h, _ => absurd h (List.not_mem_nil c)
  | c0 :: rest, removed, sparse, c, h, hcont => by
    rcases List.mem_cons.mp h with heq | hmem
    · subst heq
      simp only [intersectionLedger, hcont, if_pos]
      exact intersectionLedger_fst_preserve arch e e rest _ _ c
        (apush_mem_self e removed c)
    · by_cases hc0 : arch.contains c0
      · simp only [intersectionLedger, hc0, if_pos]
        exact intersectionLedger_mem arch e rest _ _ c hmem hcont
      · simp only [intersectionLedger, hc0, if_neg, if_false]
        exact intersectionLedger_mem arch e rest _ _ c hmem hcont

theorem remove_removed_of_some (w : World) (s : EntityMutState) (b : BundleInfo)
    (vals : List Val) (h : (EntityMut.remove w s b).1 = some vals) :
    (EntityMut.remove w s b).2.1.removed_components =
      b.component_ids.foldl (fun acc c => apush acc c s.entity)
        w.removed_components := by
  cases hr : remove_bundle_from_archetype w.archetypes w.storages.tables w.components
      s.location.archetype_id b false with
  | mk r1 p =>
    cases p with
    | mk as' ts' =>
      cases r1 with
      | none =>
        unfold EntityMut.remove at h
        simp only [hr] at h
        exact Option.noConfusion h
      | some naid =>
        by_cases heq : naid = s.location.archetype_id
        · unfold EntityMut.remove at h
          simp only [hr, if_pos heq] at h
          exact Option.noConfusion h
        · unfold EntityMut.remove
          simp only [hr, if_neg heq]
          cases ht : takeAll w.components s.entity s.location b.component_ids
              ⟨ts', w.storages.sparse_sets⟩ w.removed_components with
          | mk vals2 q =>
            cases q with
            | mk st' rm' =>
              have hrm : rm' = b.component_ids.foldl
                  (fun acc c => apush acc c s.entity) w.removed_components := by
                have h2 := takeAll_removed w.components s.entity s.location
                  b.component_ids ⟨ts', w.storages.sparse_sets⟩ w.removed_components
                rw [ht] at h2
                exact h2
              cases hm : move_entity_from_remove false s.entity s.location.archetype_id
                  s.location w.entities as' st' naid with
              | mk loc2 q2 =>
                cases q2 with
                | mk ent2 q3 =>
                  cases q3 with
                  | mk arch2 stor2 =>
                    simp only [ht, hm]
                    exact hrm

theorem remove_intersection_removed (w : World) (s : EntityMutState) (b : BundleInfo)
    (naid : ArchetypeId) (p : World × EntityMutState) (a : Archetype)
    (hget : w.archetypes.get? s.location.archetype_id = some a)
    (hr1 : (remove_bundle_from_archetype w.archetypes w.storages.tables w.components
        s.location.archetype_id b true).1 = some naid)
    (hne : naid ≠ s.location.archetype_id)
    (hp : EntityMut.remove_intersection w s b = some p) :
    ∀ c ∈ b.component_ids, a.contains c = true →
      s.entity ∈ (alookup p.1.removed_components c).getD [] := by
  obtain ⟨a1, hga1, _hslot, _hother, hshape⟩ := rbfa_after w.archetypes w.storages.tables
    w.components s.location.archetype_id b true a hget
  cases hr : remove_bundle_from_archetype w.archetypes w.storages.tables w.components
      s.location.archetype_id b true with
  | mk r1 q =>
    cases q with
    | mk as' ts' =>
      rw [hr] at hr1 hga1
      have hr1' : r1 = some naid := hr1
      subst hr1'
      have hga1' : as'.get? s.location.archetype_id = some a1 := hga1
      unfold EntityMut.remove_intersection at hp
      cases hil : intersectionLedger a1 s.entity b.component_ids
          w.removed_components w.storages.sparse_sets with
      | mk rm' sp' =>
        cases hm : move_entity_from_remove true s.entity s.location.archetype_id
            s.location w.entities as' ⟨ts', sp'⟩ naid with
        | mk loc2 q2 =>
          cases q2 with
          | mk ent2 q3 =>
            cases q3 with
            | mk arch2 stor2 =>
              simp only [hr, if_neg hne, hga1', hil, hm] at hp
              injection hp with hp2
              subst hp2
              intro c hc hcont
              have hcont1 : a1.contains c = true := by
                unfold Archetype.contains at hcont ⊢
                rw [hshape.2.2.1, hshape.2.2.2.1]
                exact hcont
              have hmem := intersectionLedger_mem a1 s.entity b.component_ids
                w.removed_components w.storages.sparse_sets c hc hcont1
              rw [hil] at hmem
              exact hmem

/- ----------------------------------------------------------------
   Despawn lemmas
   ---------------------------------------------------------------- -/

theorem free_eq (es : Entities) (e : Entity) (loc : EntityLocation)
    (hm : es.meta.get? e.index = some ⟨e.generation, some loc⟩) :
    Entities.free es e =
      some (loc, ⟨es.meta.set e.index ⟨e.generation + 1, none⟩⟩) := by
  unfold Entities.free
  simp only [hm]
  simp

theorem listSwapRemove_length {α : Type} (l : List α) (i : Nat) :
    (listSwapRemove l i).length = l.length - 1 := by
  unfold listSwapRemove
  cases hl : l.getLast? with
  | none =>
    cases l with
    | nil => rfl
    | cons x xs => simp [List.getLast?] at hl
  | some x => simp

theorem listModify_length {α : Type} (l : List α) (i : Nat) (f : α → α) :
    (listModify l i f).length = l.length := by
  unfold listModify
  cases h : l.get? i with
  | none => rfl
  | some x => simp

theorem archetypes_len_after (as2 : List Archetype) (j row tr i : Nat) :
    ((listModify as2 j (fun x => x.set_entity_table_row row tr)).get? i).map
      (fun x => x.entities.length) =
    (as2.get? i).map (fun x => x.entities.length) := by
  by_cases hij : j = i
  · subst hij
    rw [listModify_get?_self]
    cases h : as2.get? j with
    | none => rfl
    | some x => simp [Archetype.set_entity_table_row, listModify_length]
  · rw [listModify_get?_ne _ _ _ _ hij]

theorem despawn_parts (w : World) (s : EntityMutState) (loc : EntityLocation)
    (a : Archetype)
    (hmeta : w.entities.meta.get? s.entity.index =
      some ⟨s.entity.generation, some loc⟩)
    (hget : w.archetypes.get? loc.archetype_id = some a) :
    ∃ w', EntityMut.despawn w s = some w' ∧
      w'.removed_components =
        a.components.foldl (fun acc c => apush acc c s.entity)
          w.removed_components ∧
      w'.storages.sparse_sets =
        a.sparse_set_components.foldl
          (fun ss c => sparseRemove ss c s.entity.index) w.storages.sparse_sets ∧
      (w'.entities = ⟨w.entities.meta.set s.entity.index
          ⟨s.entity.generation + 1, none⟩⟩ ∨
        (loc.archetype_row + 1 < a.entities.length ∧
          ∃ ae, a.entities.getLast? = some ae ∧
            w'.entities = Entities.set
              ⟨w.entities.meta.set s.entity.index ⟨s.entity.generation + 1, none⟩⟩
              ae.entity.index loc)) ∧
      (∀ t, w.storages.tables.get? a.table_id = some t →
        (w'.storages.tables.get? a.table_id).map (fun tb => tb.rows.length) =
          some (t.rows.length - 1)) ∧
      ((w'.archetypes.get? loc.archetype_id).map (fun x => x.entities.length) =
        some (a.entities.length - 1)) := by
  have hfree := free_eq w.entities s.entity loc hmeta
  cases hd : EntityMut.despawn w s with
  | none =>
    exfalso
    unfold EntityMut.despawn at hd
    simp only [hfree, hget, Archetype.swap_remove, Table.swap_remove_unchecked] at hd
    cases htab0 : w.storages.tables.get? a.table_id with
    | none =>
      simp only [htab0] at hd
      exact Option.noConfusion hd
    | some t0 =>
      simp only [htab0] at hd
      exact Option.noConfusion hd
  | some w' =>
    refine ⟨w', rfl, ?_⟩
    unfold EntityMut.despawn at hd
    simp only [hfree, hget, Archetype.swap_remove, Table.swap_remove_unchecked] at hd
    cases htab0 : w.storages.tables.get? a.table_id with
    | none =>
      simp only [htab0] at hd
      injection hd with hd2
      subst hd2
      refine ⟨rfl, rfl, ?_, ?_, ?_⟩
      · by_cases hlt : loc.archetype_row + 1 < a.entities.length
        · rw [if_pos hlt]
          cases hgl : a.entities.getLast? with
          | none => exact Or.inl rfl
          | some ae => exact Or.inr ⟨hlt, ae, rfl, rfl⟩
        · rw [if_neg hlt]
          exact Or.inl rfl
      · intro t ht
        exact Option.noConfusion ht
      · have hlenA : loc.archetype_id < w.archetypes.length := list_get?_some_lt hget
        rw [list_get?_set_self w.archetypes loc.archetype_id _ hlenA, Option.map_some']
        show some (listSwapRemove a.entities loc.archetype_row).length = _
        rw [listSwapRemove_length]
    | some t0 =>
      simp only [htab0] at hd
      injection hd with hd2
      subst hd2
      refine ⟨rfl, rfl, ?_, ?_, ?_⟩
      · by_cases hlt : loc.archetype_row + 1 < a.entities.length
        · rw [if_pos hlt]
          cases hgl : a.entities.getLast? with
          | none => exact Or.inl rfl
          | some ae => exact Or.inr ⟨hlt, ae, rfl, rfl⟩
        · rw [if_neg hlt]
          exact Or.inl rfl
      · intro t ht
        injection ht with ht0
        subst ht0
        have hlen : a.table_id < w.storages.tables.length := list_get?_some_lt htab0
        rw [list_get?_set_self w.storages.tables a.table_id _ hlen,
          Option.map_some']
        show some (listSwapRemove t0.rows _).length = _
        rw [listSwapRemove_length]
      · have hlenA : loc.archetype_id < w.archetypes.length := list_get?_some_lt hget
        have hAS : ((w.archetypes.set loc.archetype_id
            { a with entities := listSwapRemove a.entities loc.archetype_row }).get?
              loc.archetype_id).map (fun x => x.entities.length) =
            some (a.entities.length - 1) := by
          rw [list_get?_set_self w.archetypes loc.archetype_id _ hlenA,
            Option.map_some']
          show some (listSwapRemove a.entities loc.archetype_row).length = _
          rw [listSwapRemove_length]
        by_cases hlt2 : (match a.entities.get? loc.archetype_row with
            | some ae => ae.table_row
            | none => 0) + 1 < t0.rows.length
        · rw [if_pos hlt2]
          cases hgl2 : t0.rows.getLast? with
          | none => exact hAS
          | some r =>
            simp only [Option.map_some']
            rw [archetypes_len_after]
            exact hAS
        · rw [if_neg hlt2]
          exact hAS

/-- C5: every component removal appends the entity to the per-component
    pending-removal ledger for each component actually removed from the
    entity: a successful strict `remove` records every bundle component;
    a `remove_intersection` performing a real transition records every
    bundle component the entity's archetype contains; `despawn` records
    every component of the entity's archetype. -/
theorem C5_removals_append_to_ledger
    (w1 : World) (s1 : EntityMutState) (b1 : BundleInfo) (vals : List Val)
    (h1 : (EntityMut.remove w1 s1 b1).1 = some vals)
    (w2 : World) (s2 : EntityMutState) (b2 : BundleInfo) (naid : ArchetypeId)
    (p2 : World × EntityMutState) (a2 : Archetype)
    (hget2 : w2.archetypes.get? s2.location.archetype_id = some a2)
    (hr2 : (remove_bundle_from_archetype w2.archetypes w2.storages.tables w2.components
        s2.location.archetype_id b2 true).1 = some naid)
    (hne2 : naid ≠ s2.location.archetype_id)
    (hp2 : EntityMut.remove_intersection w2 s2 b2 = some p2)
    (w3 : World) (s3 : EntityMutState) (loc3 : EntityLocation) (a3 : Archetype)
    (hmeta3 : w3.entities.meta.get? s3.entity.index =
      some ⟨s3.entity.generation, some loc3⟩)
    (hget3 : w3.archetypes.get? loc3.archetype_id = some a3) :
    (∀ c ∈ b1.component_ids, s1.entity ∈
      (alookup (EntityMut.remove w1 s1 b1).2.1.removed_components c).getD []) ∧
    (∀ c ∈ b2.component_ids, a2.contains c = true →
      s2.entity ∈ (alookup p2.1.removed_components c).getD []) ∧
    (∀ w3', EntityMut.despawn w3 s3 = some w3' →
      ∀ c ∈ a3.components, s3.entity ∈ (alookup w3'.removed_components c).getD []) := by
  refine ⟨?_, remove_intersection_removed w2 s2 b2 naid p2 a2 hget2 hr2 hne2 hp2, ?_⟩
  · intro c hc
    rw [remove_removed_of_some w1 s1 b1 vals h1]
    exact foldl_apush_mem s1.entity b1.component_ids w1.removed_components c hc
  · intro w3' hd c hc
    obtain ⟨w'', hd2, hrm, _⟩ := despawn_parts w3 s3 loc3 a3 hmeta3 hget3
    rw [hd] at hd2
    injection hd2 with h
    subst h
    rw [hrm]
    exact foldl_apush_mem s3.entity a3.components w3.removed_components c hc

/-- Witness for C5, instantiated at the fixtures: a strict removal of
    bundle {0}, an intersection removal of bundle {0, 1}, and a despawn. -/
theorem C5_witness :
    entA ∈ (alookup
      (EntityMut.remove worldOneComp stateA0 bundleA).2.1.removed_components 0).getD [] ∧
    entA ∈ (alookup ((EntityMut.remove_intersection worldOneComp stateA0
      bundleAB).getD (worldOneComp, stateA0)).1.removed_components 0).getD [] ∧
    entA ∈ (alookup ((EntityMut.despawn worldTwoRows stateA0).getD
      worldTwoRows).removed_components 1).getD [] := by
  have h := C5_removals_append_to_ledger
    worldOneComp stateA0 bundleA [5] (by decide)
    worldOneComp stateA0 bundleAB 1
    ((EntityMut.remove_intersection worldOneComp stateA0 bundleAB).getD
      (worldOneComp, stateA0))
    { id := 0, table_id := 0, table_components := [0], sparse_set_components := [],
      entities := [⟨entA, 0⟩], edges := Edges.empty }
    (by decide) (by decide) (by decide) (by decide)
    worldTwoRows stateA0 ⟨0, 0, 0, 0⟩
    { id := 0, table_id := 0, table_components := [0], sparse_set_components := [1],
      entities := [⟨entA, 0⟩, ⟨entB, 1⟩], edges := Edges.empty }
    (by decide) (by decide)
  exact ⟨h.1 0 (by decide), h.2.1 0 (by decide) (by decide),
    h.2.2 ((EntityMut.despawn worldTwoRows stateA0).getD worldTwoRows) (by decide)
      1 (by decide)⟩

/- ----------------------------------------------------------------
   C6: despawn drops everything and stales the identifier
   ---------------------------------------------------------------- -/

theorem alookup_none_of_not_key {α : Type} :
    ∀ (m : List (Nat × α)) (k : Nat), k ∉ m.map Prod.fst → alookup m k = none
  | [], _, _ => rfl
  | (k0, v) :: rest, k, h => by
    have h0 : ¬ k0 = k := fun hh => h (by simp [hh])
    simp only [alookup, if_neg h0]
    exact alookup_none_of_not_key rest k (fun hh => h (by simp [hh]))

theorem alookup_aremove_none {α : Type} :
    ∀ (m : List (Nat × α)) (k k2 : Nat), alookup m k = none →
      alookup (aremove m k2) k = none
  | [], _, _, _ => rfl
  | (k0, v) :: rest, k, k2, h => by
    simp only [alookup] at h
    by_cases h0 : k0 = k
    · rw [if_pos h0] at h
      exact Option.noConfusion h
    · rw [if_neg h0] at h
      simp only [aremove]
      by_cases h2 : k0 = k2
      · rw [if_pos h2]
        exact h
      · rw [if_neg h2]
        simp only [alookup, if_neg h0]
        exact alookup_aremove_none rest k k2 h

theorem aremove_keys_sublist {α : Type} :
    ∀ (m : List (Nat × α)) (k : Nat),
      ((aremove m k).map Prod.fst).Sublist (m.map Prod.fst)
  | [], k => List.Sublist.refl _
  | (k0, v) :: rest, k => by
    simp only [aremove]
    by_cases h : k0 = k
    · rw [if_pos h]
      simp only [List.map_cons]
      exact List.sublist_cons_self _ _
    · rw [if_neg h]
      simp only [List.map_cons]
      exact List.Sublist.cons₂ _ (aremove_keys_sublist rest k)

theorem alookup_aremove_self {α : Type} :
    ∀ (m : List (Nat × α)) (k : Nat), (m.map Prod.fst).Nodup →
      alookup (aremove m k) k = none
  | [], k, _ => rfl
  | (k0, v) :: rest, k, hnd => by
    have hnd2 : k0 ∉ rest.map Prod.fst ∧ (rest.map Prod.fst).Nodup := by
      rw [List.map_cons] at hnd
      exact List.nodup_cons.mp hnd
    by_cases h : k0 = k
    · simp only [aremove, if_pos h]
      subst h
      exact alookup_none_of_not_key rest k0 hnd2.1
    · simp only [aremove, if_neg h, alookup, if_neg h]
      exact alookup_aremove_self rest k hnd2.2

theorem sparseRemove_nodup_preserve (ss : List (ComponentId × List (Nat × Val)))
    (c0 : ComponentId) (idx : Nat)
    (h : ∀ c m, alookup ss c = some m → (m.map Prod.fst).Nodup) :
    ∀ c m, alookup (sparseRemove ss c0 idx) c = some m → (m.map Prod.fst).Nodup := by
  intro c m hm
  unfold sparseRemove at hm
  cases h0 : alookup ss c0 with
  | none =>
    rw [h0] at hm
    exact h c m hm
  | some m0 =>
    rw [h0] at hm
    by_cases hc : c0 = c
    · subst hc
      rw [alookup_ainsert_self] at hm
      injection hm with hm2
      subst hm2
      exact List.Nodup.sublist (aremove_keys_sublist m0 idx) (h c0 m0 h0)
    · rw [alookup_ainsert_ne _ _ _ _ hc] at hm
      exact h c m hm

theorem sparseRemove_absent_preserve (ss : List (ComponentId × List (Nat × Val)))
    (c c2 : ComponentId) (idx : Nat)
    (h : ∀ m, alookup ss c = some m → alookup m idx = none) :
    ∀ m, alookup (sparseRemove ss c2 idx) c = some m → alookup m idx = none := by
  intro m hm
  unfold sparseRemove at hm
  cases h0 : alookup ss c2 with
  | none =>
    rw [h0] at hm
    exact h m hm
  | some m0 =>
    rw [h0] at hm
    by_cases hc : c2 = c
    · subst hc
      rw [alookup_ainsert_self] at hm
      injection hm with hm2
      subst hm2
      exact alookup_aremove_none m0 idx idx (h m0 h0)
    · rw [alookup_ainsert_ne _ _ _ _ hc] at hm
      exact h m hm

theorem sparseRemove_absent_self (ss : List (ComponentId × List (Nat × Val)))
    (c : ComponentId) (idx : Nat)
    (hnd : ∀ m, alookup ss c = some m → (m.map Prod.fst).Nodup) :
    ∀ m, alookup (sparseRemove ss c idx) c = some m → alookup m idx = none := by
  intro m hm
  unfold sparseRemove at hm
  cases h0 : alookup ss c with
  | none => simp [h0] at hm
  | some m0 =>
    rw [h0] at hm
    rw [alookup_ainsert_self] at hm
    injection hm with hm2
    subst hm2
    exact alookup_aremove_self m0 idx (hnd m0 h0)

theorem foldl_sparseRemove_preserve (idx : Nat) :
    ∀ (l : List ComponentId) (ss : List (ComponentId × List (Nat × Val)))
      (c : ComponentId),
      (∀ m, alookup ss c = some m → alookup m idx = none) →
      ∀ m, alookup (l.foldl (fun ss2 c2 => sparseRemove ss2 c2 idx) ss) c = some m →
        alookup m idx = none
  | [], ss, c, h, m, hm => h m hm
  | c0 :: rest, ss, c, h, m, hm =>
    foldl_sparseRemove_preserve idx rest _ c
      (sparseRemove_absent_preserve ss c c0 idx h) m hm

theorem foldl_sparseRemove_absent (idx : Nat) :
    ∀ (l : List ComponentId) (ss : List (ComponentId × List (Nat × Val)))
      (c : ComponentId), c ∈ l →
      (∀ c2 m, alookup ss c2 = some m → (m.map Prod.fst).Nodup) →
      ∀ m, alookup (l.foldl (fun ss2 c2 => sparseRemove ss2 c2 idx) ss) c = some m →
        alookup m idx = none
  | [], ss, c, h, _, m, _ => absurd h (List.not_mem_nil c)
  | c0 :: rest, ss, c, h, hnd, m, hm => by
    rcases List.mem_cons.mp h with heq | hmem
    · subst heq
      exact foldl_sparseRemove_preserve idx rest _ c
        (sparseRemove_absent_self ss c idx (fun m2 h2 => hnd c m2 h2)) m hm
    · exact foldl_sparseRemove_absent idx rest _ c hmem
        (sparseRemove_nodup_preserve ss c0 idx hnd) m hm

theorem entities_get_none_of_bumped (meta : List EntityMeta) (e : Entity)
    (hlen : e.index < meta.length) :
    Entities.get ⟨meta.set e.index ⟨e.generation + 1, none⟩⟩ e = none := by
  unfold Entities.get
  show (match (meta.set e.index ⟨e.generation + 1, none⟩).get? e.index with
    | some m => if m.generation = e.generation then m.location else none
    | none => none) = none
  rw [list_get?_set_self meta e.index _ hlen]
  simp

theorem entities_set_get_none (es : Entities) (i : Nat) (loc : EntityLocation)
    (e : Entity)
    (hgen : ∀ m, es.meta.get? e.index = some m → m.generation ≠ e.generation) :
    Entities.get (Entities.set es i loc) e = none := by
  have hij : (Entities.set es i loc).meta.get? e.index = es.meta.get? e.index ∨
      (Entities.set es i loc).meta.get? e.index =
        (es.meta.get? e.index).map (fun m => { m with location := some loc }) := by
    unfold Entities.set
    by_cases hie : i = e.index
    · subst hie
      exact Or.inr (listModify_get?_self es.meta e.index _)
    · exact Or.inl (listModify_get?_ne es.meta i e.index _ hie)
  unfold Entities.get
  cases hm : es.meta.get? e.index with
  | none =>
    rcases hij with hij | hij
    · rw [hm] at hij
      simp only [hij]
    · rw [hm] at hij
      simp only [Option.map_none'] at hij
      simp only [hij]
  | some m =>
    have hgm := hgen m hm
    rcases hij with hij | hij
    · rw [hm] at hij
      simp only [hij]
      simp [hgm]
    · rw [hm] at hij
      simp only [Option.map_some'] at hij
      simp only [hij]
      simp [hgm]

theorem entities_set_meta_ne (es : Entities) (i : Nat) (loc : EntityLocation)
    (j : Nat) (hne : i ≠ j) :
    (Entities.set es i loc).meta.get? j = es.meta.get? j := by
  unfold Entities.set
  exact listModify_get?_ne es.meta i j _ hne

/-- C6: `despawn` drops all the entity's component values in place — each
    sparse set loses the entity's cell and the entity's table row is
    swap-removed (the table shrinks by one row), with no value handed to the
    caller — swap-removes its archetype row, clears its location record, and
    frees the identifier with its generation incremented, so that every
    subsequent lookup through the old identifier reports absent. -/
theorem alookup_mem {α : Type} :
    ∀ (l : List (Nat × α)) (k : Nat) (v : α), alookup l k = some v → (k, v) ∈ l
  | [], k, v, h => by cases h
  | (k0, v0) :: rest, k, v, h => by
    by_cases h0 : k0 = k
    · simp only [alookup, if_pos h0] at h
      injection h with h2
      subst h2
      subst h0
      exact List.mem_cons_self _ _
    · simp only [alookup, if_neg h0] at h
      exact List.mem_cons_of_mem _ (alookup_mem rest k v h)

theorem C6_despawn_drops_and_stales (w : World) (s : EntityMutState)
    (loc : EntityLocation) (a : Archetype) (t : Table)
    (hmeta : w.entities.meta.get? s.entity.index =
      some ⟨s.entity.generation, some loc⟩)
    (hget : w.archetypes.get? loc.archetype_id = some a)
    (htab : w.storages.tables.get? a.table_id = some t)
    (hnodup : ∀ p ∈ w.storages.sparse_sets, ((p.2).map Prod.fst).Nodup)
    (hswapne : loc.archetype_row + 1 < a.entities.length →
      ∀ ae, a.entities.getLast? = some ae →
        ae.entity.index ≠ s.entity.index) :
    ∃ w', EntityMut.despawn w s = some w' ∧
      World.get_entity w' s.entity = none ∧
      w'.entities.get s.entity = none ∧
      ((w'.entities.meta.get? s.entity.index).map (fun m => m.generation)) =
        some (s.entity.generation + 1) ∧
      ((w'.entities.meta.get? s.entity.index).map (fun m => m.location)) =
        some none ∧
      (∀ c ∈ a.sparse_set_components, ∀ m,
        alookup w'.storages.sparse_sets c = some m →
        alookup m s.entity.index = none) ∧
      ((w'.storages.tables.get? a.table_id).map (fun tb => tb.rows.length) =
        some (t.rows.length - 1)) ∧
      ((w'.archetypes.get? loc.archetype_id).map (fun x => x.entities.length) =
        some (a.entities.length - 1)) := by
  obtain ⟨w', hd, hrm, hsp, hent, htb, harch⟩ :=
    despawn_parts w s loc a hmeta hget
  have hlen : s.entity.index < w.entities.meta.length := list_get?_some_lt hmeta
  have hmeta' : (⟨w.entities.meta.set s.entity.index
      ⟨s.entity.generation + 1, none⟩⟩ : Entities).meta.get? s.entity.index =
      some ⟨s.entity.generation + 1, none⟩ :=
    list_get?_set_self w.entities.meta s.entity.index _ hlen
  have hgete : w'.entities.get s.entity = none := by
    rcases hent with hent | ⟨hlt2, ae, hae, hent⟩
    · rw [hent]
      exact entities_get_none_of_bumped w.entities.meta s.entity hlen
    · rw [hent]
      refine entities_set_get_none _ _ _ _ ?_
      intro m hm
      rw [hmeta'] at hm
      injection hm with hm2
      subst hm2
      simp
  have hmetaW : w'.entities.meta.get? s.entity.index =
      some ⟨s.entity.generation + 1, none⟩ := by
    rcases hent with hent | ⟨hlt2, ae, hae, hent⟩
    · rw [hent]
      exact hmeta'
    · rw [hent, entities_set_meta_ne _ _ _ _ (hswapne hlt2 ae hae)]
      exact hmeta'
  refine ⟨w', hd, ?_, hgete, ?_, ?_, ?_, htb t htab, harch⟩
  · unfold World.get_entity
    rw [hgete]
    rfl
  · rw [hmetaW]
    rfl
  · rw [hmetaW]
    rfl
  · intro c hc m hm
    rw [hsp] at hm
    exact foldl_sparseRemove_absent s.entity.index a.sparse_set_components
      w.storages.sparse_sets c hc
      (fun c2 m2 hm2 => hnodup (c2, m2) (alookup_mem _ _ _ hm2)) m hm

/-- Witness for C6 at the two-entity fixture: despawning `entA`. -/
theorem C6_witness :
    ∃ w', EntityMut.despawn worldTwoRows stateA0 = some w' ∧
      World.get_entity w' entA = none := by
  obtain ⟨w', hd, hge, _⟩ := C6_despawn_drops_and_stales worldTwoRows stateA0
    ⟨0, 0, 0, 0⟩
    { id := 0, table_id := 0, table_components := [0], sparse_set_components := [1],
      entities := [⟨entA, 0⟩, ⟨entB, 1⟩], edges := Edges.empty }
    ⟨[0], [⟨entA, [10]⟩, ⟨entB, [11]⟩]⟩
    (by decide) (by decide) (by decide) (by decide)
    (by intro hlt2 ae hae; cases hae; decide)
  exact ⟨w', hd, hge⟩

/- ----------------------------------------------------------------
   C1: the location invariant is broken for the swapped entity
   ---------------------------------------------------------------- -/

/-- C1 fails on the code: in the two-entity fixture, intersection-removing
    the sparse component from `entA` swap-removes `entA`'s archetype row,
    and `move_entity_from_remove` writes the *removed* entity's whole old
    location (including its `table_row` 0) into the swapped entity `entB`'s
    index record. `entB`'s table row is still 1 — both the archetype's own
    record and the table agree — so the stored location of the live entity
    `entB` names table row 0, a row that actually holds `entA`'s id (and
    `entA`'s component value 10 rather than `entB`'s 11). -/
theorem C1_swapped_entity_stored_location_goes_stale :
    (EntityMut.remove_intersection worldTwoRows stateA0 bundleSparse).isSome ∧
    (((EntityMut.remove_intersection worldTwoRows stateA0 bundleSparse).map
        Prod.fst).getD worldTwoRows).entities.get entB = some ⟨0, 0, 0, 0⟩ ∧
    ((((EntityMut.remove_intersection worldTwoRows stateA0 bundleSparse).map
        Prod.fst).getD worldTwoRows).archetypes.get? 0).map
          (fun a => a.entities) = some [⟨entB, 1⟩] ∧
    (((((EntityMut.remove_intersection worldTwoRows stateA0 bundleSparse).map
        Prod.fst).getD worldTwoRows).storages.tables.get? 0).bind
          (fun t => t.rows.get? 0)).map (fun r => r.entity) = some entA ∧
    EntityRef.get_by_id
      (((EntityMut.remove_intersection worldTwoRows stateA0 bundleSparse).map
        Prod.fst).getD worldTwoRows) entB ⟨0, 0, 0, 0⟩ 0 = some 10 := by
  decide

/- ----------------------------------------------------------------
   C7: untyped lookups report absent uniformly
   ---------------------------------------------------------------- -/

theorem contains_eq_false_of_not_mem {l : List Nat} {c : Nat} (h : c ∉ l) :
    l.contains c = false := by
  cases hc : l.contains c
  · rfl
  · exact absurd (List.elem_iff.mp hc) h

theorem get_component_table_eq (w : World) (c : ComponentId) (e : Entity)
    (loc : EntityLocation) (t : Table)
    (htab : w.storages.tables.get? loc.table_id = some t) :
    w.get_component c StorageType.table e loc =
      (match t.columns.findIdx? (fun x => x = c) with
        | none => none
        | some i =>
          match t.rows.get? loc.table_row with
          | none => none
          | some r => some (r.cells.getD i 0)) := by
  unfold World.get_component
  rw [htab]

/-- C7: the untyped lookups `get_by_id` and `get_mut_by_id` return an absent
    result exactly when the id is unknown to the component registry or the
    entity's current archetype does not contain that component (stated for a
    location-consistent world: the located table carries exactly the
    archetype's table columns, the located row exists, storage
    classifications agree with the registry, and the sparse set holds the
    entity's cell exactly when the archetype lists the component as
    sparse); both accessors use the very same absent signal. -/
theorem C7_lookup_by_id_absent_iff (w : World) (e : Entity) (loc : EntityLocation)
    (c : ComponentId) (a : Archetype) (t : Table)
    (hget : w.archetypes.get? loc.archetype_id = some a)
    (htab : w.storages.tables.get? loc.table_id = some t)
    (hcols : t.columns = a.table_components)
    (hrow : loc.table_row < t.rows.length)
    (hclassT : c ∈ a.table_components → w.components.get? c = some StorageType.table)
    (hclassS : c ∈ a.sparse_set_components →
      w.components.get? c = some StorageType.sparseSet)
    (hsparse : ((alookup w.storages.sparse_sets c).bind
        (fun m => alookup m e.index)).isSome = a.sparse_set_components.contains c) :
    (EntityRef.get_by_id w e loc c = none ↔
      (w.components.get? c = none ∨ contains_component_with_id w c loc = false)) ∧
    EntityMut.get_mut_by_id w e loc c = EntityRef.get_by_id w e loc c := by
  refine ⟨?_, rfl⟩
  have hcontains : contains_component_with_id w c loc =
      (a.table_components.contains c || a.sparse_set_components.contains c) := by
    unfold contains_component_with_id
    rw [hget]
    rfl
  unfold EntityRef.get_by_id componentsGetInfo
  cases hreg : w.components.get? c with
  | none => simp
  | some info =>
    show w.get_component c info e loc = none ↔
      (some info = none ∨ contains_component_with_id w c loc = false)
    cases info with
    | table =>
      have hnotS : ¬ c ∈ a.sparse_set_components := by
        intro hmem
        have : some StorageType.table = some StorageType.sparseSet :=
          hreg.symm.trans (hclassS hmem)
        injection this with h2
        exact StorageType.noConfusion h2
      rw [get_component_table_eq w c e loc t htab]
      by_cases hmem : c ∈ a.table_components
      · have hfi : (t.columns.findIdx? (fun x => x = c)).isSome = true := by
          rw [List.findIdx?_isSome, List.any_eq_true]
          refine ⟨c, ?_, by simp⟩
          rw [hcols]
          exact hmem
        obtain ⟨i, hi⟩ := Option.isSome_iff_exists.mp hfi
        simp only [hi, List.get?_eq_get hrow]
        constructor
        · intro hcontra
          exact Option.noConfusion hcontra
        · intro hor
          rcases hor with hor | hor
          · exact Option.noConfusion hor
          · have hc : a.table_components.contains c = true := List.elem_iff.mpr hmem
            rw [hcontains, hc, Bool.true_or] at hor
            exact Bool.noConfusion hor
      · have hfi : t.columns.findIdx? (fun x => x = c) = none := by
          rw [List.findIdx?_eq_none_iff]
          intro x hx
          simp only [decide_eq_false_iff_not]
          intro hxc
          subst hxc
          rw [hcols] at hx
          exact hmem hx
        simp only [hfi, true_iff]
        right
        rw [hcontains, contains_eq_false_of_not_mem hmem,
          contains_eq_false_of_not_mem hnotS]
        rfl
    | sparseSet =>
      have hnotT : ¬ c ∈ a.table_components := by
        intro hmem
        have : some StorageType.sparseSet = some StorageType.table :=
          hreg.symm.trans (hclassT hmem)
        injection this with h2
        exact StorageType.noConfusion h2
      have hbind : w.get_component c StorageType.sparseSet e loc =
          (alookup w.storages.sparse_sets c).bind (fun m => alookup m e.index) := by
        unfold World.get_component
        cases alookup w.storages.sparse_sets c <;> rfl
      rw [hbind]
      constructor
      · intro hnone
        right
        rw [hcontains, contains_eq_false_of_not_mem hnotT]
        rw [hnone] at hsparse
        rw [← hsparse]
        rfl
      · intro hor
        rcases hor with hor | hor
        · exact Option.noConfusion hor
        · rw [hcontains] at hor
          have hsc : a.sparse_set_components.contains c = false := by
            cases h1 : a.sparse_set_components.contains c
            · rfl
            · rw [h1, Bool.or_true] at hor
              exact hor
          rw [hsc] at hsparse
          cases hb : (alookup w.storages.sparse_sets c).bind
              (fun m => alookup m e.index) with
          | none => rfl
          | some v =>
            rw [hb] at hsparse
            exact Bool.noConfusion hsparse

/-- Witness for C7: in the one-component fixture, component 1 is registered
    but absent from the entity's archetype, so `get_by_id` reports absent. -/
theorem C7_witness :
    (EntityRef.get_by_id worldOneComp entA ⟨0, 0, 0, 0⟩ 1 = none ↔
      (worldOneComp.components.get? 1 = none ∨
        contains_component_with_id worldOneComp 1 ⟨0, 0, 0, 0⟩ = false)) ∧
    EntityMut.get_mut_by_id worldOneComp entA ⟨0, 0, 0, 0⟩ 1 =
      EntityRef.get_by_id worldOneComp entA ⟨0, 0, 0, 0⟩ 1 :=
  C7_lookup_by_id_absent_iff worldOneComp entA ⟨0, 0, 0, 0⟩ 1
    { id := 0, table_id := 0, table_components := [0], sparse_set_components := [],
      entities := [⟨entA, 0⟩], edges := Edges.empty }
    ⟨[0], [⟨entA, [5]⟩]⟩
    (by decide) (by decide) (by decide) (by decide) (by decide) (by decide)
    (by decide)

/- ----------------------------------------------------------------
   C3: insert-then-remove round trip — merge / sort / index lemmas
   ---------------------------------------------------------------- -/

theorem contains_eq_true_of_mem {l : List Nat} {c : Nat} (h : c ∈ l) :
    l.contains c = true := List.elem_iff.mpr h

theorem sortedMergeFuel_nil_right : ∀ (fuel : Nat) (xs : List Nat),
    sortedMergeFuel fuel xs [] = xs
  | 0, xs => by simp [sortedMergeFuel]
  | _ + 1, [] => rfl
  | _ + 1, _ :: _ => rfl

theorem sortedMerge_nil_right (xs : List Nat) : sortedMerge xs [] = xs :=
  sortedMergeFuel_nil_right _ xs

theorem mem_sortedMergeFuel : ∀ (fuel : Nat) (xs ys : List Nat) (z : Nat),
    z ∈ sortedMergeFuel fuel xs ys ↔ z ∈ xs ∨ z ∈ ys
  | 0, xs, ys, z => by simp [sortedMergeFuel]
  | _ + 1, [], ys, z => by simp [sortedMergeFuel]
  | _ + 1, x :: xs', [], z => by simp [sortedMergeFuel]
  | fuel + 1, x :: xs', y :: ys', z => by
    simp only [sortedMergeFuel]
    by_cases h1 : x < y
    · rw [if_pos h1]
      simp only [List.mem_cons, mem_sortedMergeFuel fuel xs' (y :: ys'), List.mem_cons]
      tauto
    · rw [if_neg h1]
      by_cases h2 : y < x
      · rw [if_pos h2]
        simp only [List.mem_cons, mem_sortedMergeFuel fuel (x :: xs') ys']
        tauto
      · rw [if_neg h2]
        have hxy : x = y := Nat.le_antisymm (Nat.le_of_not_lt h2) (Nat.le_of_not_lt h1)
        simp only [List.mem_cons, mem_sortedMergeFuel fuel xs' ys']
        constructor
        · rintro (h | h | h)
          · exact Or.inl (Or.inl h)
          · exact Or.inl (Or.inr h)
          · exact Or.inr (Or.inr h)
        · rintro ((h | h) | (h | h))
          · exact Or.inl h
          · exact Or.inr (Or.inl h)
          · exact Or.inl (h.trans hxy.symm)
          · exact Or.inr (Or.inr h)

theorem sortedMergeFuel_sorted : ∀ (fuel : Nat) (xs ys : List Nat),
    xs.length + ys.length ≤ fuel → List.Pairwise (· < ·) xs →
    List.Pairwise (· < ·) ys → List.Pairwise (· < ·) (sortedMergeFuel fuel xs ys)
  | 0, xs, ys, hf, _, _ => by
    have hx : xs = [] := List.eq_nil_of_length_eq_zero (by omega)
    have hy : ys = [] := List.eq_nil_of_length_eq_zero (by omega)
    subst hx
    subst hy
    simp [sortedMergeFuel]
  | _ + 1, [], ys, _, _, hys => by simpa [sortedMergeFuel] using hys
  | _ + 1, x :: xs', [], _, hxs, _ => by simpa [sortedMergeFuel] using hxs
  | fuel + 1, x :: xs', y :: ys', hf, hxs, hys => by
    obtain ⟨hxall, hxs'⟩ := List.pairwise_cons.mp hxs
    obtain ⟨hyall, hys'⟩ := List.pairwise_cons.mp hys
    simp only [List.length_cons] at hf
    simp only [sortedMergeFuel]
    by_cases h1 : x < y
    · rw [if_pos h1]
      refine List.pairwise_cons.mpr ⟨?_, ?_⟩
      · intro z hz
        rcases (mem_sortedMergeFuel fuel xs' (y :: ys') z).mp hz with h | h
        · exact hxall z h
        · rcases List.mem_cons.mp h with h | h
          · exact h ▸ h1
          · exact Nat.lt_trans h1 (hyall z h)
      · exact sortedMergeFuel_sorted fuel xs' (y :: ys')
          (by simp only [List.length_cons]; omega) hxs' hys
    · rw [if_neg h1]
      by_cases h2 : y < x
      · rw [if_pos h2]
        refine List.pairwise_cons.mpr ⟨?_, ?_⟩
        · intro z hz
          rcases (mem_sortedMergeFuel fuel (x :: xs') ys' z).mp hz with h | h
          · rcases List.mem_cons.mp h with h | h
            · exact h ▸ h2
            · exact Nat.lt_trans h2 (hxall z h)
          · exact hyall z h
        · exact sortedMergeFuel_sorted fuel (x :: xs') ys'
            (by simp only [List.length_cons]; omega) hxs hys'
      · rw [if_neg h2]
        have hxy : x = y := Nat.le_antisymm (Nat.le_of_not_lt h2) (Nat.le_of_not_lt h1)
        refine List.pairwise_cons.mpr ⟨?_, ?_⟩
        · intro z hz
          rcases (mem_sortedMergeFuel fuel xs' ys' z).mp hz with h | h
          · exact hxall z h
          · exact hxy ▸ hyall z h
        · exact sortedMergeFuel_sorted fuel xs' ys' (by omega) hxs' hys'

theorem sortedMerge_sorted (xs ys : List Nat) (hxs : List.Pairwise (· < ·) xs)
    (hys : List.Pairwise (· < ·) ys) :
    List.Pairwise (· < ·) (sortedMerge xs ys) :=
  sortedMergeFuel_sorted _ xs ys (Nat.le_refl _) hxs hys

theorem mem_sortedMerge (xs ys : List Nat) (z : Nat) :
    z ∈ sortedMerge xs ys ↔ z ∈ xs ∨ z ∈ ys :=
  mem_sortedMergeFuel _ xs ys z

theorem filter_sortedMergeFuel (p : Nat → Bool) : ∀ (fuel : Nat) (xs ys : List Nat),
    (∀ x ∈ xs, p x = true) → (∀ y ∈ ys, p y = false) →
    (sortedMergeFuel fuel xs ys).filter p = xs
  | 0, xs, ys, hx, hy => by
    simp only [sortedMergeFuel, List.filter_append]
    rw [List.filter_eq_self.mpr hx,
      List.filter_eq_nil.mpr (fun a ha => by simp [hy a ha]), List.append_nil]
  | _ + 1, [], ys, _, hy => by
    simp only [sortedMergeFuel]
    exact List.filter_eq_nil.mpr (fun a ha => by simp [hy a ha])
  | _ + 1, x :: xs', [], hx, _ => by
    simp only [sortedMergeFuel]
    exact List.filter_eq_self.mpr hx
  | fuel + 1, x :: xs', y :: ys', hx, hy => by
    simp only [sortedMergeFuel]
    by_cases h1 : x < y
    · rw [if_pos h1, List.filter_cons_of_pos (hx x (List.mem_cons_self x xs')),
        filter_sortedMergeFuel p fuel xs' (y :: ys')
          (fun z hz => hx z (List.mem_cons_of_mem x hz)) hy]
    · rw [if_neg h1]
      by_cases h2 : y < x
      · rw [if_pos h2,
          List.filter_cons_of_neg (by simp [hy y (List.mem_cons_self y ys')])]
        exact filter_sortedMergeFuel p fuel (x :: xs') ys' hx
          (fun z hz => hy z (List.mem_cons_of_mem y hz))
      · rw [if_neg h2, List.filter_cons_of_pos (hx x (List.mem_cons_self x xs')),
          filter_sortedMergeFuel p fuel xs' ys'
            (fun z hz => hx z (List.mem_cons_of_mem x hz))
            (fun z hz => hy z (List.mem_cons_of_mem y hz))]

theorem sorted_remove_sortedMerge (xs ys : List Nat)
    (hxs : List.Pairwise (· < ·) xs) (hys : List.Pairwise (· < ·) ys)
    (hdisj : ∀ x ∈ xs, x ∉ ys) :
    sorted_remove (sortedMerge xs ys) ys = xs := by
  have hm : List.Pairwise (· < ·) (sortedMerge xs ys) := sortedMerge_sorted xs ys hxs hys
  rw [sorted_remove_eq_filter _ ys (hm.imp Nat.le_of_lt) (hys.imp Nat.le_of_lt)]
  refine filter_sortedMergeFuel _ _ xs ys ?_ ?_
  · intro x hx
    simp
    exact hdisj x hx
  · intro y hy
    simp
    exact hy

theorem sorted_remove_nil : ∀ (l : List Nat), sorted_remove l [] = l
  | [] => rfl
  | v :: rest => by
    show sortedRemoveGo [] 0 (v :: rest) = v :: rest
    simp only [sortedRemoveGo]
    have hadv : sortedRemoveAdvance [] v 0 = 0 := rfl
    rw [hadv]
    rw [dif_neg (by simp)]
    exact congrArg (v :: ·) (sorted_remove_nil rest)

theorem sortedInsertNat_of_forall_le (x : Nat) : ∀ (l : List Nat),
    (∀ y ∈ l, x ≤ y) → sortedInsertNat x l = x :: l
  | [], _ => rfl
  | y :: ys, h => by
    simp only [sortedInsertNat]
    rw [if_pos (h y (List.mem_cons_self y ys))]

theorem sortNat_of_sorted : ∀ (l : List Nat), List.Pairwise (· < ·) l → sortNat l = l
  | [], _ => rfl
  | x :: xs, h => by
    obtain ⟨hall, hxs⟩ := List.pairwise_cons.mp h
    show sortedInsertNat x (sortNat xs) = x :: xs
    rw [sortNat_of_sorted xs hxs]
    exact sortedInsertNat_of_forall_le x xs (fun y hy => Nat.le_of_lt (hall y hy))

theorem findIdx?_append_some {α : Type} (p : α → Bool) :
    ∀ (l l' : List α) (i j : Nat), List.findIdx? p l i = some j →
      List.findIdx? p (l ++ l') i = some j
  | [], _, i, j, h => by simp [List.findIdx?] at h
  | x :: xs, l', i, j, h => by
    rw [List.findIdx?_cons] at h
    rw [List.cons_append, List.findIdx?_cons]
    by_cases hp : p x = true
    · rw [if_pos hp] at h
      rwa [if_pos hp]
    · rw [if_neg hp] at h
      rw [if_neg hp]
      exact findIdx?_append_some p xs l' (i + 1) j h

theorem findIdx?_zero_some_get {α : Type} (p : α → Bool) :
    ∀ (l : List α) (j : Nat), List.findIdx? p l = some j →
      ∃ x, l.get? j = some x ∧ p x = true
  | [], j, h => by simp [List.findIdx?] at h
  | x :: xs, j, h => by
    rw [List.findIdx?_cons] at h
    by_cases hp : p x = true
    · rw [if_pos hp] at h
      injection h with h
      subst h
      exact ⟨x, rfl, hp⟩
    · rw [if_neg hp, List.findIdx?_succ] at h
      cases hx : List.findIdx? p xs with
      | none => rw [hx] at h; simp at h
      | some j' =>
        rw [hx] at h
        simp only [Option.map_some'] at h
        injection h with h
        subst h
        obtain ⟨x', hget, hpx⟩ := findIdx?_zero_some_get p xs j' hx
        exact ⟨x', hget, hpx⟩

theorem findIdx?_of_mem {α : Type} [DecidableEq α] (l : List α) (c : α) (h : c ∈ l) :
    ∃ i, List.findIdx? (fun x => x = c) l = some i ∧ l.get? i = some c := by
  have hsome : (List.findIdx? (fun x => x = c) l).isSome = true := by
    rw [List.findIdx?_isSome, List.any_eq_true]
    exact ⟨c, h, by simp⟩
  obtain ⟨i, hi⟩ := Option.isSome_iff_exists.mp hsome
  obtain ⟨x, hget, hpx⟩ := findIdx?_zero_some_get _ l i hi
  simp only [decide_eq_true_eq] at hpx
  subst hpx
  exact ⟨i, hi, hget⟩

theorem map_eq_of_zip {α β : Type} (f : α → β) :
    ∀ (cs : List α) (vs : List β), cs.length = vs.length →
      (∀ p ∈ cs.zip vs, f p.1 = p.2) → cs.map f = vs
  | [], [], _, _ => rfl
  | [], _ :: _, h, _ => by simp at h
  | _ :: _, [], h, _ => by simp at h
  | c :: cs, v :: vs, h, hp => by
    simp only [List.map_cons]
    rw [hp (c, v) (by rw [List.zip_cons_cons]; exact List.mem_cons_self _ _),
      map_eq_of_zip f cs vs (by simpa using h)
        (fun q hq => hp q (by rw [List.zip_cons_cons]; exact List.mem_cons_of_mem _ hq))]

theorem classifyRemoved_all_contained (arch : Archetype) (components : List StorageType)
    (pol : Bool) : ∀ (l : List ComponentId), (∀ c ∈ l, arch.contains c = true) →
    classifyRemoved arch components pol l =
      some (l.filter (fun c => componentsGetInfoUnchecked components c == StorageType.table),
            l.filter (fun c => componentsGetInfoUnchecked components c == StorageType.sparseSet))
  | [], _ => rfl
  | c :: rest, h => by
    simp only [classifyRemoved]
    rw [if_pos (h c (List.mem_cons_self c rest)),
      classifyRemoved_all_contained arch components pol rest
        (fun x hx => h x (List.mem_cons_of_mem c hx))]
    cases hinfo : componentsGetInfoUnchecked components c with
    | table =>
      rw [List.filter_cons_of_pos (by simp [hinfo]),
        List.filter_cons_of_neg (by simp [hinfo])]
    | sparseSet =>
      rw [List.filter_cons_of_neg (by simp [hinfo]),
        List.filter_cons_of_pos (by simp [hinfo])]

theorem tablesGetIdOrInsert_fresh (tables : List Table) (cols : List ComponentId)
    (h : tables.findIdx? (fun t => t.columns == cols) = none) :
    tablesGetIdOrInsert tables cols = (tables.length, tables ++ [⟨cols, []⟩]) := by
  unfold tablesGetIdOrInsert
  rw [h]

theorem tablesGetIdOrInsert_hit (tables : List Table) (cols : List ComponentId) (i : Nat)
    (h : tables.findIdx? (fun t => t.columns == cols) = some i) :
    tablesGetIdOrInsert tables cols = (i, tables) := by
  unfold tablesGetIdOrInsert
  rw [h]

theorem archetypesGetIdOrInsert_fresh (archetypes : List Archetype) (tid : TableId)
    (tcs scs : List ComponentId)
    (h : archetypes.findIdx? (fun a =>
        a.table_components == tcs && a.sparse_set_components == scs) = none) :
    archetypesGetIdOrInsert archetypes tid tcs scs =
      (archetypes.length,
       archetypes ++ [{ id := archetypes.length, table_id := tid,
                        table_components := tcs, sparse_set_components := scs,
                        entities := [], edges := Edges.empty }]) := by
  unfold archetypesGetIdOrInsert
  rw [h]

theorem archetypesGetIdOrInsert_hit (archetypes : List Archetype) (tid : TableId)
    (tcs scs : List ComponentId) (i : Nat)
    (h : archetypes.findIdx? (fun a =>
        a.table_components == tcs && a.sparse_set_components == scs) = some i) :
    archetypesGetIdOrInsert archetypes tid tcs scs = (i, archetypes) := by
  unfold archetypesGetIdOrInsert
  rw [h]

theorem abta_miss (archetypes : List Archetype) (tables : List Table)
    (components : List StorageType) (aid : ArchetypeId) (b : BundleInfo) (a : Archetype)
    (bts bss ntc nsc : List ComponentId) (tid : TableId) (ts1 : List Table)
    (naid : ArchetypeId) (as1 : List Archetype)
    (hget : archetypes.get? aid = some a)
    (hmiss : alookup a.edges.add_bundle b.id = none)
    (hbts : b.component_ids.filter
      (fun c => componentsGetInfoUnchecked components c == StorageType.table) = bts)
    (hbss : b.component_ids.filter
      (fun c => componentsGetInfoUnchecked components c == StorageType.sparseSet) = bss)
    (hntc : sortedMerge a.table_components bts = ntc)
    (hnsc : sortedMerge a.sparse_set_components bss = nsc)
    (htid : (if ntc == a.table_components then (a.table_id, tables)
             else tablesGetIdOrInsert tables ntc) = (tid, ts1))
    (hna : archetypesGetIdOrInsert archetypes tid ntc nsc = (naid, as1)) :
    add_bundle_to_archetype archetypes tables components aid b =
      (naid,
       listModify as1 aid (fun x =>
         { x with edges := { x.edges with
             add_bundle := ainsert x.edges.add_bundle b.id naid } }),
       ts1) := by
  simp only [add_bundle_to_archetype, hget, hmiss, hbts, hbss, hntc, hnsc, htid, hna]

theorem map_set_eq {α β : Type} (f : α → β) :
    ∀ (l : List α) (i : Nat) (x y : α), l.get? i = some x → f y = f x →
      (l.set i y).map f = l.map f
  | [], _, _, _, h, _ => by cases h
  | a :: l, 0, x, y, h, hf => by
    injection h with h
    subst h
    show f y :: l.map f = f a :: l.map f
    rw [hf]
  | a :: l, i + 1, x, y, h, hf => by
    show f a :: (l.set i y).map f = f a :: l.map f
    rw [map_set_eq f l i x y h hf]

theorem map_listModify_eq {α β : Type} (f : α → β) (l : List α) (i : Nat) (g : α → α)
    (hg : ∀ x, f (g x) = f x) : (listModify l i g).map f = l.map f := by
  unfold listModify
  cases h : l.get? i with
  | none => rfl
  | some x => exact map_set_eq f l i (x) (g x) h (hg x)

theorem findIdx?_columns_congr (cs : List ComponentId) :
    ∀ (l1 l2 : List Table) (i : Nat), l1.map Table.columns = l2.map Table.columns →
      List.findIdx? (fun t => t.columns == cs) l1 i =
        List.findIdx? (fun t => t.columns == cs) l2 i
  | [], [], _, _ => rfl
  | [], _ :: _, _, h => by simp at h
  | _ :: _, [], _, h => by simp at h
  | x :: xs, y :: ys, i, h => by
    simp only [List.map_cons, List.cons.injEq] at h
    obtain ⟨h1, h2⟩ := h
    simp only [List.findIdx?_cons]
    have h1' : x.columns = y.columns := h1
    rw [h1', findIdx?_columns_congr cs xs ys (i + 1) h2]

theorem findIdx?_comps_congr (tcs scs : List ComponentId) :
    ∀ (l1 l2 : List Archetype) (i : Nat),
      l1.map (fun a => (a.table_components, a.sparse_set_components)) =
        l2.map (fun a => (a.table_components, a.sparse_set_components)) →
      List.findIdx? (fun a =>
          a.table_components == tcs && a.sparse_set_components == scs) l1 i =
        List.findIdx? (fun a =>
          a.table_components == tcs && a.sparse_set_components == scs) l2 i
  | [], [], _, _ => rfl
  | [], _ :: _, _, h => by simp at h
  | _ :: _, [], _, h => by simp at h
  | x :: xs, y :: ys, i, h => by
    simp only [List.map_cons, List.cons.injEq, Prod.mk.injEq] at h
    obtain ⟨⟨h1, h2⟩, h3⟩ := h
    simp only [List.findIdx?_cons]
    rw [h1, h2, findIdx?_comps_congr tcs scs xs ys (i + 1) h3]

theorem take_component_fst (S : Storages) (components : List StorageType)
    (rm rm' : List (ComponentId × List Entity)) (c : ComponentId) (e : Entity)
    (loc : EntityLocation) :
    (take_component S components rm c e loc).1 =
      (take_component S components rm' c e loc).1 := by
  unfold take_component
  cases componentsGetInfoUnchecked components c <;> rfl

theorem writeComponent_map_columns (S : Storages) (components : List StorageType)
    (e : Entity) (L : EntityLocation) (c : ComponentId) (v : Val) :
    (writeComponent S components e L c v).tables.map Table.columns =
      S.tables.map Table.columns := by
  unfold writeComponent
  cases componentsGetInfoUnchecked components c with
  | sparseSet => rfl
  | table =>
    refine map_listModify_eq Table.columns S.tables L.table_id _ ?_
    intro t
    cases t.columns.findIdx? (fun x => x = c) <;> rfl

theorem writeComponent_sparse_keys (S : Storages) (components : List StorageType)
    (e : Entity) (L : EntityLocation) (c c' : ComponentId) (v : Val) (hne : c' ≠ c) :
    alookup (writeComponent S components e L c v).sparse_sets c' =
      alookup S.sparse_sets c' := by
  unfold writeComponent
  cases componentsGetInfoUnchecked components c with
  | table => rfl
  | sparseSet => exact alookup_ainsert_ne _ c c' _ (fun h => hne h.symm)

theorem writeComponent_inv (components : List StorageType) (e : Entity)
    (L : EntityLocation) (CC : List ComponentId) (c : ComponentId) (v : Val)
    (S : Storages)
    (h : ∃ tb, S.tables.get? L.table_id = some tb ∧ tb.columns = CC ∧
         ∃ r, tb.rows.get? L.table_row = some r ∧ r.cells.length = CC.length) :
    ∃ tb, (writeComponent S components e L c v).tables.get? L.table_id = some tb ∧
      tb.columns = CC ∧
      ∃ r, tb.rows.get? L.table_row = some r ∧ r.cells.length = CC.length := by
  obtain ⟨tb, htb, hcc, r, hr, hlen⟩ := h
  unfold writeComponent
  cases componentsGetInfoUnchecked components c with
  | sparseSet => exact ⟨tb, htb, hcc, r, hr, hlen⟩
  | table =>
    show ∃ tb1, (listModify S.tables L.table_id _).get? L.table_id = some tb1 ∧ _
    rw [listModify_get?_self, htb, Option.map_some']
    cases hfi : tb.columns.findIdx? (fun x => x = c) with
    | none => exact ⟨tb, rfl, hcc, r, hr, hlen⟩
    | some i =>
      refine ⟨{ tb with rows := listModify tb.rows L.table_row (fun r0 => { r0 with cells := r0.cells.set i v }) }, rfl, hcc, { r with cells := r.cells.set i v }, ?_, ?_⟩
      · show (listModify tb.rows L.table_row _).get? L.table_row = _
        rw [listModify_get?_self, hr, Option.map_some']
      · show (r.cells.set i v).length = CC.length
        rw [List.length_set]
        exact hlen

theorem writeComponent_read_self (components : List StorageType) (e : Entity)
    (L : EntityLocation) (CC : List ComponentId) (c : ComponentId) (v : Val)
    (S : Storages)
    (hInv : ∃ tb, S.tables.get? L.table_id = some tb ∧ tb.columns = CC ∧
         ∃ r, tb.rows.get? L.table_row = some r ∧ r.cells.length = CC.length)
    (hCC : componentsGetInfoUnchecked components c = StorageType.table → c ∈ CC) :
    (take_component (writeComponent S components e L c v) components [] c e L).1 = v := by
  obtain ⟨tb, htb, hcc, r, hr, hlen⟩ := hInv
  unfold take_component writeComponent
  cases hclass : componentsGetInfoUnchecked components c with
  | sparseSet =>
    show ((sparseRemoveAndForget (ainsert S.sparse_sets c
        (ainsert ((alookup S.sparse_sets c).getD []) e.index v)) c e.index).1).getD 0 = v
    unfold sparseRemoveAndForget
    rw [alookup_ainsert_self]
    show (alookup (ainsert ((alookup S.sparse_sets c).getD []) e.index v) e.index).getD 0 = v
    rw [alookup_ainsert_self]
    rfl
  | table =>
    obtain ⟨i, hfi, hgi⟩ := findIdx?_of_mem CC c (hCC hclass)
    have hfi' : tb.columns.findIdx? (fun x => x = c) = some i := by rw [hcc]; exact hfi
    have hilt : i < CC.length := list_get?_some_lt hgi
    show (match (listModify S.tables L.table_id _).get? L.table_id with
          | some t =>
            match t.rows.get? L.table_row with
            | some r => r.cell t.columns c
            | none => 0
          | none => 0) = v
    rw [listModify_get?_self, htb, Option.map_some']
    simp only [hfi']
    show (match (listModify tb.rows L.table_row _).get? L.table_row with
          | some r1 => r1.cell tb.columns c
          | none => 0) = v
    rw [listModify_get?_self, hr, Option.map_some']
    show Row.cell _ tb.columns c = v
    unfold Row.cell
    rw [hfi']
    show (r.cells.set i v).getD i 0 = v
    rw [List.getD_eq_get?, list_get?_set_self r.cells i v (by rw [hlen]; exact hilt)]
    rfl

theorem table_read_of_modify (tb : Table) (row : Nat) (c c' : ComponentId) (v : Val)
    (hne : c' ≠ c) :
    (match (match tb.columns.findIdx? (fun x => x = c) with
            | some i => { tb with rows := listModify tb.rows row (fun r => { r with cells := r.cells.set i v }) }
            | none => tb).rows.get? row with
     | some r => r.cell (match tb.columns.findIdx? (fun x => x = c) with
            | some i => { tb with rows := listModify tb.rows row (fun r => { r with cells := r.cells.set i v }) }
            | none => tb).columns c'
     | none => 0) =
    (match tb.rows.get? row with
     | some r => r.cell tb.columns c'
     | none => 0) := by
  cases hfi : tb.columns.findIdx? (fun x => x = c) with
  | none => rfl
  | some i =>
    show (match (listModify tb.rows row
            (fun r => { r with cells := r.cells.set i v })).get? row with
          | some r => r.cell tb.columns c'
          | none => 0) = _
    rw [listModify_get?_self]
    cases hr : tb.rows.get? row with
    | none => rfl
    | some r =>
      rw [Option.map_some']
      show Row.cell { r with cells := r.cells.set i v } tb.columns c' =
        Row.cell r tb.columns c'
      unfold Row.cell
      cases hfi' : tb.columns.findIdx? (fun x => x = c') with
      | none => rfl
      | some i' =>
        have hii : i ≠ i' := by
          intro h
          subst h
          obtain ⟨x, hx, hpx⟩ := findIdx?_zero_some_get _ tb.columns i hfi
          obtain ⟨x', hx', hpx'⟩ := findIdx?_zero_some_get _ tb.columns i hfi'
          rw [hx] at hx'
          injection hx' with hx'
          simp only [decide_eq_true_eq] at hpx hpx'
          exact hne (hpx' ▸ hx' ▸ hpx)
        show ((r.cells.set i v).getD i' 0) = r.cells.getD i' 0
        rw [List.getD_eq_get?, List.getD_eq_get?,
          list_get?_set_ne r.cells i i' v hii]

theorem writeComponent_read_other (components : List StorageType) (e : Entity)
    (L : EntityLocation) (c c' : ComponentId) (v : Val) (S : Storages)
    (hne : c' ≠ c) :
    (take_component (writeComponent S components e L c v) components [] c' e L).1 =
      (take_component S components [] c' e L).1 := by
  unfold take_component
  cases hclass' : componentsGetInfoUnchecked components c' with
  | sparseSet =>
    show ((sparseRemoveAndForget (writeComponent S components e L c v).sparse_sets
        c' e.index).1).getD 0 = ((sparseRemoveAndForget S.sparse_sets c' e.index).1).getD 0
    unfold sparseRemoveAndForget
    rw [writeComponent_sparse_keys S components e L c c' v hne]
    cases alookup S.sparse_sets c' <;> rfl
  | table =>
    show (match (writeComponent S components e L c v).tables.get? L.table_id with
          | some t =>
            match t.rows.get? L.table_row with
            | some r => r.cell t.columns c'
            | none => 0
          | none => 0) =
      (match S.tables.get? L.table_id with
          | some t =>
            match t.rows.get? L.table_row with
            | some r => r.cell t.columns c'
            | none => 0
          | none => 0)
    have htw : (writeComponent S components e L c v).tables =
        (match componentsGetInfoUnchecked components c with
         | StorageType.table => listModify S.tables L.table_id (fun t =>
             match t.columns.findIdx? (fun x => x = c) with
             | some i => { t with rows := listModify t.rows L.table_row (fun r => { r with cells := r.cells.set i v }) }
             | none => t)
         | StorageType.sparseSet => S.tables) := by
      unfold writeComponent
      cases componentsGetInfoUnchecked components c <;> rfl
    rw [htw]
    cases componentsGetInfoUnchecked components c with
    | sparseSet => rfl
    | table =>
      rw [listModify_get?_self]
      cases htb : S.tables.get? L.table_id with
      | none => rfl
      | some tb =>
        rw [Option.map_some']
        exact table_read_of_modify tb L.table_row c c' v hne

theorem writeBundleValues_read_other (components : List StorageType) (e : Entity)
    (L : EntityLocation) :
    ∀ (pairs : List (ComponentId × Val)) (S : Storages) (c' : ComponentId),
      c' ∉ pairs.map Prod.fst →
      (take_component (writeBundleValues S components e L pairs) components [] c' e L).1 =
        (take_component S components [] c' e L).1
  | [], _, _, _ => rfl
  | (c, v) :: rest, S, c', hnot => by
    show (take_component (writeBundleValues (writeComponent S components e L c v)
        components e L rest) components [] c' e L).1 = _
    rw [writeBundleValues_read_other components e L rest
      (writeComponent S components e L c v) c'
      (fun h => hnot (by simp only [List.map_cons]; exact List.mem_cons_of_mem _ h))]
    exact writeComponent_read_other components e L c c' v S
      (fun h => hnot (by simp only [List.map_cons]; exact h ▸ List.mem_cons_self _ _))

theorem writeBundleValues_inv (components : List StorageType) (e : Entity)
    (L : EntityLocation) (CC : List ComponentId) :
    ∀ (pairs : List (ComponentId × Val)) (S : Storages),
      (∃ tb, S.tables.get? L.table_id = some tb ∧ tb.columns = CC ∧
        ∃ r, tb.rows.get? L.table_row = some r ∧ r.cells.length = CC.length) →
      ∃ tb, (writeBundleValues S components e L pairs).tables.get? L.table_id = some tb ∧
        tb.columns = CC ∧
        ∃ r, tb.rows.get? L.table_row = some r ∧ r.cells.length = CC.length
  | [], _, h => h
  | (c, v) :: rest, S, h =>
    writeBundleValues_inv components e L CC rest (writeComponent S components e L c v)
      (writeComponent_inv components e L CC c v S h)

theorem writeBundleValues_read_mem (components : List StorageType) (e : Entity)
    (L : EntityLocation) (CC : List ComponentId) :
    ∀ (pairs : List (ComponentId × Val)) (S : Storages) (c : ComponentId) (v : Val),
      (∃ tb, S.tables.get? L.table_id = some tb ∧ tb.columns = CC ∧
        ∃ r, tb.rows.get? L.table_row = some r ∧ r.cells.length = CC.length) →
      (pairs.map Prod.fst).Nodup → (c, v) ∈ pairs →
      (∀ p ∈ pairs, componentsGetInfoUnchecked components p.1 = StorageType.table →
        p.1 ∈ CC) →
      (take_component (writeBundleValues S components e L pairs) components [] c e L).1 = v
  | [], _, _, _, _, _, hmem, _ => absurd hmem (List.not_mem_nil _)
  | (c0, v0) :: rest, S, c, v, hInv, hnd, hmem, hcc => by
    rw [List.map_cons, List.nodup_cons] at hnd
    obtain ⟨hni, hnd'⟩ := hnd
    rcases List.mem_cons.mp hmem with heq | htail
    · injection heq with hc hv
      subst hc
      subst hv
      show (take_component (writeBundleValues (writeComponent S components e L c v)
          components e L rest) components [] c e L).1 = v
      rw [writeBundleValues_read_other components e L rest
        (writeComponent S components e L c v) c hni]
      exact writeComponent_read_self components e L CC c v S hInv
        (fun h => hcc (c, v) (List.mem_cons_self _ _) h)
    · have hc0 : c ≠ c0 := by
        intro h
        subst h
        exact hni (List.mem_map.mpr ⟨(c, v), htail, rfl⟩)
      show (take_component (writeBundleValues (writeComponent S components e L c0 v0)
          components e L rest) components [] c e L).1 = v
      exact writeBundleValues_read_mem components e L CC rest
        (writeComponent S components e L c0 v0) c v
        (writeComponent_inv components e L CC c0 v0 S hInv) hnd' htail
        (fun p hp => hcc p (List.mem_cons_of_mem _ hp))

theorem take_component_read_other (components : List StorageType) (e : Entity)
    (L : EntityLocation) (S : Storages) (rm : List (ComponentId × List Entity))
    (c c' : ComponentId) (hne : c' ≠ c) :
    (take_component (take_component S components rm c e L).2.1 components [] c' e L).1 =
      (take_component S components [] c' e L).1 := by
  have hst : (take_component S components rm c e L).2.1 =
      (match componentsGetInfoUnchecked components c with
       | StorageType.table => S
       | StorageType.sparseSet =>
         { S with sparse_sets := (sparseRemoveAndForget S.sparse_sets c e.index).2 }) := by
    unfold take_component
    cases componentsGetInfoUnchecked components c <;> rfl
  rw [hst]
  cases hclass : componentsGetInfoUnchecked components c with
  | table => rfl
  | sparseSet =>
    unfold take_component
    cases hclass' : componentsGetInfoUnchecked components c' with
    | table => rfl
    | sparseSet =>
      show ((sparseRemoveAndForget (sparseRemoveAndForget S.sparse_sets c e.index).2
          c' e.index).1).getD 0 = ((sparseRemoveAndForget S.sparse_sets c' e.index).1).getD 0
      unfold sparseRemoveAndForget
      cases hm : alookup S.sparse_sets c with
      | none => rfl
      | some m =>
        rw [alookup_ainsert_ne _ c c' _ (fun h => hne h.symm)]
        cases alookup S.sparse_sets c' <;> rfl

theorem takeAll_cons (components : List StorageType) (e : Entity) (L : EntityLocation)
    (c : ComponentId) (rest : List ComponentId) (S : Storages)
    (rm : List (ComponentId × List Entity)) :
    takeAll components e L (c :: rest) S rm =
      ((take_component S components rm c e L).1 ::
         (takeAll components e L rest (take_component S components rm c e L).2.1
           (take_component S components rm c e L).2.2).1,
       (takeAll components e L rest (take_component S components rm c e L).2.1
           (take_component S components rm c e L).2.2).2) := rfl

theorem takeAll_fst (components : List StorageType) (e : Entity) (L : EntityLocation) :
    ∀ (cs : List ComponentId) (S : Storages) (rm : List (ComponentId × List Entity)),
      cs.Nodup →
      (takeAll components e L cs S rm).1 =
        cs.map (fun c => (take_component S components [] c e L).1)
  | [], _, _, _ => rfl
  | c :: rest, S, rm, hnd => by
    obtain ⟨hni, hnd'⟩ := List.nodup_cons.mp hnd
    rw [takeAll_cons, List.map_cons]
    refine congrArg₂ (· :: ·) (take_component_fst S components rm [] c e L) ?_
    rw [takeAll_fst components e L rest _ _ hnd']
    refine List.map_congr_left ?_
    intro x hx
    exact take_component_read_other components e L S rm c x (fun h => hni (h ▸ hx))

theorem get?_of_map_eq {α β : Type} (f : α → β) (l1 l2 : List α) (i : Nat)
    (h : l1.map f = l2.map f) (x : α) (hx : l2.get? i = some x) :
    ∃ y, l1.get? i = some y ∧ f y = f x := by
  have h1 : (l1.map f).get? i = (l2.map f).get? i := by rw [h]
  rw [List.get?_map, List.get?_map, hx] at h1
  cases hy : l1.get? i with
  | none => rw [hy] at h1; simp at h1
  | some y =>
    rw [hy] at h1
    simp only [Option.map_some'] at h1
    injection h1 with h1
    exact ⟨y, rfl, h1⟩

theorem map_pair_of_map_shape (l1 l2 : List Archetype)
    (h : l1.map Archetype.shape = l2.map Archetype.shape) :
    l1.map (fun a => (a.table_components, a.sparse_set_components)) =
      l2.map (fun a => (a.table_components, a.sparse_set_components)) := by
  have h1 := congrArg (List.map (fun p :
    ArchetypeId × TableId × List ComponentId × List ComponentId =>
      (p.2.2.1, p.2.2.2))) h
  rw [List.map_map, List.map_map] at h1
  exact h1

theorem mefi_same_table (entity : Entity) (loc : EntityLocation) (E : Entities)
    (archetypes : List Archetype) (S : Storages) (naid : ArchetypeId)
    (a1 newarch : Archetype)
    (hget : archetypes.get? loc.archetype_id = some a1)
    (hne : naid ≠ loc.archetype_id)
    (hnew : archetypes.get? naid = some newarch)
    (harow : a1.entities.get? loc.archetype_row = some ⟨entity, loc.table_row⟩)
    (hTeq : a1.table_id = newarch.table_id) :
    (move_entity_from_insert entity loc E archetypes S naid).1 =
      ⟨newarch.id, newarch.entities.length, newarch.table_id, loc.table_row⟩ ∧
    (move_entity_from_insert entity loc E archetypes S naid).2.2.1.map Archetype.shape =
      archetypes.map Archetype.shape ∧
    (move_entity_from_insert entity loc E archetypes S naid).2.2.1.get? naid =
      some { newarch with entities := newarch.entities ++ [⟨entity, loc.table_row⟩] } ∧
    (move_entity_from_insert entity loc E archetypes S naid).2.2.2 = S := by
  cases hsw : a1.swap_remove loc.archetype_row with
  | mk oa rr =>
    have hoa : oa = { a1 with entities := listSwapRemove a1.entities loc.archetype_row } := by
      have h1 := congrArg Prod.fst hsw
      simp only [Archetype.swap_remove] at h1
      exact h1.symm
    have htr : rr.table_row = loc.table_row := by
      have h1 := congrArg Prod.snd hsw
      simp only [Archetype.swap_remove, harow] at h1
      exact (congrArg ArchetypeSwapRemoveResult.table_row h1).symm
    have hget2 : (archetypes.set loc.archetype_id oa).get? naid = some newarch := by
      rw [list_get?_set_ne _ _ _ _ (Ne.symm hne)]
      exact hnew
    cases hal : newarch.allocate entity rr.table_row with
    | mk na nl =>
      have hna : na = { newarch with entities := newarch.entities ++ [⟨entity, rr.table_row⟩] } := by
        have h1 := congrArg Prod.fst hal
        simp only [Archetype.allocate] at h1
        exact h1.symm
      have hnl : nl = ⟨newarch.id, newarch.entities.length, newarch.table_id, rr.table_row⟩ := by
        have h1 := congrArg Prod.snd hal
        simp only [Archetype.allocate] at h1
        exact h1.symm
      have hbody : move_entity_from_insert entity loc E archetypes S naid =
          (nl, (match rr.swapped_entity with
                | some swapped_entity =>
                  ((E.set swapped_entity.index
                    { (E.get swapped_entity).getD default with
                        archetype_row := loc.archetype_row }))
                | none => E).set entity.index nl,
           (archetypes.set loc.archetype_id oa).set naid na, S) := by
        simp only [move_entity_from_insert, hget, hsw, hget2, hTeq, if_pos, hal]
      rw [hbody]
      refine ⟨by rw [hnl, htr], ?_, ?_, rfl⟩
      · show ((archetypes.set loc.archetype_id oa).set naid na).map Archetype.shape =
          archetypes.map Archetype.shape
        rw [map_set_eq Archetype.shape _ naid newarch na hget2 (by rw [hna]; rfl),
          map_set_eq Archetype.shape _ loc.archetype_id a1 oa hget (by rw [hoa]; rfl)]
      · show ((archetypes.set loc.archetype_id oa).set naid na).get? naid = _
        rw [list_get?_set_self _ naid na
          (by rw [List.length_set]; exact list_get?_some_lt hnew), hna, htr]

theorem mefi_diff_table (entity : Entity) (loc : EntityLocation) (E : Entities)
    (archetypes : List Archetype) (S : Storages) (naid : ArchetypeId)
    (a1 newarch : Archetype) (srcT dstT : Table) (R : Row)
    (hget : archetypes.get? loc.archetype_id = some a1)
    (hne : naid ≠ loc.archetype_id)
    (hnew : archetypes.get? naid = some newarch)
    (harow : a1.entities.get? loc.archetype_row = some ⟨entity, loc.table_row⟩)
    (hTne : ¬ a1.table_id = newarch.table_id)
    (hsrc : S.tables.get? a1.table_id = some srcT)
    (hdst : S.tables.get? newarch.table_id = some dstT)
    (hdstrows : dstT.rows = [])
    (hnewents : newarch.entities = [])
    (hsrcrow : srcT.rows.get? loc.table_row = some R) :
    (move_entity_from_insert entity loc E archetypes S naid).1 =
      ⟨newarch.id, 0, newarch.table_id, 0⟩ ∧
    (move_entity_from_insert entity loc E archetypes S naid).2.2.1.map Archetype.shape =
      archetypes.map Archetype.shape ∧
    (∃ ents, (move_entity_from_insert entity loc E archetypes S naid).2.2.1.get? naid =
      some { newarch with entities := ents }) ∧
    (move_entity_from_insert entity loc E archetypes S naid).2.2.2.sparse_sets =
      S.sparse_sets ∧
    (move_entity_from_insert entity loc E archetypes S naid).2.2.2.tables.map
      Table.columns = S.tables.map Table.columns ∧
    (∃ row1, (move_entity_from_insert entity loc E archetypes S
        naid).2.2.2.tables.get? newarch.table_id =
      some { columns := dstT.columns, rows := [row1] } ∧
      row1.cells.length = dstT.columns.length) := by
  cases hsw : a1.swap_remove loc.archetype_row with
  | mk oa rr =>
    have hoa : oa = { a1 with entities := listSwapRemove a1.entities loc.archetype_row } := by
      have h1 := congrArg Prod.fst hsw
      simp only [Archetype.swap_remove] at h1
      exact h1.symm
    have htr : rr.table_row = loc.table_row := by
      have h1 := congrArg Prod.snd hsw
      simp only [Archetype.swap_remove, harow] at h1
      exact (congrArg ArchetypeSwapRemoveResult.table_row h1).symm
    have hget2 : (archetypes.set loc.archetype_id oa).get? naid = some newarch := by
      rw [list_get?_set_ne _ _ _ _ (Ne.symm hne)]
      exact hnew
    have hsrcD : (S.tables.get? a1.table_id).getD ⟨[], []⟩ = srcT := by
      rw [hsrc]
      rfl
    have hdstD : (S.tables.get? newarch.table_id).getD ⟨[], []⟩ = dstT := by
      rw [hdst]
      rfl
    cases hmv : srcT.move_to loc.table_row dstT with
    | mk ot' p =>
      cases p with
      | mk nt' mr =>
        have hnt' : nt' = { dstT with rows := dstT.rows ++
            [{ entity := R.entity, cells := dstT.columns.map (fun c =>
              if srcT.columns.contains c then R.cell srcT.columns c else 0) }] } := by
          have h1 := congrArg (fun q :
            Table × Table × TableMoveResult => q.2.1) hmv
          simp only [Table.move_to, hsrcrow, Table.swap_remove_unchecked] at h1
          exact h1.symm
        have hmrn : mr.new_row = 0 := by
          have h1 := congrArg (fun q :
            Table × Table × TableMoveResult => q.2.2) hmv
          simp only [Table.move_to, hsrcrow, Table.swap_remove_unchecked] at h1
          rw [← h1, hdstrows]
          rfl
        have hotc : ot'.columns = srcT.columns := by
          have h1 := congrArg (fun q :
            Table × Table × TableMoveResult => q.1) hmv
          simp only [Table.move_to, hsrcrow, Table.swap_remove_unchecked] at h1
          rw [← h1]
        cases hal : newarch.allocate entity mr.new_row with
        | mk na nl =>
          have hna : na = { newarch with
              entities := newarch.entities ++ [⟨entity, mr.new_row⟩] } := by
            have h1 := congrArg Prod.fst hal
            simp only [Archetype.allocate] at h1
            exact h1.symm
          have hnl : nl = ⟨newarch.id, newarch.entities.length,
              newarch.table_id, mr.new_row⟩ := by
            have h1 := congrArg Prod.snd hal
            simp only [Archetype.allocate] at h1
            exact h1.symm
          have hnl' : nl = ⟨newarch.id, 0, newarch.table_id, 0⟩ := by
            rw [hnl, hmrn, hnewents]
            rfl
          have hnaidlt : naid < ((archetypes.set loc.archetype_id oa).set naid na).length := by
            rw [List.length_set, List.length_set]
            exact list_get?_some_lt hnew
          have hbase : ((archetypes.set loc.archetype_id oa).set naid na).get? naid =
              some na :=
            list_get?_set_self _ naid na (by rw [List.length_set]; exact list_get?_some_lt hnew)
          have hbasemap : ((archetypes.set loc.archetype_id oa).set naid na).map
              Archetype.shape = archetypes.map Archetype.shape := by
            rw [map_set_eq Archetype.shape _ naid newarch na hget2 (by rw [hna]; rfl),
              map_set_eq Archetype.shape _ loc.archetype_id a1 oa hget (by rw [hoa]; rfl)]
          have htblmap : ((S.tables.set a1.table_id ot').set newarch.table_id nt').map
              Table.columns = S.tables.map Table.columns := by
            rw [map_set_eq Table.columns _ newarch.table_id dstT nt'
                (by rw [list_get?_set_ne _ _ _ _ hTne]; exact hdst) (by rw [hnt']),
              map_set_eq Table.columns _ a1.table_id srcT ot' hsrc hotc]
          refine ⟨?_, ?_, ?_, ?_, ?_, ?_⟩
          · simp only [move_entity_from_insert, hget, hsw, hget2, hsrcD, hdstD,
              if_neg hTne, htr, hmv, hal]
            exact hnl'
          · cases hmrs : mr.swapped_entity with
            | none =>
              simp only [move_entity_from_insert, hget, hsw, hget2, hsrcD, hdstD,
                if_neg hTne, htr, hmv, hal, hmrs]
              exact hbasemap
            | some se =>
              simp only [move_entity_from_insert, hget, hsw, hget2, hsrcD, hdstD,
                if_neg hTne, htr, hmv, hal, hmrs]
              rw [map_listModify_eq Archetype.shape _ _ _
                (fun x => by unfold Archetype.set_entity_table_row; rfl)]
              exact hbasemap
          · cases hmrs : mr.swapped_entity with
            | none =>
              simp only [move_entity_from_insert, hget, hsw, hget2, hsrcD, hdstD,
                if_neg hTne, htr, hmv, hal, hmrs]
              refine ⟨newarch.entities ++ [⟨entity, mr.new_row⟩], ?_⟩
              rw [hbase, hna]
            | some se =>
              simp only [move_entity_from_insert, hget, hsw, hget2, hsrcD, hdstD,
                if_neg hTne, htr, hmv, hal, hmrs]
              by_cases hidx : (((match rr.swapped_entity with
                  | some sw => E.set sw.index
                      { archetype_id := ((E.get sw).getD default).archetype_id,
                        archetype_row := loc.archetype_row,
                        table_id := ((E.get sw).getD default).table_id,
                        table_row := ((E.get sw).getD default).table_row }
                  | none => E).get se).getD default).archetype_id = naid
              · rw [hidx, listModify_get?_self, hbase, Option.map_some', hna]
                exact ⟨_, rfl⟩
              · rw [listModify_get?_ne _ _ _ _ hidx, hbase, hna]
                exact ⟨_, rfl⟩
          · simp only [move_entity_from_insert, hget, hsw, hget2, hsrcD, hdstD,
              if_neg hTne, htr, hmv, hal]
          · simp only [move_entity_from_insert, hget, hsw, hget2, hsrcD, hdstD,
              if_neg hTne, htr, hmv, hal]
            exact htblmap
          · simp only [move_entity_from_insert, hget, hsw, hget2, hsrcD, hdstD,
              if_neg hTne, htr, hmv, hal]
            refine ⟨{ entity := R.entity, cells := dstT.columns.map (fun c =>
              if srcT.columns.contains c then R.cell srcT.columns c else 0) }, ?_, ?_⟩
            · rw [list_get?_set_self _ newarch.table_id nt'
                (by rw [List.length_set]; exact list_get?_some_lt hdst), hnt', hdstrows]
              rfl
            · rw [List.length_map]

theorem mer_location (dropb : Bool) (entity : Entity) (oaid : ArchetypeId)
    (loc : EntityLocation) (E : Entities) (archetypes : List Archetype) (S : Storages)
    (daid : ArchetypeId) (A5 D : Archetype)
    (hget : archetypes.get? oaid = some A5)
    (hne : daid ≠ oaid)
    (hD : archetypes.get? daid = some D) :
    (move_entity_from_remove dropb entity oaid loc E archetypes S
      daid).1.archetype_id = D.id := by
  cases hsw : A5.swap_remove loc.archetype_row with
  | mk oa rr =>
    have hget2 : (archetypes.set oaid oa).get? daid = some D := by
      rw [list_get?_set_ne _ _ _ _ (Ne.symm hne)]
      exact hD
    by_cases hbt : A5.table_id = D.table_id
    · cases hal : D.allocate entity rr.table_row with
      | mk na nl =>
        have hnl : nl.archetype_id = D.id := by
          have h1 := congrArg Prod.snd hal
          simp only [Archetype.allocate] at h1
          rw [← h1]
        simp only [move_entity_from_remove, hget, hsw, hget2, if_pos hbt, hal]
        exact hnl
    · cases hmv : ((S.tables.get? A5.table_id).getD ⟨[], []⟩).move_to rr.table_row
          ((S.tables.get? D.table_id).getD ⟨[], []⟩) with
      | mk ot' p =>
        cases p with
        | mk nt' mr =>
          cases hal : D.allocate entity mr.new_row with
          | mk na nl =>
            have hnl : nl.archetype_id = D.id := by
              have h1 := congrArg Prod.snd hal
              simp only [Archetype.allocate] at h1
              rw [← h1]
            simp only [move_entity_from_remove, hget, hsw, hget2, if_neg hbt, hmv, hal]
            exact hnl

theorem remove_restores (w1 : World) (s1 : EntityMutState) (b : BundleInfo)
    (vals : List Val) (A D : Archetype) (BTS BSS otc osc : List ComponentId)
    (dtid : TableId) (daid : ArchetypeId)
    (hA : w1.archetypes.get? s1.location.archetype_id = some A)
    (hAedges : A.edges = Edges.empty)
    (hcontain : ∀ c ∈ b.component_ids, A.contains c = true)
    (hbsorted : List.Pairwise (· < ·) b.component_ids)
    (hlen : vals.length = b.component_ids.length)
    (hreads : ∀ p ∈ b.component_ids.zip vals,
      (take_component w1.storages w1.components [] p.1 s1.entity s1.location).1 = p.2)
    (hBTS : b.component_ids.filter (fun c =>
      componentsGetInfoUnchecked w1.components c == StorageType.table) = BTS)
    (hBSS : b.component_ids.filter (fun c =>
      componentsGetInfoUnchecked w1.components c == StorageType.sparseSet) = BSS)
    (hotc : sorted_remove A.table_components BTS = otc)
    (hosc : sorted_remove A.sparse_set_components BSS = osc)
    (htabres : (if BTS.isEmpty then (A.table_id, w1.storages.tables)
                else tablesGetIdOrInsert w1.storages.tables otc) =
      (dtid, w1.storages.tables))
    (harchres : archetypesGetIdOrInsert w1.archetypes dtid otc osc =
      (daid, w1.archetypes))
    (hdne : daid ≠ s1.location.archetype_id)
    (hD : w1.archetypes.get? daid = some D) :
    (EntityMut.remove w1 s1 b).1 = some vals ∧
    (EntityMut.remove w1 s1 b).2.2.location.archetype_id = D.id ∧
    (EntityMut.remove w1 s1 b).2.2.entity = s1.entity := by
  have hBTSsorted : List.Pairwise (· < ·) BTS :=
    hBTS ▸ List.Pairwise.sublist (List.filter_sublist _) hbsorted
  have hBSSsorted : List.Pairwise (· < ·) BSS :=
    hBSS ▸ List.Pairwise.sublist (List.filter_sublist _) hbsorted
  have hsortBTS : sortNat BTS = BTS := sortNat_of_sorted _ hBTSsorted
  have hsortBSS : sortNat BSS = BSS := sortNat_of_sorted _ hBSSsorted
  have hnodup : b.component_ids.Nodup := hbsorted.imp Nat.ne_of_lt
  have hc : (if (false : Bool) then A.edges.get_remove_bundle_intersection b.id
      else A.edges.get_remove_bundle b.id) = none := by
    rw [if_neg (by simp)]
    show alookup A.edges.remove_bundle b.id = none
    rw [hAedges]
    rfl
  have hclass : classifyRemoved A w1.components false b.component_ids =
      some (BTS, BSS) := by
    rw [classifyRemoved_all_contained A w1.components false b.component_ids hcontain,
      hBTS, hBSS]
  have htid' : (if (sortNat BTS).isEmpty then (A.table_id, w1.storages.tables)
      else tablesGetIdOrInsert w1.storages.tables
        (sorted_remove A.table_components (sortNat BTS))) =
      (dtid, w1.storages.tables) := by
    rw [hsortBTS, hotc]
    exact htabres
  have hna' : archetypesGetIdOrInsert w1.archetypes dtid
      (sorted_remove A.table_components (sortNat BTS))
      (sorted_remove A.sparse_set_components (sortNat BSS)) =
      (daid, w1.archetypes) := by
    rw [hsortBTS, hsortBSS, hotc, hosc]
    exact harchres
  have hrbfa := rbfa_miss_success w1.archetypes w1.storages.tables w1.components
    s1.location.archetype_id b false A BTS BSS dtid w1.storages.tables daid
    w1.archetypes hA hc hclass htid' hna'
  cases htk : takeAll w1.components s1.entity s1.location b.component_ids
      w1.storages w1.removed_components with
  | mk tvals q =>
    cases q with
    | mk st2 rm2 =>
      have hvals : tvals = vals := by
        have h2 := takeAll_fst w1.components s1.entity s1.location b.component_ids
          w1.storages w1.removed_components hnodup
        rw [htk] at h2
        have h3 : tvals = b.component_ids.map (fun c =>
          (take_component w1.storages w1.components [] c s1.entity s1.location).1) := h2
        rw [h3]
        exact map_eq_of_zip _ b.component_ids vals hlen.symm hreads
      obtain ⟨A5, hA5get, _, _, _⟩ := setRemoveEdge_get?_self w1.archetypes
        s1.location.archetype_id b.id false (some daid) A hA
      have hD5 : (setRemoveEdge w1.archetypes s1.location.archetype_id b.id false
          (some daid)).get? daid = some D := by
        unfold setRemoveEdge
        rw [listModify_get?_ne _ _ _ _ (Ne.symm hdne)]
        exact hD
      have hmer := mer_location false s1.entity s1.location.archetype_id s1.location
        w1.entities (setRemoveEdge w1.archetypes s1.location.archetype_id b.id false
          (some daid)) st2 daid A5 D hA5get hdne hD5
      refine ⟨?_, ?_, ?_⟩
      · simp only [EntityMut.remove, hrbfa, if_neg hdne, htk, hvals]
      · simp only [EntityMut.remove, hrbfa, if_neg hdne, htk]
        exact hmer
      · simp only [EntityMut.remove, hrbfa, if_neg hdne, htk]

theorem writeBundleValues_map_columns (components : List StorageType) (e : Entity)
    (L : EntityLocation) : ∀ (pairs : List (ComponentId × Val)) (S : Storages),
    (writeBundleValues S components e L pairs).tables.map Table.columns =
      S.tables.map Table.columns
  | [], _ => rfl
  | (c, v) :: rest, S => by
    show (writeBundleValues (writeComponent S components e L c v)
        components e L rest).tables.map Table.columns = _
    rw [writeBundleValues_map_columns components e L rest
      (writeComponent S components e L c v)]
    exact writeComponent_map_columns S components e L c v

theorem not_mem_of_contains_eq_false {l : List Nat} {c : Nat}
    (h : l.contains c = false) : c ∉ l := by
  intro hm
  rw [contains_eq_true_of_mem hm] at h
  cases h

theorem findIdx?_arch_stable (AS3 base : List Archetype) (X : Archetype)
    (tcs scs : List ComponentId) (i : Nat)
    (hmap : AS3.map Archetype.shape = (base ++ [X]).map Archetype.shape)
    (hfi : base.findIdx? (fun x =>
      x.table_components == tcs && x.sparse_set_components == scs) = some i) :
    AS3.findIdx? (fun x =>
      x.table_components == tcs && x.sparse_set_components == scs) = some i := by
  have h1 := findIdx?_comps_congr tcs scs AS3 (base ++ [X]) 0
    (map_pair_of_map_shape _ _ hmap)
  rw [h1]
  exact findIdx?_append_some _ base [X] 0 i hfi

theorem findIdx?_tbl_stable (TS base : List Table) (X : Table)
    (cs : List ComponentId) (i : Nat)
    (hmap : TS.map Table.columns = (base ++ [X]).map Table.columns)
    (hfi : base.findIdx? (fun tb => tb.columns == cs) = some i) :
    TS.findIdx? (fun tb => tb.columns == cs) = some i := by
  have h1 := findIdx?_columns_congr cs TS (base ++ [X]) 0 hmap
  rw [h1]
  exact findIdx?_append_some _ base [X] 0 i hfi

/-- C3 (amended): inserting a bundle and then strict-removing the same bundle
    type returns `Some` of exactly the inserted values and puts the entity
    back into the archetype it occupied before the insertion, provided the
    bundle is non-empty and disjoint from the entity's current archetype —
    the original unconditional claim is refuted by
    `C3_counterexample_overlapping_bundle`. Stated for a location-consistent
    world with canonically sorted component sets, a fresh add-edge and fresh
    union archetype/table (the insert allocates them), and canonical indices
    for the original table and archetype (the removal finds them again). -/
theorem C3_insert_then_remove_roundtrip
    (w : World) (s : EntityMutState) (b : BundleInfo) (vals : List Val)
    (a : Archetype) (t : Table) (bts bss ntc nsc : List ComponentId)
    (hget : w.archetypes.get? s.location.archetype_id = some a)
    (haid : a.id = s.location.archetype_id)
    (haTid : a.table_id = s.location.table_id)
    (htab : w.storages.tables.get? s.location.table_id = some t)
    (hcols : t.columns = a.table_components)
    (harow : a.entities.get? s.location.archetype_row =
      some ⟨s.entity, s.location.table_row⟩)
    (hrow : s.location.table_row < t.rows.length)
    (hclen : ∀ r ∈ t.rows, r.cells.length = t.columns.length)
    (hsb : List.Pairwise (· < ·) b.component_ids)
    (hst : List.Pairwise (· < ·) a.table_components)
    (hss : List.Pairwise (· < ·) a.sparse_set_components)
    (hbne : b.component_ids ≠ [])
    (hdisj : ∀ c ∈ b.component_ids, a.table_components.contains c = false ∧
      a.sparse_set_components.contains c = false)
    (hbts : b.component_ids.filter (fun c =>
      componentsGetInfoUnchecked w.components c == StorageType.table) = bts)
    (hbss : b.component_ids.filter (fun c =>
      componentsGetInfoUnchecked w.components c == StorageType.sparseSet) = bss)
    (hntc : sortedMerge a.table_components bts = ntc)
    (hnsc : sortedMerge a.sparse_set_components bss = nsc)
    (hfreshAdd : alookup a.edges.add_bundle b.id = none)
    (hfreshArch : w.archetypes.findIdx? (fun x =>
      x.table_components == ntc && x.sparse_set_components == nsc) = none)
    (htfresh : bts ≠ [] → w.storages.tables.findIdx?
      (fun tb => tb.columns == ntc) = none)
    (hcanonT : w.storages.tables.findIdx?
      (fun tb => tb.columns == a.table_components) = some s.location.table_id)
    (hcanonA : w.archetypes.findIdx? (fun x =>
      x.table_components == a.table_components &&
      x.sparse_set_components == a.sparse_set_components) =
      some s.location.archetype_id)
    (hlen : vals.length = b.component_ids.length) :
    (EntityMut.remove (EntityMut.insert w s b vals).1
      (EntityMut.insert w s b vals).2 b).1 = some vals ∧
    (EntityMut.remove (EntityMut.insert w s b vals).1
      (EntityMut.insert w s b vals).2 b).2.2.location.archetype_id =
      s.location.archetype_id ∧
    (EntityMut.remove (EntityMut.insert w s b vals).1
      (EntityMut.insert w s b vals).2 b).2.2.entity = s.entity := by
  have hlt : s.location.archetype_id < w.archetypes.length := list_get?_some_lt hget
  have hTlt : s.location.table_id < w.storages.tables.length := list_get?_some_lt htab
  have hnaidne : w.archetypes.length ≠ s.location.archetype_id := Nat.ne_of_gt hlt
  have hdascne : s.location.archetype_id ≠ w.archetypes.length := Nat.ne_of_lt hlt
  have hbtssub : ∀ c ∈ bts, c ∈ b.component_ids := by
    intro c hc
    refine List.mem_of_mem_filter (p := fun c =>
      componentsGetInfoUnchecked w.components c == StorageType.table) ?_
    rw [hbts]
    exact hc
  have hbsssub : ∀ c ∈ bss, c ∈ b.component_ids := by
    intro c hc
    refine List.mem_of_mem_filter (p := fun c =>
      componentsGetInfoUnchecked w.components c == StorageType.sparseSet) ?_
    rw [hbss]
    exact hc
  have hdisjT : ∀ x ∈ a.table_components, x ∉ bts := by
    intro x hx hmem
    exact not_mem_of_contains_eq_false (hdisj x (hbtssub x hmem)).1 hx
  have hdisjS : ∀ x ∈ a.sparse_set_components, x ∉ bss := by
    intro x hx hmem
    exact not_mem_of_contains_eq_false (hdisj x (hbsssub x hmem)).2 hx
  have hbtsSorted : List.Pairwise (· < ·) bts := by
    rw [← hbts]
    exact List.Pairwise.sublist (List.filter_sublist _) hsb
  have hbssSorted : List.Pairwise (· < ·) bss := by
    rw [← hbss]
    exact List.Pairwise.sublist (List.filter_sublist _) hsb
  have hsrT : sorted_remove ntc bts = a.table_components := by
    rw [← hntc]
    exact sorted_remove_sortedMerge _ _ hst hbtsSorted hdisjT
  have hsrS : sorted_remove nsc bss = a.sparse_set_components := by
    rw [← hnsc]
    exact sorted_remove_sortedMerge _ _ hss hbssSorted hdisjS
  have hcontainNEW : ∀ c ∈ b.component_ids,
      (ntc.contains c || nsc.contains c) = true := by
    intro c hc
    cases hcl : componentsGetInfoUnchecked w.components c with
    | table =>
      have h1 : c ∈ bts := by
        rw [← hbts]
        exact List.mem_filter.mpr ⟨hc, by rw [hcl]; rfl⟩
      have h2 : c ∈ ntc := by
        rw [← hntc]
        exact (mem_sortedMerge _ _ c).mpr (Or.inr h1)
      rw [contains_eq_true_of_mem h2, Bool.true_or]
    | sparseSet =>
      have h1 : c ∈ bss := by
        rw [← hbss]
        exact List.mem_filter.mpr ⟨hc, by rw [hcl]; rfl⟩
      have h2 : c ∈ nsc := by
        rw [← hnsc]
        exact (mem_sortedMerge _ _ c).mpr (Or.inr h1)
      rw [contains_eq_true_of_mem h2, Bool.or_true]
  have hccMem : ∀ p ∈ b.component_ids.zip vals,
      componentsGetInfoUnchecked w.components p.1 = StorageType.table →
        p.1 ∈ bts := by
    intro p hp hcl
    have hpm : p.1 ∈ b.component_ids := by
      cases p with
      | mk p1 p2 => exact (List.of_mem_zip hp).1
    rw [← hbts]
    exact List.mem_filter.mpr ⟨hpm, by rw [hcl]; rfl⟩
  have hkeys : (b.component_ids.zip vals).map Prod.fst = b.component_ids :=
    List.map_fst_zip _ _ (Nat.le_of_eq hlen.symm)
  have hnodup : b.component_ids.Nodup := hsb.imp Nat.ne_of_lt
  have hkeysnd : ((b.component_ids.zip vals).map Prod.fst).Nodup := by
    rw [hkeys]
    exact hnodup
  by_cases hbtsE : bts = []
  · -- bundle is entirely sparse-backed: insert stays in the same table
    have hntcE : ntc = a.table_components := by
      rw [← hntc, hbtsE, sortedMerge_nil_right]
    have hbeq : (ntc == a.table_components) = true := by
      rw [hntcE]
      exact beq_self_eq_true _
    have htidEq : (if ntc == a.table_components then (a.table_id, w.storages.tables)
        else tablesGetIdOrInsert w.storages.tables ntc) =
        (a.table_id, w.storages.tables) := by
      rw [hbeq]
      rfl
    have hnaEq := archetypesGetIdOrInsert_fresh w.archetypes a.table_id ntc nsc hfreshArch
    have habta := abta_miss w.archetypes w.storages.tables w.components
      s.location.archetype_id b a bts bss ntc nsc a.table_id w.storages.tables
      w.archetypes.length
      (w.archetypes ++ [(⟨w.archetypes.length, a.table_id, ntc, nsc, [], Edges.empty⟩ : Archetype)])
      hget hfreshAdd hbts hbss hntc hnsc htidEq hnaEq
    have hA2get : (listModify (w.archetypes ++ [(⟨w.archetypes.length, a.table_id, ntc, nsc, [], Edges.empty⟩ : Archetype)])
          s.location.archetype_id (fun x => { x with edges := { x.edges with add_bundle := ainsert x.edges.add_bundle b.id w.archetypes.length } })).get?
          s.location.archetype_id =
        some { a with edges := { a.edges with add_bundle := ainsert a.edges.add_bundle b.id w.archetypes.length } } := by
      rw [listModify_get?_self, List.get?_append hlt, hget]
      rfl
    have hA2new : (listModify (w.archetypes ++ [(⟨w.archetypes.length, a.table_id, ntc, nsc, [], Edges.empty⟩ : Archetype)])
          s.location.archetype_id (fun x => { x with edges := { x.edges with add_bundle := ainsert x.edges.add_bundle b.id w.archetypes.length } })).get?
          w.archetypes.length =
        some (⟨w.archetypes.length, a.table_id, ntc, nsc, [], Edges.empty⟩ : Archetype) := by
      rw [listModify_get?_ne _ _ _ _ hdascne, List.get?_concat_length]
    have hmefifacts := mefi_same_table s.entity s.location w.entities
      (listModify (w.archetypes ++ [(⟨w.archetypes.length, a.table_id, ntc, nsc, [], Edges.empty⟩ : Archetype)])
          s.location.archetype_id (fun x => { x with edges := { x.edges with add_bundle := ainsert x.edges.add_bundle b.id w.archetypes.length } }))
      w.storages w.archetypes.length
      { a with edges := { a.edges with add_bundle := ainsert a.edges.add_bundle b.id w.archetypes.length } }
      (⟨w.archetypes.length, a.table_id, ntc, nsc, [], Edges.empty⟩ : Archetype)
      hA2get hnaidne hA2new harow rfl
    cases hmefi : move_entity_from_insert s.entity s.location w.entities
        (listModify (w.archetypes ++ [(⟨w.archetypes.length, a.table_id, ntc, nsc, [], Edges.empty⟩ : Archetype)])
            s.location.archetype_id (fun x => { x with edges := { x.edges with add_bundle := ainsert x.edges.add_bundle b.id w.archetypes.length } }))
        w.storages w.archetypes.length with
    | mk nl rest =>
      cases rest with
      | mk E2 rest2 =>
        cases rest2 with
        | mk AS3 S2 =>
          rw [hmefi] at hmefifacts
          obtain ⟨hnl1, hshape3, hnaid3, hS2⟩ := hmefifacts
          subst hS2
          have hnl1' : nl = ⟨w.archetypes.length, 0, a.table_id,
              s.location.table_row⟩ := hnl1
          have hins1 : (EntityMut.insert w s b vals).1 =
              { w with entities := E2, archetypes := AS3, storages := writeBundleValues w.storages w.components s.entity nl (b.component_ids.zip vals) } := by
            simp only [EntityMut.insert, habta, if_neg hnaidne, hmefi]
          have hins2 : (EntityMut.insert w s b vals).2 =
              { s with location := nl } := by
            simp only [EntityMut.insert, habta, if_neg hnaidne, hmefi]
          have hAS2shape : (listModify (w.archetypes ++ [(⟨w.archetypes.length, a.table_id, ntc, nsc, [], Edges.empty⟩ : Archetype)])
                s.location.archetype_id (fun x => { x with edges := { x.edges with add_bundle := ainsert x.edges.add_bundle b.id w.archetypes.length } })).map Archetype.shape =
              (w.archetypes ++ [(⟨w.archetypes.length, a.table_id, ntc, nsc, [], Edges.empty⟩ : Archetype)]).map Archetype.shape :=
            map_listModify_eq Archetype.shape _ _ _ (fun x => rfl)
          have hfi3 := findIdx?_arch_stable AS3 w.archetypes
            (⟨w.archetypes.length, a.table_id, ntc, nsc, [], Edges.empty⟩ : Archetype)
            a.table_components a.sparse_set_components s.location.archetype_id
            (hshape3.trans hAS2shape) hcanonA
          obtain ⟨D, hDget, hDsh⟩ := get?_of_map_eq Archetype.shape AS3
            (w.archetypes ++ [(⟨w.archetypes.length, a.table_id, ntc, nsc, [], Edges.empty⟩ : Archetype)])
            s.location.archetype_id (hshape3.trans hAS2shape) a
            (by rw [List.get?_append hlt]; exact hget)
          have hDid : D.id = a.id := congrArg
            (fun q : ArchetypeId × TableId × List ComponentId × List ComponentId =>
              q.1) hDsh
          have hInvA : ∃ tb, w.storages.tables.get? nl.table_id = some tb ∧
              tb.columns = a.table_components ∧
              ∃ r, tb.rows.get? nl.table_row = some r ∧
                r.cells.length = a.table_components.length := by
            rw [hnl1']
            refine ⟨t, ?_, hcols, t.rows.get ⟨s.location.table_row, hrow⟩, ?_, ?_⟩
            · show w.storages.tables.get? a.table_id = some t
              rw [haTid]
              exact htab
            · show t.rows.get? s.location.table_row = _
              exact List.get?_eq_get hrow
            · rw [← hcols]
              exact hclen _ (List.get?_mem (List.get?_eq_get hrow))
          have hccA : ∀ p ∈ b.component_ids.zip vals,
              componentsGetInfoUnchecked w.components p.1 = StorageType.table →
                p.1 ∈ a.table_components := by
            intro p hp hcl
            have h1 := hccMem p hp hcl
            rw [hbtsE] at h1
            cases h1
          have hreads' : ∀ p ∈ b.component_ids.zip vals,
              (take_component (writeBundleValues w.storages w.components s.entity nl
                (b.component_ids.zip vals)) w.components [] p.1 s.entity nl).1 =
                p.2 := by
            intro p hp
            cases p with
            | mk c v =>
              exact writeBundleValues_read_mem w.components s.entity nl
                a.table_components (b.component_ids.zip vals) w.storages c v
                hInvA hkeysnd hp hccA
          have hgoal := remove_restores
            { w with entities := E2, archetypes := AS3, storages := writeBundleValues w.storages w.components s.entity nl (b.component_ids.zip vals) }
            { s with location := nl } b vals
            (⟨w.archetypes.length, a.table_id, ntc, nsc, [] ++ [⟨s.entity, s.location.table_row⟩], Edges.empty⟩ : Archetype)
            D bts bss a.table_components a.sparse_set_components a.table_id
            s.location.archetype_id
            (by show AS3.get? nl.archetype_id = _
                rw [hnl1']
                exact hnaid3)
            rfl
            (fun c hc => hcontainNEW c hc)
            hsb hlen hreads' hbts hbss hsrT hsrS
            (by rw [hbtsE]; rfl)
            (archetypesGetIdOrInsert_hit AS3 a.table_id a.table_components
              a.sparse_set_components s.location.archetype_id hfi3)
            (by show s.location.archetype_id ≠ nl.archetype_id
                rw [hnl1']
                exact hdascne)
            hDget
          rw [hins1, hins2]
          refine ⟨hgoal.1, ?_, hgoal.2.2⟩
          rw [hgoal.2.1, hDid, haid]
  · -- the bundle adds table columns: insert moves the entity to a new table
    have hntcneq : ntc ≠ a.table_components := by
      obtain ⟨c0, r0, hc0⟩ := List.exists_cons_of_ne_nil hbtsE
      have hc0bts : c0 ∈ bts := by rw [hc0]; exact List.mem_cons_self _ _
      have hc0ntc : c0 ∈ ntc := by
        rw [← hntc]
        exact (mem_sortedMerge _ _ c0).mpr (Or.inr hc0bts)
      have hc0no : c0 ∉ a.table_components :=
        not_mem_of_contains_eq_false (hdisj c0 (hbtssub c0 hc0bts)).1
      intro he
      rw [he] at hc0ntc
      exact hc0no hc0ntc
    have hbeqF : (ntc == a.table_components) = false :=
      beq_eq_false_iff_ne.mpr hntcneq
    have htidEqB : (if ntc == a.table_components then (a.table_id, w.storages.tables)
        else tablesGetIdOrInsert w.storages.tables ntc) =
        (w.storages.tables.length,
         w.storages.tables ++ [(⟨ntc, []⟩ : Table)]) := by
      rw [hbeqF]
      rw [if_neg (by simp)]
      exact tablesGetIdOrInsert_fresh _ _ (htfresh hbtsE)
    have hnaEqB := archetypesGetIdOrInsert_fresh w.archetypes
      w.storages.tables.length ntc nsc hfreshArch
    have habta := abta_miss w.archetypes w.storages.tables w.components
      s.location.archetype_id b a bts bss ntc nsc w.storages.tables.length
      (w.storages.tables ++ [(⟨ntc, []⟩ : Table)])
      w.archetypes.length
      (w.archetypes ++ [(⟨w.archetypes.length, w.storages.tables.length, ntc, nsc, [], Edges.empty⟩ : Archetype)])
      hget hfreshAdd hbts hbss hntc hnsc htidEqB hnaEqB
    have hA2get : (listModify (w.archetypes ++ [(⟨w.archetypes.length, w.storages.tables.length, ntc, nsc, [], Edges.empty⟩ : Archetype)])
          s.location.archetype_id (fun x => { x with edges := { x.edges with add_bundle := ainsert x.edges.add_bundle b.id w.archetypes.length } })).get?
          s.location.archetype_id =
        some { a with edges := { a.edges with add_bundle := ainsert a.edges.add_bundle b.id w.archetypes.length } } := by
      rw [listModify_get?_self, List.get?_append hlt, hget]
      rfl
    have hA2new : (listModify (w.archetypes ++ [(⟨w.archetypes.length, w.storages.tables.length, ntc, nsc, [], Edges.empty⟩ : Archetype)])
          s.location.archetype_id (fun x => { x with edges := { x.edges with add_bundle := ainsert x.edges.add_bundle b.id w.archetypes.length } })).get?
          w.archetypes.length =
        some (⟨w.archetypes.length, w.storages.tables.length, ntc, nsc, [], Edges.empty⟩ : Archetype) := by
      rw [listModify_get?_ne _ _ _ _ hdascne, List.get?_concat_length]
    have hmefifacts := mefi_diff_table s.entity s.location w.entities
      (listModify (w.archetypes ++ [(⟨w.archetypes.length, w.storages.tables.length, ntc, nsc, [], Edges.empty⟩ : Archetype)])
          s.location.archetype_id (fun x => { x with edges := { x.edges with add_bundle := ainsert x.edges.add_bundle b.id w.archetypes.length } }))
      { w.storages with tables := w.storages.tables ++
        [(⟨ntc, []⟩ : Table)] }
      w.archetypes.length
      { a with edges := { a.edges with add_bundle := ainsert a.edges.add_bundle b.id w.archetypes.length } }
      (⟨w.archetypes.length, w.storages.tables.length, ntc, nsc, [], Edges.empty⟩ : Archetype)
      t (⟨ntc, []⟩ : Table) (t.rows.get ⟨s.location.table_row, hrow⟩)
      hA2get hnaidne hA2new harow
      (by show ¬ a.table_id = w.storages.tables.length
          rw [haTid]
          exact Nat.ne_of_lt hTlt)
      (by show (w.storages.tables ++ [(⟨ntc, []⟩ : Table)]).get?
            a.table_id = some t
          rw [haTid, List.get?_append hTlt]
          exact htab)
      (by show (w.storages.tables ++ [(⟨ntc, []⟩ : Table)]).get?
            w.storages.tables.length = some (⟨ntc, []⟩ : Table)
          exact List.get?_concat_length _ _)
      rfl rfl (List.get?_eq_get hrow)
    cases hmefi : move_entity_from_insert s.entity s.location w.entities
        (listModify (w.archetypes ++ [(⟨w.archetypes.length, w.storages.tables.length, ntc, nsc, [], Edges.empty⟩ : Archetype)])
            s.location.archetype_id (fun x => { x with edges := { x.edges with add_bundle := ainsert x.edges.add_bundle b.id w.archetypes.length } }))
        { w.storages with tables := w.storages.tables ++
          [(⟨ntc, []⟩ : Table)] }
        w.archetypes.length with
    | mk nl rest =>
      cases rest with
      | mk E2 rest2 =>
        cases rest2 with
        | mk AS3 S2 =>
          rw [hmefi] at hmefifacts
          obtain ⟨hnl1, hshape3, ⟨ents, hnaid3⟩, hsparse2, hcolsmap2,
            row1, hdst2, hrow1len⟩ := hmefifacts
          have hnl1' : nl = ⟨w.archetypes.length, 0,
              w.storages.tables.length, 0⟩ := hnl1
          have hins1 : (EntityMut.insert w s b vals).1 =
              { w with entities := E2, archetypes := AS3, storages := writeBundleValues S2 w.components s.entity nl (b.component_ids.zip vals) } := by
            simp only [EntityMut.insert, habta, if_neg hnaidne, hmefi]
          have hins2 : (EntityMut.insert w s b vals).2 =
              { s with location := nl } := by
            simp only [EntityMut.insert, habta, if_neg hnaidne, hmefi]
          have hAS2shape : (listModify (w.archetypes ++ [(⟨w.archetypes.length, w.storages.tables.length, ntc, nsc, [], Edges.empty⟩ : Archetype)])
                s.location.archetype_id (fun x => { x with edges := { x.edges with add_bundle := ainsert x.edges.add_bundle b.id w.archetypes.length } })).map Archetype.shape =
              (w.archetypes ++ [(⟨w.archetypes.length, w.storages.tables.length, ntc, nsc, [], Edges.empty⟩ : Archetype)]).map Archetype.shape :=
            map_listModify_eq Archetype.shape _ _ _ (fun x => rfl)
          have hfi3 := findIdx?_arch_stable AS3 w.archetypes
            (⟨w.archetypes.length, w.storages.tables.length, ntc, nsc, [], Edges.empty⟩ : Archetype)
            a.table_components a.sparse_set_components s.location.archetype_id
            (hshape3.trans hAS2shape) hcanonA
          obtain ⟨D, hDget, hDsh⟩ := get?_of_map_eq Archetype.shape AS3
            (w.archetypes ++ [(⟨w.archetypes.length, w.storages.tables.length, ntc, nsc, [], Edges.empty⟩ : Archetype)])
            s.location.archetype_id (hshape3.trans hAS2shape) a
            (by rw [List.get?_append hlt]; exact hget)
          have hDid : D.id = a.id := congrArg
            (fun q : ArchetypeId × TableId × List ComponentId × List ComponentId =>
              q.1) hDsh
          have hInvB : ∃ tb, S2.tables.get? nl.table_id = some tb ∧
              tb.columns = ntc ∧
              ∃ r, tb.rows.get? nl.table_row = some r ∧
                r.cells.length = ntc.length := by
            rw [hnl1']
            refine ⟨(⟨ntc, [row1]⟩ : Table), ?_, rfl, row1, rfl, hrow1len⟩
            exact hdst2
          have hccB : ∀ p ∈ b.component_ids.zip vals,
              componentsGetInfoUnchecked w.components p.1 = StorageType.table →
                p.1 ∈ ntc := by
            intro p hp hcl
            have h1 := hccMem p hp hcl
            rw [← hntc]
            exact (mem_sortedMerge _ _ p.1).mpr (Or.inr h1)
          have hreads' : ∀ p ∈ b.component_ids.zip vals,
              (take_component (writeBundleValues S2 w.components s.entity nl
                (b.component_ids.zip vals)) w.components [] p.1 s.entity nl).1 =
                p.2 := by
            intro p hp
            cases p with
            | mk c v =>
              exact writeBundleValues_read_mem w.components s.entity nl
                ntc (b.component_ids.zip vals) S2 c v hInvB hkeysnd hp hccB
          have hbneEmpty : bts.isEmpty = false := by
            obtain ⟨c0, r0, hc0⟩ := List.exists_cons_of_ne_nil hbtsE
            rw [hc0]
            rfl
          have hwtblmap : (writeBundleValues S2 w.components s.entity nl
              (b.component_ids.zip vals)).tables.map Table.columns =
              (w.storages.tables ++ [(⟨ntc, []⟩ : Table)]).map
                Table.columns := by
            rw [writeBundleValues_map_columns, hcolsmap2]
          have hfiT := findIdx?_tbl_stable
            (writeBundleValues S2 w.components s.entity nl
              (b.component_ids.zip vals)).tables
            w.storages.tables (⟨ntc, []⟩ : Table)
            a.table_components s.location.table_id hwtblmap hcanonT
          have hgoal := remove_restores
            { w with entities := E2, archetypes := AS3, storages := writeBundleValues S2 w.components s.entity nl (b.component_ids.zip vals) }
            { s with location := nl } b vals
            (⟨w.archetypes.length, w.storages.tables.length, ntc, nsc, ents, Edges.empty⟩ : Archetype)
            D bts bss a.table_components a.sparse_set_components
            s.location.table_id s.location.archetype_id
            (by show AS3.get? nl.archetype_id = _
                rw [hnl1']
                exact hnaid3)
            rfl
            (fun c hc => hcontainNEW c hc)
            hsb hlen hreads' hbts hbss hsrT hsrS
            (by rw [hbneEmpty]
                rw [if_neg (by simp)]
                exact tablesGetIdOrInsert_hit _ _ _ hfiT)
            (archetypesGetIdOrInsert_hit AS3 s.location.table_id a.table_components
              a.sparse_set_components s.location.archetype_id hfi3)
            (by show s.location.archetype_id ≠ nl.archetype_id
                rw [hnl1']
                exact hdascne)
            hDget
          rw [hins1, hins2]
          refine ⟨hgoal.1, ?_, hgoal.2.2⟩
          rw [hgoal.2.1, hDid, haid]

/-- Counterexample to C3 as stated: inserting bundle `{0}` on an entity that
    already owns component 0 is an in-place overwrite (archetype unchanged),
    but then strict-removing the same bundle type moves the entity out of its
    archetype — the removal returns `Some` of the inserted value, yet the
    entity does not end in the archetype it occupied before the insertion.
    The unconditional claim is false whenever the bundle overlaps the
    entity's archetype (and for the empty bundle, whose removal returns
    `None`); the amended theorem adds the disjointness/non-emptiness
    hypothesis. -/
theorem C3_counterexample_overlapping_bundle :
    (EntityMut.remove (EntityMut.insert worldOneComp stateA0 bundleA [7]).1
        (EntityMut.insert worldOneComp stateA0 bundleA [7]).2 bundleA).1 =
      some [7] ∧
    (EntityMut.remove (EntityMut.insert worldOneComp stateA0 bundleA [7]).1
        (EntityMut.insert worldOneComp stateA0 bundleA
          [7]).2 bundleA).2.2.location.archetype_id ≠
      stateA0.location.archetype_id := by decide

/-- Witness for the amended C3: inserting the disjoint bundle `{1}` with
    value 7 on the one-component fixture and strict-removing it returns
    `some [7]` and restores archetype 0. -/
theorem C3_witness :
    (EntityMut.remove (EntityMut.insert worldOneComp stateA0 bundleSparse [7]).1
      (EntityMut.insert worldOneComp stateA0 bundleSparse [7]).2 bundleSparse).1 =
        some [7] ∧
    (EntityMut.remove (EntityMut.insert worldOneComp stateA0 bundleSparse [7]).1
      (EntityMut.insert worldOneComp stateA0 bundleSparse
        [7]).2 bundleSparse).2.2.location.archetype_id =
      stateA0.location.archetype_id ∧
    (EntityMut.remove (EntityMut.insert worldOneComp stateA0 bundleSparse [7]).1
      (EntityMut.insert worldOneComp stateA0 bundleSparse
        [7]).2 bundleSparse).2.2.entity = stateA0.entity :=
  C3_insert_then_remove_roundtrip worldOneComp stateA0 bundleSparse [7]
    ⟨0, 0, [0], [], [⟨entA, 0⟩], Edges.empty⟩ ⟨[0], [⟨entA, [5]⟩]⟩
    [1] [] [0, 1] []
    (by decide) (by decide) (by decide) (by decide) (by decide) (by decide)
    (by decide) (by decide) (by decide) (by decide) (by decide) (by decide)
    (by decide) (by decide) (by decide) (by decide) (by decide) (by decide)
    (by decide) (by decide) (by decide) (by decide) (by decide)

end BevyEcs
